import Mathlib

/-!
Verification of the chat-circuit node-tree command/undo engine and the
conversation-context / re-run coordination logic, shallowly embedded from
`src/app.py` (the monolithic application file the claims cite) and
`src/worker.py`.

Modelling conventions:
* A `FormWidget` (one conversation node) is identified by a natural-number
  id; the mutable Python object store is a function `Nat → Form` together
  with an allocation bound `nextId` (ids `≥ nextId` are unallocated junk).
* The single `QGraphicsScene` is modelled by membership flags
  `inScene` (forms) and `linkInScene` (`LinkLine` objects).
* `QPointF` positions are pairs of integers: the commands only ever copy,
  add and subtract positions, so the exact scalar type is irrelevant to
  the claims.
* Unbounded Python recursion / `while` loops over the tree are embedded
  with an explicit fuel argument; `nextId` is always enough fuel because
  every reachable world satisfies the parent-id < child-id invariant.
-/

namespace ChatCircuit

/-- A position on the canvas (`QPointF`). -/
abbrev Pos := Int × Int

/-- The state of one `FormWidget` (src/app.py:953-...): tree links, canvas
position/size, prompt text (`input_box`), rendered response
(`markdown_content` plus the plain text shown in `conversation_area`),
model id, and the file picker's selection. -/
structure Form where
  parent_form : Option Nat
  child_forms : List Nat
  link_line : Option Nat
  pos : Pos
  width : Int
  height : Int
  input_text : String
  markdown_content : String
  conv_text : String
  model : String
  selected_files : List String
  deriving Repr, DecidableEq

/-- `FormWidget.__init__(parent, model)` (src/app.py:954-966): fresh node
with the given parent and model, no children, no link line, empty texts.
(The initial widget geometry is layout-driven chrome; it is recorded as 0
and never observed by any claim.) -/
def newFormWidget (parent : Option Nat) (model : String) : Form :=
  { parent_form := parent
    child_forms := []
    link_line := none
    pos := (0, 0)
    width := 0
    height := 0
    input_text := ""
    markdown_content := ""
    conv_text := ""
    model := model
    selected_files := [] }

/-- The whole mutable state touched by the core: the store of allocated
`FormWidget`s, the store of `LinkLine`s, and scene membership of both. -/
structure World where
  form : Nat → Form
  nextId : Nat
  inScene : Nat → Bool
  linkParent : Nat → Nat
  linkChild : Nat → Nat
  nextLink : Nat
  linkInScene : Nat → Bool

namespace World

/-- Overwrite the form stored at id `i`. -/
def setForm (w : World) (i : Nat) (f : Form) : World :=
  { w with form := fun j => if j = i then f else w.form j }

/-- Update the form stored at id `i`. -/
def updForm (w : World) (i : Nat) (g : Form → Form) : World :=
  w.setForm i (g (w.form i))

/-- `scene.addItem(form)`. -/
def addScene (w : World) (i : Nat) : World :=
  { w with inScene := fun j => if j = i then true else w.inScene j }

/-- `scene.removeItem(form)`. -/
def removeScene (w : World) (i : Nat) : World :=
  { w with inScene := fun j => if j = i then false else w.inScene j }

/-- `scene.addItem(link_line)`. -/
def addLinkScene (w : World) (l : Nat) : World :=
  { w with linkInScene := fun m => if m = l then true else w.linkInScene m }

/-- `scene.removeItem(link_line)`. -/
def removeLinkScene (w : World) (l : Nat) : World :=
  { w with linkInScene := fun m => if m = l then false else w.linkInScene m }

/-- Allocate a fresh `LinkLine(parent, child)` object; returns its id. -/
def newLink (w : World) (p c : Nat) : World × Nat :=
  ({ w with
      linkParent := fun m => if m = w.nextLink then p else w.linkParent m
      linkChild := fun m => if m = w.nextLink then c else w.linkChild m
      nextLink := w.nextLink + 1 }, w.nextLink)

/-- Allocate a fresh `FormWidget`; returns its id. -/
def newForm (w : World) (f : Form) : World × Nat :=
  ({ w with
      form := fun j => if j = w.nextId then f else w.form j
      nextId := w.nextId + 1 }, w.nextId)

end World

/-! ## Tree mutation commands (src/app.py:392-542)

Each Python command object is a structure holding exactly the state the
source captures; `execute`/`undo` return the updated command object
together with the updated world, mirroring the object's self-mutation. -/

/-- `CreateFormCommand` (src/app.py:402-431). `link_line` is the command's
own captured reference to the created `LinkLine`. -/
structure CreateFormCommand where
  parent_form : Option Nat
  position : Option Pos
  model : String
  created_form : Option Nat
  link_line : Option Nat
  deriving Repr, DecidableEq

/-- `CreateFormCommand.__init__` (src/app.py:403-409). -/
def CreateFormCommand.mk' (parent : Option Nat) (position : Option Pos)
    (model : String) : CreateFormCommand :=
  { parent_form := parent, position := position, model := model
    created_form := none, link_line := none }

/-- `CreateFormCommand.execute` (src/app.py:411-420): create the widget,
add it to the scene, position it, and when parented append it to the
parent's `child_forms` and create the visual link. -/
def CreateFormCommand.execute (c : CreateFormCommand) (w : World) :
    CreateFormCommand × World :=
  let a := w.newForm (newFormWidget c.parent_form c.model)
  let k := a.2
  let w := a.1.addScene k
  let w := match c.position with
    | some p => w.updForm k (fun f => { f with pos := p })
    | none => w
  match c.parent_form with
  | some pid =>
      let w := w.updForm pid (fun f => { f with child_forms := f.child_forms ++ [k] })
      let b := w.newLink pid k
      let ln := b.2
      let w := b.1.addLinkScene ln
      let w := w.updForm k (fun f => { f with link_line := some ln })
      ({ c with created_form := some k, link_line := some ln }, w)
  | none => ({ c with created_form := some k, link_line := none }, w)

/-- `CreateFormCommand.undo` (src/app.py:422-431): remove the created form
from the scene, remove it from the parent's `child_forms` if present,
remove the link line, then drop both references. -/
def CreateFormCommand.undo (c : CreateFormCommand) (w : World) :
    CreateFormCommand × World :=
  match c.created_form with
  | none => (c, w)
  | some k =>
      let w := if w.inScene k then w.removeScene k else w
      let w := match c.parent_form with
        | some pid =>
            if k ∈ (w.form pid).child_forms then
              w.updForm pid (fun f => { f with child_forms := f.child_forms.erase k })
            else w
        | none => w
      let w := match c.link_line with
        | some ln => if w.linkInScene ln then w.removeLinkScene ln else w
        | none => w
      ({ c with created_form := none, link_line := none }, w)

/-- `DeleteFormCommand` (src/app.py:434-473). The `__init__` also copies
`form.child_forms`, `form.link_line` and `form.pos()` into attributes that
`execute`/`undo` never read; those dead captures are omitted.
`deleted_subtree` is the recorded list of `(form, position, link_line)`
triples in deletion order. -/
structure DeleteFormCommand where
  form : Nat
  parent_form : Option Nat
  deleted_subtree : List (Nat × Pos × Option Nat)
  deriving Repr, DecidableEq

/-- `DeleteFormCommand.__init__` (src/app.py:435-442). -/
def DeleteFormCommand.mk' (w : World) (i : Nat) : DeleteFormCommand :=
  { form := i, parent_form := (w.form i).parent_form, deleted_subtree := [] }

/-- `DeleteFormCommand._delete_subtree` (src/app.py:454-465): depth-first,
children before the node itself; removes every visited form (and its link
line) from the scene and records `(form, pos, link_line)` in visit order.
`fuel` bounds the Python recursion depth. -/
def delete_subtree_go (w : World) : Nat → Nat → World × List (Nat × Pos × Option Nat)
  | 0, _ => (w, [])
  | fuel + 1, i =>
      let a := ((w.form i).child_forms).foldl
        (fun (acc : World × List (Nat × Pos × Option Nat)) c =>
          let r := delete_subtree_go acc.1 fuel c
          (r.1, acc.2 ++ r.2))
        (w, [])
      let w1 := a.1
      let w1 := if w1.inScene i then w1.removeScene i else w1
      let w1 := match (w1.form i).link_line with
        | some ln => if w1.linkInScene ln then w1.removeLinkScene ln else w1
        | none => w1
      (w1, a.2 ++ [(i, (w1.form i).pos, (w1.form i).link_line)])

/-- `DeleteFormCommand.execute` (src/app.py:444-447). -/
def DeleteFormCommand.execute (c : DeleteFormCommand) (w : World) :
    DeleteFormCommand × World :=
  let r := delete_subtree_go w w.nextId c.form
  let w1 := r.1
  let w1 := match c.parent_form with
    | some p =>
        if c.form ∈ (w1.form p).child_forms then
          w1.updForm p (fun f => { f with child_forms := f.child_forms.erase c.form })
        else w1
    | none => w1
  ({ c with deleted_subtree := r.2 }, w1)

/-- `DeleteFormCommand._restore_subtree` (src/app.py:467-473): walk the
captured triples in reverse, re-adding each form to the scene, restoring
its position, and re-adding its link line. -/
def restore_subtree (w : World) (items : List (Nat × Pos × Option Nat)) : World :=
  items.reverse.foldl
    (fun w item =>
      let w := w.addScene item.1
      let w := w.updForm item.1 (fun f => { f with pos := item.2.1 })
      match item.2.2 with
      | some ln =>
          (w.addLinkScene ln).updForm item.1 (fun f => { f with link_line := some ln })
      | none => w)
    w

/-- `DeleteFormCommand.undo` (src/app.py:449-452): restore the subtree and
re-append the deleted form to its parent's `child_forms`. -/
def DeleteFormCommand.undo (c : DeleteFormCommand) (w : World) :
    DeleteFormCommand × World :=
  let w1 := restore_subtree w c.deleted_subtree
  match c.parent_form with
  | some p =>
      (c, w1.updForm p (fun f => { f with child_forms := f.child_forms ++ [c.form] }))
  | none => (c, w1)

/-- `MoveFormCommand` (src/app.py:476-490). `link_line.update_position()`
only recomputes on-screen geometry, which the model does not track. -/
structure MoveFormCommand where
  form : Nat
  old_pos : Pos
  new_pos : Pos
  deriving Repr, DecidableEq

/-- `MoveFormCommand.execute` (src/app.py:482-485). -/
def MoveFormCommand.execute (c : MoveFormCommand) (w : World) :
    MoveFormCommand × World :=
  (c, w.updForm c.form (fun f => { f with pos := c.new_pos }))

/-- `MoveFormCommand.undo` (src/app.py:487-490). -/
def MoveFormCommand.undo (c : MoveFormCommand) (w : World) :
    MoveFormCommand × World :=
  (c, w.updForm c.form (fun f => { f with pos := c.old_pos }))

/-- `CloneBranchCommand` (src/app.py:493-542). -/
structure CloneBranchCommand where
  source_form : Nat
  cloned_forms : List Nat
  parent_form : Option Nat
  deriving Repr, DecidableEq

/-- `CloneBranchCommand.__init__` (src/app.py:494-498). -/
def CloneBranchCommand.mk' (source : Nat) : CloneBranchCommand :=
  { source_form := source, cloned_forms := [], parent_form := none }

/-- `CloneBranchCommand._clone_branch` (src/app.py:518-542): deep-copy the
subtree rooted at `src`, attaching the copy under `parent` at `position`;
the clone copies the source's model, prompt text and displayed
conversation text (but not `markdown_content` or the file selection), and
each cloned child sits at
`cloned_parent.pos + (original_child.pos - original_parent.pos)`.
Returns the clones in creation (root-first, depth-first) order. -/
def clone_branch_go (w : World) :
    Nat → Nat → Option Nat → Pos → World × List Nat
  | 0, _, _, _ => (w, [])
  | fuel + 1, src, parent, position =>
      let f0 := newFormWidget parent ((w.form src).model)
      let f0 := { f0 with
        pos := position
        input_text := (w.form src).input_text
        conv_text := (w.form src).conv_text }
      let a := w.newForm f0
      let k := a.2
      let w := a.1.addScene k
      let w := match parent with
        | some p =>
            let w := w.updForm p (fun f => { f with child_forms := f.child_forms ++ [k] })
            let b := w.newLink p k
            let w := b.1.addLinkScene b.2
            w.updForm k (fun f => { f with link_line := some b.2 })
        | none => w
      ((w.form src).child_forms).foldl
        (fun (acc : World × List Nat) c =>
          let childPos := position + ((acc.1.form c).pos - (acc.1.form src).pos)
          let r := clone_branch_go acc.1 fuel c (some k) childPos
          (r.1, acc.2 ++ r.2))
        (w, [k])

/-- `CloneBranchCommand.execute` (src/app.py:500-505): clone the branch as
a sibling of the source, offset by `(200, 600)`. -/
def CloneBranchCommand.execute (c : CloneBranchCommand) (w : World) :
    CloneBranchCommand × World :=
  let p := (w.form c.source_form).parent_form
  let newPos := (w.form c.source_form).pos + ((200 : Int), (600 : Int))
  let r := clone_branch_go w w.nextId c.source_form p newPos
  ({ c with parent_form := p, cloned_forms := r.2 }, r.1)

/-- `CloneBranchCommand.undo` (src/app.py:507-516): remove every recorded
clone (and its link line) from the scene, then filter the clones out of
the parent's `child_forms`. -/
def CloneBranchCommand.undo (c : CloneBranchCommand) (w : World) :
    CloneBranchCommand × World :=
  let w1 := c.cloned_forms.foldl
    (fun w i =>
      let w := if w.inScene i then w.removeScene i else w
      match (w.form i).link_line with
      | some ln => if w.linkInScene ln then w.removeLinkScene ln else w
      | none => w)
    w
  match c.parent_form with
  | some p =>
      (c, w1.updForm p (fun f =>
        { f with child_forms := f.child_forms.filter (fun x => !c.cloned_forms.contains x) }))
  | none => (c, w1)

/-! ## Command dispatch and the invoker (src/app.py:313-333) -/

/-- A user gesture: the arguments a command object is constructed from. -/
inductive CmdSpec
  | create (parent : Option Nat) (position : Option Pos) (model : String)
  | delete (form : Nat)
  | move (form : Nat) (old_pos new_pos : Pos)
  | cloneBranch (source : Nat)
  deriving Repr, DecidableEq

/-- A live command object (one variant per Python command class). -/
inductive CmdInst
  | create (c : CreateFormCommand)
  | delete (c : DeleteFormCommand)
  | move (c : MoveFormCommand)
  | cloneBranch (c : CloneBranchCommand)
  deriving Repr, DecidableEq

/-- Construct the command object for a gesture against the current world
(each Python `__init__` captures from the live tree). -/
def mkCmd (s : CmdSpec) (w : World) : CmdInst :=
  match s with
  | .create parent position model => .create (CreateFormCommand.mk' parent position model)
  | .delete i => .delete (DeleteFormCommand.mk' w i)
  | .move i op np => .move { form := i, old_pos := op, new_pos := np }
  | .cloneBranch src => .cloneBranch (CloneBranchCommand.mk' src)

/-- Polymorphic `command.execute()`. -/
def CmdInst.execute (c : CmdInst) (w : World) : CmdInst × World :=
  match c with
  | .create c => let r := c.execute w; (.create r.1, r.2)
  | .delete c => let r := c.execute w; (.delete r.1, r.2)
  | .move c => let r := c.execute w; (.move r.1, r.2)
  | .cloneBranch c => let r := c.execute w; (.cloneBranch r.1, r.2)

/-- Polymorphic `command.undo()`. -/
def CmdInst.undo (c : CmdInst) (w : World) : CmdInst × World :=
  match c with
  | .create c => let r := c.undo w; (.create r.1, r.2)
  | .delete c => let r := c.undo w; (.delete r.1, r.2)
  | .move c => let r := c.undo w; (.move r.1, r.2)
  | .cloneBranch c => let r := c.undo w; (.cloneBranch r.1, r.2)

/-- `CommandInvoker` (src/app.py:313-316): two stacks, most-recent last. -/
structure CommandInvoker where
  history : List CmdInst
  redo_stack : List CmdInst
  deriving Repr, DecidableEq

namespace CommandInvoker

/-- `CommandInvoker.execute(command)` (src/app.py:318-321): run the
command, append it to `history`, clear `redo_stack`. -/
def executeCmd (inv : CommandInvoker) (cmd : CmdInst) (w : World) :
    CommandInvoker × World :=
  let r := cmd.execute w
  ({ history := inv.history ++ [r.1], redo_stack := [] }, r.2)

/-- `CommandInvoker.undo` (src/app.py:323-327): pop the last executed
command, undo it, push it on `redo_stack`; no-op on empty history. -/
def undoStep (inv : CommandInvoker) (w : World) : CommandInvoker × World :=
  match inv.history.getLast? with
  | none => (inv, w)
  | some cmd =>
      let r := cmd.undo w
      ({ history := inv.history.dropLast, redo_stack := inv.redo_stack ++ [r.1] }, r.2)

/-- `CommandInvoker.redo` (src/app.py:329-333): pop the last undone
command, re-execute it, push it back on `history`; no-op on empty
`redo_stack`. -/
def redoStep (inv : CommandInvoker) (w : World) : CommandInvoker × World :=
  match inv.redo_stack.getLast? with
  | none => (inv, w)
  | some cmd =>
      let r := cmd.execute w
      ({ history := inv.history ++ [r.1], redo_stack := inv.redo_stack.dropLast }, r.2)

end CommandInvoker

/-- A user gesture routed through the scene's invoker: construct the
command from the live tree, then `command_invoker.execute(command)`
(src/app.py:1340-1345). -/
def invokeGesture (s : CmdSpec) (inv : CommandInvoker) (w : World) :
    CommandInvoker × World :=
  inv.executeCmd (mkCmd s w) w

/-! ## Context assembly and submission (src/app.py:1374-1494) -/

/-- One `{role, content}` chat message. -/
structure Msg where
  role : String
  content : String
  deriving Repr, DecidableEq

/-- Python `str.strip()`: the string with leading and trailing whitespace
removed. -/
def pyStrip (s : String) : String :=
  ⟨((s.data.dropWhile Char.isWhitespace).reverse.dropWhile Char.isWhitespace).reverse⟩

/-- `os.linesep` on the POSIX platforms the app targets. -/
def linesep : String := "\n"

/-- One character of the URL regex body
`(?:[a-zA-Z]|[0-9]|[$-_@.&+]|[!*\\(\\),]|(?:%[0-9a-fA-F][0-9a-fA-F]))+`
(src/app.py:1389-1391).  `[$-_@.&+]` is the byte range `$`..`_` (which
already contains the digits, `%`, and every listed punctuation character
except `!`), so the class is: letters, digits, the `$`..`_` range, and the
explicitly listed punctuation. -/
def urlBodyChar (c : Char) : Bool :=
  c.isAlpha || c.isDigit || ('$' ≤ c && c ≤ '_') ||
    (['@', '.', '&', '+', '!', '*', '\\', '(', ')', ','] : List Char).contains c

/-- `re.match` of the URL pattern against the (stripped) input: an
`http://` or `https://` scheme followed by at least one body character. -/
def url_pattern_match (s : String) : Bool :=
  let rest :=
    if "https://".data.isPrefixOf s.data then some (s.data.drop 8)
    else if "http://".data.isPrefixOf s.data then some (s.data.drop 7)
    else none
  match rest with
  | some (c :: _) => urlBodyChar c
  | some [] => false
  | none => false

/-- `FormWidget.gather_form_data`'s `while current_form:` loop
(src/app.py:1485-1493): the `context` (displayed conversation text) of
each proper ancestor, nearest parent first. `fuel` bounds the walk. -/
def gather_go (w : World) : Nat → Option Nat → List String
  | 0, _ => []
  | _, none => []
  | fuel + 1, some p =>
      (w.form p).conv_text :: gather_go w fuel (w.form p).parent_form

/-- `FormWidget.gather_form_data` (src/app.py:1485-1494): the ancestor
contexts in root-to-leaf order (the loop collects bottom-up and the
result is `reversed(data)`). -/
def gather_form_data (w : World) (fuel : Nat) (i : Nat) : List String :=
  (gather_go w fuel (w.form i).parent_form).reverse

/-- `FormWidget.process_llm_request` (src/app.py:1413-1438), its pure
output: the ordered message list handed to the LLM worker.  One user
message per ancestor whose context is non-empty (root-to-leaf), then one
message per readable attached file (`path` + `linesep` + contents;
unreadable files are skipped), then the current (stripped) input text.
`readFile` stands for `Path.read_text`. -/
def process_llm_request (w : World) (readFile : String → Option String)
    (i : Nat) (input_text : String) : List Msg :=
  let form_data := gather_form_data w w.nextId i
  let context_data := form_data.foldl
    (fun acc context => if context = "" then acc else acc ++ [⟨"user", context⟩])
    ([] : List Msg)
  let context_data := (w.form i).selected_files.foldl
    (fun acc sf =>
      match readFile sf with
      | some file_content => acc ++ [⟨"user", sf ++ linesep ++ file_content⟩]
      | none => acc)
    context_data
  context_data ++ [⟨"user", input_text⟩]

/-- What a `submit_form` call dispatches. -/
inductive SubmitAction
  | idle
  | jinaFetch (url : String)
  | llmRequest (messages : List Msg)
  deriving Repr, DecidableEq

/-- `FormWidget.submit_form` (src/app.py:1383-1395), its classification:
empty (stripped) input returns immediately; URL-shaped input goes to the
Jina remote-fetch path; anything else builds the LLM context. -/
def submit_form (w : World) (readFile : String → Option String) (i : Nat) :
    SubmitAction :=
  let input_text := pyStrip (w.form i).input_text
  if input_text = "" then .idle
  else if url_pattern_match input_text then .jinaFetch input_text
  else .llmRequest (process_llm_request w readFile i input_text)

/-- The prompts under which `submit_form` dispatches an LLM worker: a
non-blank, non-URL (stripped) input.  Only this branch sets
`self.llm_worker` to a fresh worker whose `notify_child` the re-run
chain can connect to (src/app.py:1413-1445); a blank prompt returns
before dispatching anything and a URL prompt starts a `JinaReaderWorker`
whose signals carry no `notify_child`. -/
def llmSubmits (w : World) (i : Nat) : Prop :=
  pyStrip (w.form i).input_text ≠ "" ∧
  url_pattern_match (pyStrip (w.form i).input_text) = false

instance (w : World) (i : Nat) : Decidable (llmSubmits w i) := by
  unfold llmSubmits
  infer_instance

/-! ## Worker signals and the busy counter
(src/worker.py:6-43, identical copy at src/app.py:815-852;
handlers at src/app.py:1440-1483) -/

/-- The signals of `LlmWorkerSignals` (src/worker.py:6-10). -/
inductive Signal
  | update (text : String)
  | finished
  | notify_child
  | error (msg : String)
  deriving Repr, DecidableEq

/-- `LlmWorker.run`'s message formatting (src/worker.py:23-28): the
system message (defaulted in `__init__` to a non-empty string, so the
`if` always fires) followed by the request messages. -/
def LlmWorker.formatted_messages (system_message : String) (messages : List Msg) :
    List Msg :=
  let sys : String :=
    if system_message = "" then "You are a helpful assistant." else system_message
  ⟨"system", sys⟩ :: messages

/-- `LlmWorker.run`'s emissions (src/worker.py:21-43) as a function of the
backend outcome: on success `update(content)` then `finished`, on failure
`error(str(e))`, and in both cases — the `finally:` block — a trailing
`notify_child`. -/
def LlmWorker.runEmits : Except String String → List Signal
  | .ok content => [.update content, .finished, .notify_child]
  | .error e => [.error e, .notify_child]

/-- The application state the coordinator mutates: the node tree, the
module-global `active_workers` counter (src/app.py:123), and each form's
header "processing" indicator. -/
structure AppState where
  world : World
  active_workers : Int
  processing : Nat → Bool

/-- `FormWidget.start_processing` (src/app.py:1453-1456). -/
def start_processing (st : AppState) (i : Nat) : AppState :=
  { st with
      active_workers := st.active_workers + 1
      processing := fun j => if j = i then true else st.processing j }

/-- `FormWidget.stop_processing` (src/app.py:1458-1463); the trailing
`notify_child` re-emission feeds the re-run chain and touches no state
modelled here. -/
def stop_processing (st : AppState) (i : Nat) : AppState :=
  { st with
      active_workers := st.active_workers - 1
      processing := fun j => if j = i then false else st.processing j }

/-- `FormWidget.update_answer` (src/app.py:1479-1483): store the message
as `markdown_content` and display its rendering in the conversation area.
`render` stands for `HtmlRenderer().render` composed with the widget's
plain-text view. -/
def update_answer (render : String → String) (st : AppState) (i : Nat)
    (message : String) : AppState :=
  { st with world := st.world.updForm i (fun f =>
      { f with markdown_content := message, conv_text := render message }) }

/-- Deliver one worker signal to the slots `setup_llm_worker` connects
(src/app.py:1440-1445): `update → handle_update`,
`finished → handle_finished`, `error → handle_error`
(src/app.py:1468-1477).  `notify_child` drives the re-run chain and has
no connected slot outside it. -/
def applySignal (render : String → String) (i : Nat) (st : AppState) :
    Signal → AppState
  | .update text => update_answer render (stop_processing st i) i text
  | .finished => stop_processing st i
  | .error e => update_answer render (stop_processing st i) i ("Error occurred: " ++ e)
  | .notify_child => st

/-- One complete LLM request for form `i`: `process_llm_request` calls
`start_processing` and dispatches the worker (src/app.py:1436-1438);
the worker later emits `LlmWorker.runEmits outcome`, each signal being
delivered to the connected handler. -/
def runLlmCycle (render : String → String) (st : AppState) (i : Nat)
    (outcome : Except String String) : AppState :=
  (LlmWorker.runEmits outcome).foldl (applySignal render i) (start_processing st i)

/-! ## The re-run chain (src/app.py:1353-1372) -/

/-- `FormWidget.all_forms` (src/app.py:1353-1359): the `form_chain` deque
after seeding — the root-to-self path, built by `appendleft` along the
parent chain. -/
def all_forms (w : World) : Nat → Nat → List Nat
  | 0, i => [i]
  | fuel + 1, i =>
      match (w.form i).parent_form with
      | none => [i]
      | some p => all_forms w fuel p ++ [i]

/-- The serialized re-run chain (`process_next_form`, src/app.py:1361-1368):
pop the next form and call its `submit_form()`.  A blank (stripped)
prompt dispatches nothing (`submit_form` returns at src/app.py:1384-1386)
and a URL prompt starts a `JinaReaderWorker` (no `notify_child` signal),
so in both cases the `form.llm_worker.signals.notify_child.connect` on
src/app.py:1366 finds a `None` (src/app.py:969) or stale worker and the
walk stops at that form.  Only the LLM branch dispatches a fresh worker;
`process_next_form` is connected to that worker's `notify_child`, so the
chain continues with the rest exactly when the worker's emission list
contains `notify_child`.  (`stop_processing` re-emits `notify_child` as
well, which only accelerates the walk; the model advances once per
completed worker.)  Returns the final state and the forms popped and
submitted, in order. -/
def processChain (render : String → String)
    (readFile : String → Option String)
    (outcomes : Nat → Except String String) :
    List Nat → AppState → AppState × List Nat
  | [], st => (st, [])
  | i :: rest, st =>
      match submit_form st.world readFile i with
      | .idle => (st, [i])
      | .jinaFetch _ => (start_processing st i, [i])
      | .llmRequest _ =>
          let st1 := runLlmCycle render st i (outcomes i)
          if Signal.notify_child ∈ LlmWorker.runEmits (outcomes i) then
            let r := processChain render readFile outcomes rest st1
            (r.1, i :: r.2)
          else (st1, [i])

/-- `FormWidget.re_run_all` (src/app.py:1370-1372): build the root-to-self
chain and start processing it. -/
def re_run_all (render : String → String)
    (readFile : String → Option String)
    (outcomes : Nat → Except String String) (st : AppState) (i : Nat) :
    AppState × List Nat :=
  processChain render readFile outcomes
    (all_forms st.world st.world.nextId i) st

/-- `FormWidget.system_message` (src/app.py:958). -/
def system_message : String := "You are a helpful assistant."

/-- A worker handed to the shared thread pool. -/
inductive WorkerReq
  | jina (url : String)
  | llm (model : String) (sys : String) (messages : List Msg)
  deriving Repr, DecidableEq

/-- `FormWidget.submit_form` as a state transformer: blank (stripped)
input returns before touching anything (src/app.py:1384-1386); the URL
path (`fetch_jina_reader_content`, src/app.py:1397-1407) and the LLM path
(`process_llm_request`, src/app.py:1413-1438) each highlight the
hierarchy (visual only), call `start_processing`, and start exactly one
worker.  Returns the new state and the dispatched workers. -/
def submit_form_run (st : AppState)
    (readFile : String → Option String) (i : Nat) : AppState × List WorkerReq :=
  match submit_form st.world readFile i with
  | .idle => (st, [])
  | .jinaFetch url => (start_processing st i, [.jina url])
  | .llmRequest msgs =>
      (start_processing st i, [.llm (st.world.form i).model system_message msgs])

/-! ## Pure views of the tree (used to state the command contracts) -/

/-- Concatenation of the images of a list (explicit, evaluation-friendly). -/
def concatMap (f : α → List β) : List α → List β
  | [] => []
  | a :: l => f a ++ concatMap f l

/-- The ids of a node's subtree in the depth-first post-order
(children-before-parent) that `DeleteFormCommand._delete_subtree` visits.
`fuel` bounds the recursion depth. -/
def subtree_ids (w : World) : Nat → Nat → List Nat
  | 0, _ => []
  | fuel + 1, i =>
      concatMap (subtree_ids w fuel) (w.form i).child_forms ++ [i]

/-- Number of forms currently in the scene (the live tree). -/
def sceneCount (w : World) : Nat :=
  ((List.range w.nextId).filter (fun j => w.inScene j)).length

/-- Every listed node comes after each of its children: the
children-before-parent processing order. -/
def childrenFirst (w : World) (L : List Nat) : Prop :=
  ∀ l1 j l2, L = l1 ++ j :: l2 → ∀ c ∈ (w.form j).child_forms, c ∈ l1

/-- Every listed node comes before each of its children: the
parent-before-children processing order. -/
def parentsFirst (w : World) (L : List Nat) : Prop :=
  ∀ l1 j l2, L = l1 ++ j :: l2 → ∀ c ∈ (w.form j).child_forms, c ∈ l2

/-- The observable payload tree of a node: position, prompt text,
displayed conversation text and model, with the children in order
(the data `CloneBranchCommand` copies). -/
inductive CTree where
  | node (pos : Pos) (input : String) (conv : String) (model : String)
      (kids : List CTree)
  deriving Repr

mutual

/-- Shift every position in a payload tree by `d`. -/
def CTree.shift (d : Pos) : CTree → CTree
  | .node q a b c kids => .node (q + d) a b c (CTree.shiftList d kids)

/-- Shift every position in a payload forest by `d`. -/
def CTree.shiftList (d : Pos) : List CTree → List CTree
  | [] => []
  | t :: ts => CTree.shift d t :: CTree.shiftList d ts

end

/-- Extract the payload tree rooted at a form (fuel-bounded). -/
def formTree (w : World) : Nat → Nat → CTree
  | 0, i =>
      .node (w.form i).pos (w.form i).input_text (w.form i).conv_text
        (w.form i).model []
  | fuel + 1, i =>
      .node (w.form i).pos (w.form i).input_text (w.form i).conv_text
        (w.form i).model ((w.form i).child_forms.map (formTree w fuel))

/-- The full contract of one `_clone_branch` call at recursion budget
`f`, relative to a bound `N` on the source subtree's ids: it allocates
one new form per source-subtree node (the root clone first), attaches
the root clone to the requested parent, adds exactly the new forms and
their new link lines to the scene, touches nothing else, and the payload
tree of the clone equals the source's payload tree with every position
shifted by `position - source.pos`. -/
def CGSpec (f : Nat) : Prop :=
  ∀ (w : World) (src : Nat) (parent : Option Nat) (position : Pos) (N : Nat),
    src < N → N ≤ w.nextId →
    (∀ j, src ≤ j → j < N → ∀ b ∈ (w.form j).child_forms, j < b ∧ b < N) →
    N - src ≤ f →
    (∀ p0, parent = some p0 → (p0 < src ∨ N ≤ p0)) →
    (∀ p0, parent = some p0 → p0 < w.nextId) →
    (clone_branch_go w f src parent position).1.nextId
        = w.nextId + (clone_branch_go w f src parent position).2.length ∧
    1 ≤ (clone_branch_go w f src parent position).2.length ∧
    (clone_branch_go w f src parent position).2.head? = some w.nextId ∧
    (clone_branch_go w f src parent position).2.length
        = (subtree_ids w f src).length ∧
    (∀ c ∈ (clone_branch_go w f src parent position).2,
      w.nextId ≤ c ∧ c < (clone_branch_go w f src parent position).1.nextId) ∧
    (∀ j, j < w.nextId → (∀ p0, parent = some p0 → j ≠ p0) →
      (clone_branch_go w f src parent position).1.form j = w.form j) ∧
    (∀ p0, parent = some p0 →
      (clone_branch_go w f src parent position).1.form p0
        = { w.form p0 with
            child_forms := (w.form p0).child_forms ++ [w.nextId] }) ∧
    ((clone_branch_go w f src parent position).1.form w.nextId).parent_form
        = parent ∧
    (∀ j, ¬(w.nextId ≤ j ∧ j < (clone_branch_go w f src parent position).1.nextId) →
      (clone_branch_go w f src parent position).1.inScene j = w.inScene j) ∧
    (∀ j, w.nextId ≤ j → j < (clone_branch_go w f src parent position).1.nextId →
      (clone_branch_go w f src parent position).1.inScene j = true) ∧
    (∀ j, w.nextId ≤ j → j < (clone_branch_go w f src parent position).1.nextId →
      ∀ b ∈ ((clone_branch_go w f src parent position).1.form j).child_forms,
        j < b ∧ b < (clone_branch_go w f src parent position).1.nextId) ∧
    w.nextLink ≤ (clone_branch_go w f src parent position).1.nextLink ∧
    (∀ m, ¬(w.nextLink ≤ m ∧
        m < (clone_branch_go w f src parent position).1.nextLink) →
      (clone_branch_go w f src parent position).1.linkInScene m
        = w.linkInScene m) ∧
    (∀ c ∈ (clone_branch_go w f src parent position).2, ∀ ln,
      ((clone_branch_go w f src parent position).1.form c).link_line = some ln →
      w.nextLink ≤ ln ∧ ln < (clone_branch_go w f src parent position).1.nextLink ∧
        (clone_branch_go w f src parent position).1.linkInScene ln = true) ∧
    (∀ w2 : World,
      (∀ j, w.nextId ≤ j → j < (clone_branch_go w f src parent position).1.nextId →
        w2.form j = (clone_branch_go w f src parent position).1.form j) →
      ∀ fuel2, formTree w2 fuel2 w.nextId
        = CTree.shift (position - (w.form src).pos) (formTree w fuel2 src)) ∧
    (∀ m, w.nextLink ≤ m →
      m < (clone_branch_go w f src parent position).1.nextLink →
      (clone_branch_go w f src parent position).1.linkInScene m = true →
      ∃ c2, c2 ∈ (clone_branch_go w f src parent position).2 ∧
        ((clone_branch_go w f src parent position).1.form c2).link_line
          = some m) ∧
    (∀ x, w.nextId ≤ x → x < (clone_branch_go w f src parent position).1.nextId →
      x ∈ (clone_branch_go w f src parent position).2) ∧
    (∀ x ∈ (clone_branch_go w f src parent position).2, x ≠ w.nextId →
      ∃ q, ((clone_branch_go w f src parent position).1.form x).parent_form
          = some q ∧ w.nextId ≤ q ∧ q < x)

/-- `if form.scene() == self.scene: self.scene.removeItem(form)` — the
guarded scene removal both delete and undo paths use. -/
def condSceneRemove (v : World) (i : Nat) : World :=
  if v.inScene i then v.removeScene i else v

/-- `if form.link_line and form.link_line.scene() == self.scene:
self.scene.removeItem(form.link_line)`. -/
def condLinkRemove (v : World) (i : Nat) : World :=
  match (v.form i).link_line with
  | some ln => if v.linkInScene ln then v.removeLinkScene ln else v
  | none => v

/-- The same guarded link removal acting on a command's captured link
reference (`CreateFormCommand.undo`, src/app.py:428-429). -/
def condLinkRemoveId (v : World) (lo : Option Nat) : World :=
  match lo with
  | some ln => if v.linkInScene ln then v.removeLinkScene ln else v
  | none => v

/-- `if self.created_form in self.parent_form.child_forms:
self.parent_form.child_forms.remove(self.created_form)`
(`CreateFormCommand.undo`, src/app.py:425-427). -/
def condEraseChild (v : World) (po : Option Nat) (k : Nat) : World :=
  match po with
  | some pid =>
      if k ∈ (v.form pid).child_forms then
        v.updForm pid (fun f => { f with child_forms := f.child_forms.erase k })
      else v
  | none => v

/-! ## Persistence (src/app.py:1496-1536, 2305-2350) -/

/-- The recursive persisted node shape
`{pos_x, pos_y, width, height, input, context, model, selected_files,
children}` (spec §6; written by `FormWidget.to_dict`). -/
inductive SavedNode where
  | node (pos_x : Int) (pos_y : Int) (width : Int) (height : Int)
      (input : String) (context : String) (model : String)
      (selected_files : List String) (children : List SavedNode)
  deriving Repr

/-- `FormWidget.to_dict` (src/app.py:1496-1507): serialize the form's
position, size, prompt, `markdown_content`, model, file selection, and
recursively its children in `child_forms` order.  `fuel` bounds the
Python recursion depth. -/
def to_dict (w : World) : Nat → Nat → SavedNode
  | 0, i =>
      .node (w.form i).pos.1 (w.form i).pos.2 (w.form i).width (w.form i).height
        (w.form i).input_text (w.form i).markdown_content (w.form i).model
        (w.form i).selected_files []
  | fuel + 1, i =>
      .node (w.form i).pos.1 (w.form i).pos.2 (w.form i).width (w.form i).height
        (w.form i).input_text (w.form i).markdown_content (w.form i).model
        (w.form i).selected_files
        ((w.form i).child_forms.map (to_dict w fuel))

mutual

/-- `FormWidget.from_dict` (src/app.py:1509-1536): construct the widget
with the saved parent/model, restore position, size, prompt and
`markdown_content` (displayed via `update_answer`, i.e. `render`), restore
the file selection, add it to the scene, then rebuild each child,
appending it to `child_forms` and creating its link line. -/
def from_dict (render : String → String) (d : SavedNode) (w : World)
    (parent : Option Nat) : World × Nat :=
  match d with
  | .node px py wd ht inp ctx mdl files children =>
      let f0 := newFormWidget parent mdl
      let f0 := { f0 with
        pos := (px, py), width := wd, height := ht, input_text := inp,
        markdown_content := ctx, conv_text := render ctx,
        selected_files := files }
      let a := w.newForm f0
      let k := a.2
      let w := a.1.addScene k
      (from_dict_children render children w k, k)

/-- The `for child_data in data["children"]:` loop of `from_dict`
(src/app.py:1529-1534). -/
def from_dict_children (render : String → String) (children : List SavedNode)
    (w : World) (k : Nat) : World :=
  match children with
  | [] => w
  | cd :: rest =>
      let r := from_dict render cd w (some k)
      let c := r.2
      let w := r.1.updForm k (fun f => { f with child_forms := f.child_forms ++ [c] })
      let b := w.newLink k c
      let w := b.1.addLinkScene b.2
      let w := w.updForm c (fun f => { f with link_line := some b.2 })
      from_dict_children render rest w k

end

/-- `scene.clear()` (src/app.py:2347): every item leaves the scene. -/
def clearScene (w : World) : World :=
  { w with inScene := fun _ => false, linkInScene := fun _ => false }

/-- The tree part of `MainWindow.load_from_file` (src/app.py:2338-2350):
clear the scene, then rebuild each persisted root via
`FormWidget.from_dict`.  Returns the created root ids in order. -/
def load_canvas (render : String → String) (docs : List SavedNode) (w : World) :
    World × List Nat :=
  docs.foldl
    (fun acc d =>
      let r := from_dict render d acc.1 none
      (r.1, acc.2 ++ [r.2]))
    (clearScene w, [])

/-- The root enumeration of `MainWindow.save_state` (src/app.py:2316-2318):
the scene's `FormWidget`s with no `parent_form` (ids in ascending, i.e.
creation, order). -/
def sceneRoots (w : World) : List Nat :=
  (List.range w.nextId).filter
    (fun i => w.inScene i && ((w.form i).parent_form).isNone)

/-- The `canvas_state` document `MainWindow.save_state` persists: one
`to_dict` tree per scene root. -/
def save_canvas (w : World) : List SavedNode :=
  (sceneRoots w).map (to_dict w w.nextId)

mutual

/-- Number of forms a persisted tree creates when loaded. -/
def SavedNode.formCount : SavedNode → Nat
  | .node _ _ _ _ _ _ _ _ children => 1 + SavedNode.formCountList children

/-- Number of forms a persisted forest creates when loaded. -/
def SavedNode.formCountList : List SavedNode → Nat
  | [] => 0
  | d :: rest => SavedNode.formCount d + SavedNode.formCountList rest

end

/-- The ids `from_dict` assigns to the roots of a forest loaded starting
at id `n` (allocation is sequential and depth-first). -/
def SavedNode.rootIds (n : Nat) : List SavedNode → List Nat
  | [] => []
  | d :: rest => n :: SavedNode.rootIds (n + d.formCount) rest

/-- The projection of a form that `to_dict` reads. -/
def Form.saveView (f : Form) :
    Pos × Int × Int × String × String × String × List String × List Nat :=
  (f.pos, f.width, f.height, f.input_text, f.markdown_content, f.model,
    f.selected_files, f.child_forms)

/-- Two worlds agree, as far as serialization is concerned, on the id
interval `[lo, hi)`. -/
def toDictAgrees (w2 w1 : World) (lo hi : Nat) : Prop :=
  ∀ j, lo ≤ j → j < hi → (w2.form j).saveView = (w1.form j).saveView

/-- The full contract of one `from_dict` call: it allocates the block
`[w.nextId, w.nextId + d.formCount)` of form ids, returns the block's
first id, adds exactly the block to the scene, touches nothing outside
it, links the block internally parent-before-child, and serializing the
block out of any world that agrees with the result on it reproduces `d`. -/
def FDSpec (render : String → String) (d : SavedNode) : Prop :=
  ∀ (w : World) (parent : Option Nat),
    (from_dict render d w parent).2 = w.nextId ∧
    (from_dict render d w parent).1.nextId = w.nextId + d.formCount ∧
    (∀ j, ¬(w.nextId ≤ j ∧ j < w.nextId + d.formCount) →
        (from_dict render d w parent).1.form j = w.form j) ∧
    (∀ j, ¬(w.nextId ≤ j ∧ j < w.nextId + d.formCount) →
        (from_dict render d w parent).1.inScene j = w.inScene j) ∧
    (∀ j, w.nextId ≤ j → j < w.nextId + d.formCount →
        (from_dict render d w parent).1.inScene j = true) ∧
    ((from_dict render d w parent).1.form w.nextId).parent_form = parent ∧
    (∀ j, w.nextId < j → j < w.nextId + d.formCount →
        ((from_dict render d w parent).1.form j).parent_form ≠ none) ∧
    (∀ j, w.nextId ≤ j → j < w.nextId + d.formCount →
        ∀ c ∈ ((from_dict render d w parent).1.form j).child_forms,
          j < c ∧ c < w.nextId + d.formCount) ∧
    (∀ (w2 : World) (fuel : Nat),
        toDictAgrees w2 (from_dict render d w parent).1 w.nextId
          (w.nextId + d.formCount) →
        d.formCount ≤ fuel + 1 → to_dict w2 fuel w.nextId = d)

/-- The analogous contract of the `from_dict` children loop run against
parent id `k`. -/
def FDLSpec (render : String → String) (l : List SavedNode) : Prop :=
  ∀ (w : World) (k : Nat), k < w.nextId →
    (from_dict_children render l w k).nextId
        = w.nextId + SavedNode.formCountList l ∧
    (∀ j, j ≠ k → ¬(w.nextId ≤ j ∧ j < w.nextId + SavedNode.formCountList l) →
        (from_dict_children render l w k).form j = w.form j) ∧
    (from_dict_children render l w k).form k
        = { w.form k with child_forms :=
              (w.form k).child_forms ++ SavedNode.rootIds w.nextId l } ∧
    (∀ j, ¬(w.nextId ≤ j ∧ j < w.nextId + SavedNode.formCountList l) →
        (from_dict_children render l w k).inScene j = w.inScene j) ∧
    (∀ j, w.nextId ≤ j → j < w.nextId + SavedNode.formCountList l →
        (from_dict_children render l w k).inScene j = true) ∧
    (∀ j, w.nextId ≤ j → j < w.nextId + SavedNode.formCountList l →
        ((from_dict_children render l w k).form j).parent_form ≠ none) ∧
    (∀ j, w.nextId ≤ j → j < w.nextId + SavedNode.formCountList l →
        ∀ c ∈ ((from_dict_children render l w k).form j).child_forms,
          j < c ∧ c < w.nextId + SavedNode.formCountList l) ∧
    (∀ (w2 : World) (fuel : Nat),
        toDictAgrees w2 (from_dict_children render l w k) w.nextId
          (w.nextId + SavedNode.formCountList l) →
        SavedNode.formCountList l ≤ fuel + 1 →
        (SavedNode.rootIds w.nextId l).map (to_dict w2 fuel) = l)

/-! ## Concrete instances used as evaluation witnesses -/

/-- A one-node world whose only form's prompt is whitespace. -/
def blankWorld : World :=
  { form := fun _ => { newFormWidget none "llama3" with input_text := "   " }
    nextId := 1
    inScene := fun i => i == 0
    linkParent := fun _ => 0
    linkChild := fun _ => 0
    nextLink := 0
    linkInScene := fun _ => false }

/-- The application state around `blankWorld`. -/
def blankState : AppState :=
  { world := blankWorld, active_workers := 0, processing := fun _ => false }

/-- A chain form: parent, children, prompt, displayed conversation text. -/
def chainForm (parent : Option Nat) (kids : List Nat) (inp conv : String) : Form :=
  { newFormWidget parent "llama3" with
      child_forms := kids, input_text := inp, conv_text := conv }

/-- A concrete four-node chain `0 → 1 → 2 → 3`: the three ancestors have
non-empty conversation text, the leaf has a plain prompt and no attached
files. -/
def chainWorld : World :=
  { form := fun i =>
      if i = 0 then chainForm none [1] "root-q" "root-resp"
      else if i = 1 then chainForm (some 0) [2] "a-q" "a-resp"
      else if i = 2 then chainForm (some 1) [3] "b-q" "b-resp"
      else chainForm (some 2) [] "What next?" ""
    nextId := 4
    inScene := fun i => decide (i < 4)
    linkParent := fun _ => 0
    linkChild := fun _ => 0
    nextLink := 0
    linkInScene := fun _ => false }

/-- The application state around `chainWorld`. -/
def chainState : AppState :=
  { world := chainWorld, active_workers := 0, processing := fun _ => false }

/-- Backend outcomes for the chain: node 1 errors, everything else
succeeds. -/
def chainOutcomes : Nat → Except String String :=
  fun j => if j = 1 then .error "boom" else .ok "fine"

/-- A three-node chain `0 → 1 → 2` whose MIDDLE form has a blank prompt:
re-running from the leaf submits 0, pops 1, and halts there because the
blank `submit_form` dispatches no worker. -/
def haltWorld : World :=
  { form := fun i =>
      if i = 0 then chainForm none [1] "root-q" "root-resp"
      else if i = 1 then chainForm (some 0) [2] "" ""
      else chainForm (some 1) [] "leaf-q" ""
    nextId := 3
    inScene := fun i => decide (i < 3)
    linkParent := fun _ => 0
    linkChild := fun _ => 0
    nextLink := 0
    linkInScene := fun _ => false }

/-- The application state around `haltWorld`. -/
def haltState : AppState :=
  { world := haltWorld, active_workers := 0, processing := fun _ => false }

/-! ## Command sequences, undo stacks and structural similarity
(towards spec §8's exec/undo round-trip property) -/

/-- One step of `DeleteFormCommand._restore_subtree`'s loop
(src/app.py:468-473), restoring a single captured
`(form, position, link_line)` triple. -/
def restore_step (w : World) (item : Nat × Pos × Option Nat) : World :=
  let w := w.addScene item.1
  let w := w.updForm item.1 (fun f => { f with pos := item.2.1 })
  match item.2.2 with
  | some ln =>
      (w.addLinkScene ln).updForm item.1 (fun f => { f with link_line := some ln })
  | none => w

/-- Structural agreement of two widgets: every field equal, except that
the child list need only agree as a multiset (same children, possibly
reordered). -/
def FormSim (f g : Form) : Prop :=
  g.parent_form = f.parent_form ∧
  g.child_forms.Perm f.child_forms ∧
  g.link_line = f.link_line ∧
  g.pos = f.pos ∧
  g.width = f.width ∧
  g.height = f.height ∧
  g.input_text = f.input_text ∧
  g.markdown_content = f.markdown_content ∧
  g.conv_text = f.conv_text ∧
  g.model = f.model ∧
  g.selected_files = f.selected_files

/-- Structural agreement of two worlds over the ids below `n`: identical
scene membership and link visibility everywhere, and `FormSim`-equal
widgets at every id below `n` (ids at or above `n` are unallocated junk
in the reference world). -/
def Wsim (n : Nat) (w w' : World) : Prop :=
  (∀ j, w'.inScene j = w.inScene j) ∧
  (∀ m, w'.linkInScene m = w.linkInScene m) ∧
  (∀ j, j < n → FormSim (w.form j) (w'.form j))

/-- The allocation invariants every reachable canvas satisfies: child ids
exceed their parent's id and stay below the allocation bound, and
unallocated form/link ids are not in the scene. -/
def WFsmall (w : World) : Prop :=
  (∀ a, a < w.nextId → ∀ b ∈ (w.form a).child_forms, a < b ∧ b < w.nextId) ∧
  (∀ j, w.nextId ≤ j → w.inScene j = false) ∧
  (∀ m, w.nextLink ≤ m → w.linkInScene m = false)

/-- The liveness conditions under which a gesture acts on real, on-canvas
widgets (the situations the UI can produce): create under an allocated
parent; delete of an on-scene node whose subtree is duplicate-free, fully
on scene, with on-scene link lines, and consistently attached to its
parent; clone of an allocated node whose recorded parent is an earlier
id.  `MoveFormCommand` is outside the round-trip claim's scope. -/
def ValidCmd (w : World) : CmdSpec → Prop
  | .create parent _ _ => ∀ pid, parent = some pid → pid < w.nextId
  | .delete i =>
      i < w.nextId ∧ w.inScene i = true ∧
      (subtree_ids w w.nextId i).Nodup ∧
      (∀ b ∈ subtree_ids w w.nextId i, w.inScene b = true) ∧
      (∀ b ∈ subtree_ids w w.nextId i, ∀ ln,
        (w.form b).link_line = some ln →
          ln < w.nextLink ∧ w.linkInScene ln = true) ∧
      (∀ p, (w.form i).parent_form = some p →
        p < w.nextId ∧ i ∈ (w.form p).child_forms)
  | .move _ _ _ => False
  | .cloneBranch src =>
      src < w.nextId ∧
      (∀ p, (w.form src).parent_form = some p → p < src)

/-- Validity of a gesture sequence: each gesture is valid on the world
produced by executing the gestures before it. -/
inductive ValidSeq : World → List CmdSpec → Prop where
  | nil : ∀ w, ValidSeq w []
  | cons : ∀ w s rest, ValidCmd w s →
      ValidSeq ((mkCmd s w).execute w).2 rest → ValidSeq w (s :: rest)

/-- Execute a sequence of gestures in order, returning the executed
command objects (in execution order) and the final world. -/
def execList : List CmdSpec → World → List CmdInst × World
  | [], w => ([], w)
  | s :: rest, w =>
      let r := (mkCmd s w).execute w
      let q := execList rest r.2
      (r.1 :: q.1, q.2)

/-- Undo a list of executed command objects in reverse execution order
(the later commands are undone first, as the invoker's undo stack does). -/
def undoList : List CmdInst → World → World
  | [], w => w
  | c :: rest, w => (c.undo (undoList rest w)).2

/-- All form ids a command object's `undo` touches are below `n`. -/
def InstBound (n : Nat) : CmdInst → Prop
  | .create c => (∀ k, c.created_form = some k → k < n) ∧
      (∀ pid, c.parent_form = some pid → pid < n)
  | .delete c => (∀ t ∈ c.deleted_subtree, t.1 < n) ∧
      (∀ p, c.parent_form = some p → p < n)
  | .move c => c.form < n
  | .cloneBranch c => (∀ x ∈ c.cloned_forms, x < n) ∧
      (∀ p, c.parent_form = some p → p < n)

/-- The payload forest of the canvas: the payload tree of every on-scene
parentless widget, in id order. -/
def sceneForest (fuel : Nat) (w : World) : List CTree :=
  ((List.range w.nextId).filter
    (fun j => w.inScene j && ((w.form j).parent_form).isNone)).map
    (formTree w fuel)

/-- The liveness conditions for the redo claim: each gesture acts on
allocated, live widgets exactly as in `ValidCmd`, and a delete's node
occurs at most once in its parent's child list (true of every canvas the
UI can build, where a node is appended to its parent once at creation). -/
def RedoValid (w : World) : CmdSpec → Prop
  | .create parent _ _ => ∀ pid, parent = some pid → pid < w.nextId
  | .delete i => ValidCmd w (.delete i) ∧
      (∀ p, (w.form i).parent_form = some p →
        ((w.form p).child_forms.count i) ≤ 1)
  | .move _ _ _ => True
  | .cloneBranch src => src < w.nextId ∧
      (∀ p, (w.form src).parent_form = some p → p < src)

/-- The world immediately after `command_invoker.execute(command)` for a
gesture. -/
def afterExec (s : CmdSpec) (w : World) : World := ((mkCmd s w).execute w).2

/-- The command object and world after `execute(cmd); undo()`: the
invoker pops the executed object and calls its `undo`. -/
def afterUndo (s : CmdSpec) (w : World) : CmdInst × World :=
  ((mkCmd s w).execute w).1.undo ((mkCmd s w).execute w).2

/-- The world after `execute(cmd); undo(); redo()`: the invoker's redo
pops the undone command object and calls its `execute` again. -/
def afterRedo (s : CmdSpec) (w : World) : World :=
  ((afterUndo s w).1.execute (afterUndo s w).2).2

/-- A three-node canvas whose root has the two leaves `1` and `2` as
children, in that order. -/
def ctrW : World :=
  { form := fun i =>
      if i = 0 then chainForm none [1, 2] "r" ""
      else if i = 1 then chainForm (some 0) [] "a" ""
      else chainForm (some 0) [] "b" ""
    nextId := 3
    inScene := fun i => decide (i < 3)
    linkParent := fun _ => 0
    linkChild := fun _ => 0
    nextLink := 0
    linkInScene := fun _ => false }

end ChatCircuit

/-! # Theorems -/

namespace ChatCircuit

/-! ## Projection lemmas for the world operations -/

@[simp]
theorem World.setForm_form (w : World) (i : Nat) (f : Form) (j : Nat) :
    (w.setForm i f).form j = if j = i then f else w.form j := rfl

@[simp]
theorem World.setForm_nextId (w : World) (i : Nat) (f : Form) :
    (w.setForm i f).nextId = w.nextId := rfl

@[simp]
theorem World.setForm_inScene (w : World) (i : Nat) (f : Form) :
    (w.setForm i f).inScene = w.inScene := rfl

@[simp]
theorem World.setForm_linkInScene (w : World) (i : Nat) (f : Form) :
    (w.setForm i f).linkInScene = w.linkInScene := rfl

@[simp]
theorem World.setForm_nextLink (w : World) (i : Nat) (f : Form) :
    (w.setForm i f).nextLink = w.nextLink := rfl

@[simp]
theorem World.updForm_form (w : World) (i : Nat) (g : Form → Form) (j : Nat) :
    (w.updForm i g).form j = if j = i then g (w.form i) else w.form j := rfl

@[simp]
theorem World.updForm_nextId (w : World) (i : Nat) (g : Form → Form) :
    (w.updForm i g).nextId = w.nextId := rfl

@[simp]
theorem World.updForm_inScene (w : World) (i : Nat) (g : Form → Form) :
    (w.updForm i g).inScene = w.inScene := rfl

@[simp]
theorem World.updForm_linkInScene (w : World) (i : Nat) (g : Form → Form) :
    (w.updForm i g).linkInScene = w.linkInScene := rfl

@[simp]
theorem World.updForm_nextLink (w : World) (i : Nat) (g : Form → Form) :
    (w.updForm i g).nextLink = w.nextLink := rfl

@[simp]
theorem World.addScene_form (w : World) (i : Nat) :
    (w.addScene i).form = w.form := rfl

@[simp]
theorem World.addScene_nextId (w : World) (i : Nat) :
    (w.addScene i).nextId = w.nextId := rfl

@[simp]
theorem World.addScene_inScene (w : World) (i j : Nat) :
    (w.addScene i).inScene j = if j = i then true else w.inScene j := rfl

@[simp]
theorem World.addScene_linkInScene (w : World) (i : Nat) :
    (w.addScene i).linkInScene = w.linkInScene := rfl

@[simp]
theorem World.addScene_nextLink (w : World) (i : Nat) :
    (w.addScene i).nextLink = w.nextLink := rfl

@[simp]
theorem World.removeScene_form (w : World) (i : Nat) :
    (w.removeScene i).form = w.form := rfl

@[simp]
theorem World.removeScene_nextId (w : World) (i : Nat) :
    (w.removeScene i).nextId = w.nextId := rfl

@[simp]
theorem World.removeScene_inScene (w : World) (i j : Nat) :
    (w.removeScene i).inScene j = if j = i then false else w.inScene j := rfl

@[simp]
theorem World.removeScene_linkInScene (w : World) (i : Nat) :
    (w.removeScene i).linkInScene = w.linkInScene := rfl

@[simp]
theorem World.removeScene_nextLink (w : World) (i : Nat) :
    (w.removeScene i).nextLink = w.nextLink := rfl

@[simp]
theorem World.addLinkScene_form (w : World) (l : Nat) :
    (w.addLinkScene l).form = w.form := rfl

@[simp]
theorem World.addLinkScene_nextId (w : World) (l : Nat) :
    (w.addLinkScene l).nextId = w.nextId := rfl

@[simp]
theorem World.addLinkScene_inScene (w : World) (l : Nat) :
    (w.addLinkScene l).inScene = w.inScene := rfl

@[simp]
theorem World.addLinkScene_linkInScene (w : World) (l m : Nat) :
    (w.addLinkScene l).linkInScene m = if m = l then true else w.linkInScene m := rfl

@[simp]
theorem World.addLinkScene_nextLink (w : World) (l : Nat) :
    (w.addLinkScene l).nextLink = w.nextLink := rfl

@[simp]
theorem World.removeLinkScene_form (w : World) (l : Nat) :
    (w.removeLinkScene l).form = w.form := rfl

@[simp]
theorem World.removeLinkScene_nextId (w : World) (l : Nat) :
    (w.removeLinkScene l).nextId = w.nextId := rfl

@[simp]
theorem World.removeLinkScene_inScene (w : World) (l : Nat) :
    (w.removeLinkScene l).inScene = w.inScene := rfl

@[simp]
theorem World.removeLinkScene_linkInScene (w : World) (l m : Nat) :
    (w.removeLinkScene l).linkInScene m
      = if m = l then false else w.linkInScene m := rfl

@[simp]
theorem World.removeLinkScene_nextLink (w : World) (l : Nat) :
    (w.removeLinkScene l).nextLink = w.nextLink := rfl

@[simp]
theorem World.newLink_fst_form (w : World) (p c : Nat) :
    (w.newLink p c).1.form = w.form := rfl

@[simp]
theorem World.newLink_fst_nextId (w : World) (p c : Nat) :
    (w.newLink p c).1.nextId = w.nextId := rfl

@[simp]
theorem World.newLink_fst_inScene (w : World) (p c : Nat) :
    (w.newLink p c).1.inScene = w.inScene := rfl

@[simp]
theorem World.newLink_fst_linkInScene (w : World) (p c : Nat) :
    (w.newLink p c).1.linkInScene = w.linkInScene := rfl

@[simp]
theorem World.newLink_fst_nextLink (w : World) (p c : Nat) :
    (w.newLink p c).1.nextLink = w.nextLink + 1 := rfl

@[simp]
theorem World.newLink_snd (w : World) (p c : Nat) :
    (w.newLink p c).2 = w.nextLink := rfl

@[simp]
theorem World.newForm_fst_form (w : World) (f : Form) (j : Nat) :
    (w.newForm f).1.form j = if j = w.nextId then f else w.form j := rfl

@[simp]
theorem World.newForm_fst_nextId (w : World) (f : Form) :
    (w.newForm f).1.nextId = w.nextId + 1 := rfl

@[simp]
theorem World.newForm_fst_inScene (w : World) (f : Form) :
    (w.newForm f).1.inScene = w.inScene := rfl

@[simp]
theorem World.newForm_fst_linkInScene (w : World) (f : Form) :
    (w.newForm f).1.linkInScene = w.linkInScene := rfl

@[simp]
theorem World.newForm_fst_nextLink (w : World) (f : Form) :
    (w.newForm f).1.nextLink = w.nextLink := rfl

@[simp]
theorem World.newForm_snd (w : World) (f : Form) :
    (w.newForm f).2 = w.nextId := rfl

@[simp]
theorem clearScene_form (w : World) : (clearScene w).form = w.form := rfl

@[simp]
theorem clearScene_nextId (w : World) : (clearScene w).nextId = w.nextId := rfl

@[simp]
theorem clearScene_inScene (w : World) (j : Nat) :
    (clearScene w).inScene j = false := rfl

/-- C3: executing a new command through the `CommandInvoker` appends
exactly that command to `history` and clears `redo_stack`; in particular
after `execute(A); undo(); execute(B)` the redo stack is empty, so a
subsequent `redo()` is a no-op (it changes neither the invoker nor the
tree, and `B` stays executed on top of `history`). -/
theorem commandInvoker_new_command_clears_redo
    (inv : CommandInvoker) (w : World) (a b : CmdSpec) :
    (∀ (inv2 : CommandInvoker) (w2 : World) (c : CmdSpec),
        (invokeGesture c inv2 w2).1.redo_stack = [] ∧
        (invokeGesture c inv2 w2).1.history
          = inv2.history ++ [((mkCmd c w2).execute w2).1]) ∧
    (let s1 := invokeGesture a inv w
     let s2 := CommandInvoker.undoStep s1.1 s1.2
     let s3 := invokeGesture b s2.1 s2.2
     s3.1.redo_stack = [] ∧ CommandInvoker.redoStep s3.1 s3.2 = s3) := by
  refine ⟨fun inv2 w2 c => ⟨rfl, rfl⟩, ⟨rfl, ?_⟩⟩
  simp [invokeGesture, CommandInvoker.executeCmd, CommandInvoker.redoStep]

/-- C10: submitting a form whose prompt text strips to the empty string is
a complete no-op: the classification is `idle`, no worker is dispatched,
and the application state (tree, busy counter, processing flags) is
returned unchanged. -/
theorem submit_blank_input_is_noop (st : AppState)
    (readFile : String → Option String) (i : Nat)
    (h : pyStrip (st.world.form i).input_text = "") :
    submit_form st.world readFile i = .idle ∧
    submit_form_run st readFile i = (st, []) := by
  have hc : submit_form st.world readFile i = .idle := by
    unfold submit_form
    simp [h]
  exact ⟨hc, by unfold submit_form_run; rw [hc]⟩

/-- Witness for the C10 theorem at a concrete world: a single form whose
prompt is whitespace only. -/
theorem submit_blank_input_is_noop_witness :
    (pyStrip (blankWorld.form 0).input_text = "") ∧
      (submit_form blankWorld (fun _ => none) 0 = .idle ∧
        submit_form_run blankState (fun _ => none) 0 = (blankState, [])) :=
  ⟨by decide, submit_blank_input_is_noop blankState (fun _ => none) 0 (by decide)⟩

/-- C6: evaluating the busy-counter bookkeeping of one LLM request.
`process_llm_request` increments `active_workers` once; on success the
worker emits `update` and then `finished`, and `handle_update` and
`handle_finished` EACH call `stop_processing`, so the counter is
decremented twice and ends one BELOW its pre-submission value.  Only the
error path restores the counter.  This contradicts the claim (and the
counter's own purpose), exhibiting the code bug. -/
theorem busy_counter_drifts_on_success (render : String → String)
    (st : AppState) (i : Nat) (text e : String) :
    (runLlmCycle render st i (.ok text)).active_workers
        = st.active_workers - 1 ∧
    (runLlmCycle render st i (.error e)).active_workers
        = st.active_workers := by
  constructor <;>
    simp [runLlmCycle, LlmWorker.runEmits, applySignal, stop_processing,
      start_processing, update_answer]

/-- The worker's `finally:` block emits `notify_child` for every outcome,
success or failure. -/
theorem notify_child_always_emitted (o : Except String String) :
    Signal.notify_child ∈ LlmWorker.runEmits o := by
  cases o <;> simp [LlmWorker.runEmits]

/-- Delivering a signal for form `i` leaves every other form unchanged. -/
theorem applySignal_form_other (render : String → String) (i j : Nat)
    (st : AppState) (s : Signal) (h : j ≠ i) :
    (applySignal render i st s).world.form j = st.world.form j := by
  cases s <;>
    simp [applySignal, update_answer, stop_processing, World.updForm,
      World.setForm, h]

/-- A full LLM cycle for form `i` leaves every other form unchanged. -/
theorem runLlmCycle_form_other (render : String → String) (st : AppState)
    (i : Nat) (o : Except String String) (j : Nat) (h : j ≠ i) :
    (runLlmCycle render st i o).world.form j = st.world.form j := by
  cases o <;>
    simp [runLlmCycle, LlmWorker.runEmits, applySignal_form_other, h,
      start_processing]

/-- A failed LLM cycle records the error as the form's displayed
content. -/
theorem runLlmCycle_error_content (render : String → String) (st : AppState)
    (i : Nat) (e : String) :
    ((runLlmCycle render st i (.error e)).world.form i).markdown_content
      = "Error occurred: " ++ e := by
  simp [runLlmCycle, LlmWorker.runEmits, applySignal, update_answer,
    stop_processing, World.updForm, World.setForm]

/-- The serialized chain submits every enqueued form, whatever the
outcomes. -/
theorem submit_form_llm (w : World) (readFile : String → Option String)
    (i : Nat) (h : llmSubmits w i) :
    submit_form w readFile i
      = .llmRequest (process_llm_request w readFile i
          (pyStrip (w.form i).input_text)) := by
  obtain ⟨h1, h2⟩ := h
  show (if pyStrip (w.form i).input_text = "" then SubmitAction.idle
    else if url_pattern_match (pyStrip (w.form i).input_text) then
      SubmitAction.jinaFetch (pyStrip (w.form i).input_text)
    else SubmitAction.llmRequest (process_llm_request w readFile i
      (pyStrip (w.form i).input_text))) = _
  rw [if_neg h1, if_neg (show
    ¬(url_pattern_match (pyStrip (w.form i).input_text) = true) from by
      rw [h2]
      exact Bool.false_ne_true)]

/-- The LLM cycle never touches any form's prompt text. -/
theorem runLlmCycle_input_text (render : String → String) (st : AppState)
    (i : Nat) (o : Except String String) (j : Nat) :
    ((runLlmCycle render st i o).world.form j).input_text
      = (st.world.form j).input_text := by
  rcases o with e | t <;>
    by_cases hj : j = i <;>
      simp [runLlmCycle, LlmWorker.runEmits, applySignal, update_answer,
        start_processing, stop_processing, World.updForm, World.setForm, hj]

theorem llmSubmits_runLlmCycle (render : String → String) (st : AppState)
    (i : Nat) (o : Except String String) (j : Nat)
    (h : llmSubmits st.world j) :
    llmSubmits (runLlmCycle render st i o).world j :=
  ⟨by rw [runLlmCycle_input_text render st i o j]; exact h.1,
   by rw [runLlmCycle_input_text render st i o j]; exact h.2⟩

/-- When every queued form's prompt dispatches an LLM worker, the chain
walks the whole queue. -/
theorem processChain_walks_all (render : String → String)
    (readFile : String → Option String)
    (outcomes : Nat → Except String String) :
    ∀ (queue : List Nat) (st : AppState),
      (∀ q ∈ queue, llmSubmits st.world q) →
      (processChain render readFile outcomes queue st).2 = queue := by
  intro queue
  induction queue with
  | nil => intro st _; rfl
  | cons i rest ih =>
      intro st hall
      have hi := hall i (List.mem_cons_self i rest)
      simp only [processChain, submit_form_llm st.world readFile i hi,
        notify_child_always_emitted, if_pos]
      show i :: (processChain render readFile outcomes rest
        (runLlmCycle render st i (outcomes i))).2 = i :: rest
      congr 1
      exact ih _ (fun q hq => llmSubmits_runLlmCycle render st i
        (outcomes i) q (hall q (List.mem_cons_of_mem i hq)))

/-- Forms not in the queue are untouched by the chain. -/
theorem processChain_form_other (render : String → String)
    (readFile : String → Option String)
    (outcomes : Nat → Except String String) (j : Nat) :
    ∀ (queue : List Nat) (st : AppState), j ∉ queue →
      (processChain render readFile outcomes queue st).1.world.form j
        = st.world.form j := by
  intro queue
  induction queue with
  | nil => intro st _; rfl
  | cons i rest ih =>
      intro st hj
      have hji : j ≠ i := fun h => hj (h ▸ List.mem_cons_self i rest)
      have hjr : j ∉ rest := fun h => hj (List.mem_cons_of_mem i h)
      rcases hsf : submit_form st.world readFile i with _ | u | m
      · simp only [processChain, hsf]
      · simp only [processChain, hsf]
        rfl
      · simp only [processChain, hsf, notify_child_always_emitted, if_pos]
        show (processChain render readFile outcomes rest
            (runLlmCycle render st i (outcomes i))).1.world.form j
          = st.world.form j
        rw [ih _ hjr, runLlmCycle_form_other render st i _ j hji]

/-- If form `i` occurs (once) in the queue, its outcome is an error, and
every queued prompt dispatches an LLM worker, the finished chain shows
the error text as `i`'s content. -/
theorem processChain_error_recorded (render : String → String)
    (readFile : String → Option String)
    (outcomes : Nat → Except String String) (i : Nat) (e : String)
    (he : outcomes i = .error e) :
    ∀ (queue : List Nat) (st : AppState), queue.Nodup → i ∈ queue →
      (∀ q ∈ queue, llmSubmits st.world q) →
      ((processChain render readFile outcomes
          queue st).1.world.form i).markdown_content
        = "Error occurred: " ++ e := by
  intro queue
  induction queue with
  | nil => intro st _ h _; cases h
  | cons q rest ih =>
      intro st hnd hmem hall
      have hq := hall q (List.mem_cons_self q rest)
      simp only [processChain, submit_form_llm st.world readFile q hq,
        notify_child_always_emitted, if_pos]
      rcases List.mem_cons.mp hmem with hqi | hir
      · subst hqi
        have hnotin : i ∉ rest := (List.nodup_cons.mp hnd).1
        show ((processChain render readFile outcomes rest
            (runLlmCycle render st i (outcomes i))).1.world.form
              i).markdown_content = _
        rw [processChain_form_other render readFile outcomes i rest _ hnotin]
        rw [he, runLlmCycle_error_content]
      · exact ih _ (List.nodup_cons.mp hnd).2 hir
          (fun q2 hq2 => llmSubmits_runLlmCycle render st q (outcomes q) q2
            (hall q2 (List.mem_cons_of_mem q hq2)))

/-- Counterexample to C5 as originally stated: on the chain `0 → 1 → 2`
whose MIDDLE form has a blank prompt, re-running from the leaf — with
every inference succeeding, no error anywhere — walks only `[0, 1]` and
halts at the blank form: its `submit_form` returns without dispatching a
worker (src/app.py:1384-1386), so no `notify_child` ever fires there and
the leaf is never submitted.  The walk is not always completed. -/
theorem rerun_chain_halts_on_blank_form :
    all_forms haltWorld haltWorld.nextId 2 = [0, 1, 2] ∧
    (re_run_all id (fun _ => none) (fun _ => Except.ok "fine")
      haltState 2).2 = [0, 1] := by decide

/-- C5: an inference error never halts the re-run chain — the worker's
`finally:` block emits `notify_child` on success and failure alike, the
error at step `i` is recorded only as that node's displayed content, and
the walk continues past it: the whole root-to-leaf path is walked to
completion whenever every form on the path carries a non-blank, non-URL
prompt, so that each step dispatches an LLM worker.  (The original
claim's unconditional "whole path always walked to completion" is false:
a blank- or URL-prompted form on the path halts the walk at that form,
with no inference error anywhere — see the counterexample.) -/
theorem rerun_chain_error_does_not_halt (render : String → String)
    (readFile : String → Option String)
    (outcomes : Nat → Except String String) (st : AppState)
    (leaf i : Nat) (e : String)
    (hnd : (all_forms st.world st.world.nextId leaf).Nodup)
    (hmem : i ∈ all_forms st.world st.world.nextId leaf)
    (hall : ∀ q ∈ all_forms st.world st.world.nextId leaf,
      llmSubmits st.world q)
    (he : outcomes i = .error e) :
    (∀ o, Signal.notify_child ∈ LlmWorker.runEmits o) ∧
    (re_run_all render readFile outcomes st leaf).2
      = all_forms st.world st.world.nextId leaf ∧
    ((re_run_all render readFile outcomes st
        leaf).1.world.form i).markdown_content
      = "Error occurred: " ++ e :=
  ⟨notify_child_always_emitted,
   processChain_walks_all render readFile outcomes _ st hall,
   processChain_error_recorded render readFile outcomes i e he _ st hnd
     hmem hall⟩

/-- Witness for the C5 theorem: the concrete chain `0 → 1 → 2 → 3` with
four LLM-dispatching prompts where node 1's inference fails; all four
nodes are submitted in path order and node 1 displays the error text. -/
theorem rerun_chain_error_does_not_halt_witness :
    (all_forms chainWorld 4 3).Nodup ∧ (1 : Nat) ∈ all_forms chainWorld 4 3 ∧
    (∀ q ∈ all_forms chainWorld 4 3, llmSubmits chainWorld q) ∧
    (re_run_all id (fun _ => none) chainOutcomes chainState 3).2
      = all_forms chainWorld 4 3 ∧
    ((re_run_all id (fun _ => none) chainOutcomes chainState
        3).1.world.form 1).markdown_content
      = "Error occurred: " ++ "boom" :=
  ⟨by decide, by decide, by decide,
   (rerun_chain_error_does_not_halt id (fun _ => none) chainOutcomes
      chainState 3 1 "boom" (by decide) (by decide) (by decide) rfl).2⟩

/-- C4: for a chain `root → A → B → C` whose three ancestors all have
non-empty displayed response text, submitting `C` (non-blank, non-URL
prompt, no attached files) builds exactly the message list
`[root.response, A.response, B.response, C.prompt]`: one user message per
ancestor in root-to-leaf order, then the (stripped) prompt last.
Ancestors with empty response text are filtered out by the
`if context:` guard, so they would contribute no message. -/
theorem context_assembly_order (w : World) (readFile : String → Option String)
    (r a b c : Nat)
    (hc : (w.form c).parent_form = some b)
    (hb : (w.form b).parent_form = some a)
    (ha : (w.form a).parent_form = some r)
    (hr : (w.form r).parent_form = none)
    (hfuel : 4 ≤ w.nextId)
    (hrs : (w.form r).conv_text ≠ "") (has : (w.form a).conv_text ≠ "")
    (hbs : (w.form b).conv_text ≠ "")
    (hfiles : (w.form c).selected_files = [])
    (hinput : pyStrip (w.form c).input_text ≠ "")
    (hurl : url_pattern_match (pyStrip (w.form c).input_text) = false) :
    submit_form w readFile c = .llmRequest
      [⟨"user", (w.form r).conv_text⟩, ⟨"user", (w.form a).conv_text⟩,
       ⟨"user", (w.form b).conv_text⟩,
       ⟨"user", pyStrip (w.form c).input_text⟩] := by
  obtain ⟨k, hk⟩ : ∃ k, w.nextId = k + 4 := by
    obtain ⟨k, hk⟩ := Nat.exists_eq_add_of_le hfuel
    exact ⟨k, by omega⟩
  have hgather : gather_form_data w w.nextId c
      = [(w.form r).conv_text, (w.form a).conv_text, (w.form b).conv_text] := by
    rw [gather_form_data, hk, hc]
    show ((w.form b).conv_text :: gather_go w (k + 3) (w.form b).parent_form).reverse
      = _
    rw [hb]
    show ((w.form b).conv_text :: (w.form a).conv_text ::
        gather_go w (k + 2) (w.form a).parent_form).reverse = _
    rw [ha]
    show ((w.form b).conv_text :: (w.form a).conv_text :: (w.form r).conv_text ::
        gather_go w (k + 1) (w.form r).parent_form).reverse = _
    rw [hr]
    simp [gather_go]
  unfold submit_form
  simp only [if_neg hinput, hurl, Bool.false_eq_true, if_false]
  unfold process_llm_request
  rw [hgather, hfiles]
  simp [List.foldl, hrs, has, hbs]

/-! ## Round-trip persistence: groundwork -/

theorem SavedNode.one_le_formCount (d : SavedNode) : 1 ≤ d.formCount := by
  cases d with
  | node px py wd ht inp ctx mdl files children =>
      simp [SavedNode.formCount]

theorem SavedNode.formCountList_eq_zero {l : List SavedNode}
    (h : SavedNode.formCountList l = 0) : l = [] := by
  cases l with
  | nil => rfl
  | cons d rest =>
      exfalso
      have h1 := SavedNode.one_le_formCount d
      simp only [SavedNode.formCountList] at h
      omega

theorem SavedNode.formCount_le_of_mem {d : SavedNode} {l : List SavedNode}
    (h : d ∈ l) : d.formCount ≤ SavedNode.formCountList l := by
  induction l with
  | nil => cases h
  | cons q rest ih =>
      rcases List.mem_cons.mp h with rfl | hmem
      · simp only [SavedNode.formCountList]; omega
      · have := ih hmem
        simp only [SavedNode.formCountList]; omega

theorem SavedNode.rootIds_bounds :
    ∀ (l : List SavedNode) (n x : Nat), x ∈ SavedNode.rootIds n l →
      n ≤ x ∧ x < n + SavedNode.formCountList l := by
  intro l
  induction l with
  | nil => intro n x h; cases h
  | cons d rest ih =>
      intro n x h
      have h1 := SavedNode.one_le_formCount d
      rcases List.mem_cons.mp h with rfl | hmem
      · simp only [SavedNode.formCountList]; omega
      · have := ih (n + d.formCount) x hmem
        simp only [SavedNode.formCountList]
        omega

theorem Form.saveView_parts {f g : Form} (h : f.saveView = g.saveView) :
    f.pos = g.pos ∧ f.width = g.width ∧ f.height = g.height ∧
    f.input_text = g.input_text ∧ f.markdown_content = g.markdown_content ∧
    f.model = g.model ∧ f.selected_files = g.selected_files ∧
    f.child_forms = g.child_forms := by
  simpa [Form.saveView, Prod.ext_iff] using h

/-- The `from_dict` contract holds for every document (by strong
induction on the document size, the two mutual parts together). -/
theorem fd_spec_all (render : String → String) :
    ∀ n : Nat, (∀ d : SavedNode, sizeOf d ≤ n → FDSpec render d) ∧
      (∀ l : List SavedNode, sizeOf l ≤ n → FDLSpec render l) := by
  intro n
  induction n using Nat.strong_induction_on with
  | _ n ih =>
    constructor
    · intro d hd
      cases d with
      | node px py wd ht inp ctx mdl files children =>
        intro w parent
        have hcsz : sizeOf children < n := by
          have hs : sizeOf children < sizeOf
              (SavedNode.node px py wd ht inp ctx mdl files children) := by
            simp
          omega
        have hlist := (ih _ hcsz).2 children le_rfl
        set F : Form := { newFormWidget parent mdl with
            pos := (px, py), width := wd, height := ht,
            input_text := inp, markdown_content := ctx,
            conv_text := render ctx, selected_files := files } with hF
        set w1 : World := ((w.newForm F).1).addScene w.nextId with hw1
        set W : World := from_dict_children render children w1 w.nextId with hW
        have hunf : from_dict render
              (SavedNode.node px py wd ht inp ctx mdl files children) w parent
            = (W, w.nextId) := rfl
        have hk1 : w1.nextId = w.nextId + 1 := rfl
        have hkform : ∀ j : Nat, w1.form j = if j = w.nextId then F else w.form j :=
          fun _ => rfl
        have hkscene : ∀ j : Nat, w1.inScene j
            = if j = w.nextId then true else w.inScene j := fun _ => rfl
        obtain ⟨L1, L2, L3, L4, L5, L6, L7, L8⟩ :=
          hlist w1 w.nextId (by omega)
        have hw1k : w1.form w.nextId = F := by rw [hkform, if_pos rfl]
        have hWk : W.form w.nextId
            = { F with child_forms := SavedNode.rootIds w1.nextId children } := by
          rw [L3, hw1k]
          have hFc : F.child_forms = [] := rfl
          rw [hFc, List.nil_append]
        have hcnt : (SavedNode.node px py wd ht inp ctx mdl files children).formCount
            = 1 + SavedNode.formCountList children := rfl
        rw [hunf, hcnt]
        refine ⟨rfl, ?_, ?_, ?_, ?_, ?_, ?_, ?_, ?_⟩
        · show W.nextId = w.nextId + (1 + SavedNode.formCountList children)
          rw [L1, hk1]; omega
        · intro j hj
          have hjk : j ≠ w.nextId := by omega
          rw [L2 j hjk (by rw [hk1]; omega), hkform j, if_neg hjk]
        · intro j hj
          have hjk : j ≠ w.nextId := by omega
          rw [L4 j (by rw [hk1]; omega), hkscene j, if_neg hjk]
        · intro j h1 h2
          rcases Nat.eq_or_lt_of_le h1 with heq | hlt
          · rw [← heq, L4 w.nextId (by rw [hk1]; omega), hkscene, if_pos rfl]
          · exact L5 j (by rw [hk1]; omega) (by rw [hk1]; omega)
        · rw [hWk]; rfl
        · intro j h1 h2
          exact L6 j (by rw [hk1]; omega) (by rw [hk1]; omega)
        · intro j h1 h2 c hc
          rcases Nat.eq_or_lt_of_le h1 with heq | hlt
          · rw [← heq] at hc ⊢
            rw [hWk] at hc
            have hc2 : c ∈ SavedNode.rootIds w1.nextId children := hc
            have := SavedNode.rootIds_bounds children w1.nextId c hc2
            rw [hk1] at this
            omega
          · have := L7 j (by rw [hk1]; omega) (by rw [hk1]; omega) c hc
            rw [hk1] at this
            omega
        · intro w2 fuel hag hfuel
          have hagk := hag w.nextId (le_refl _) (by omega)
          rw [hWk] at hagk
          have hWkview : ({ F with
              child_forms := SavedNode.rootIds w1.nextId children } : Form).saveView
            = ((px, py), wd, ht, inp, ctx, mdl, files,
                SavedNode.rootIds w1.nextId children) := rfl
          rw [hWkview] at hagk
          have hparts : (w2.form w.nextId).pos = (px, py) ∧
              (w2.form w.nextId).width = wd ∧ (w2.form w.nextId).height = ht ∧
              (w2.form w.nextId).input_text = inp ∧
              (w2.form w.nextId).markdown_content = ctx ∧
              (w2.form w.nextId).model = mdl ∧
              (w2.form w.nextId).selected_files = files ∧
              (w2.form w.nextId).child_forms
                = SavedNode.rootIds w1.nextId children := by
            simpa [Form.saveView, Prod.ext_iff] using hagk
          obtain ⟨hp, hwdd, hhtt, hinp, hmd, hmdl, hfl, hch⟩ := hparts
          cases fuel with
          | zero =>
              have hz : SavedNode.formCountList children = 0 := by omega
              have hnil : children = [] := SavedNode.formCountList_eq_zero hz
              subst hnil
              show SavedNode.node (w2.form w.nextId).pos.1 (w2.form w.nextId).pos.2
                  (w2.form w.nextId).width (w2.form w.nextId).height
                  (w2.form w.nextId).input_text (w2.form w.nextId).markdown_content
                  (w2.form w.nextId).model (w2.form w.nextId).selected_files []
                = SavedNode.node px py wd ht inp ctx mdl files []
              rw [hp, hwdd, hhtt, hinp, hmd, hmdl, hfl]
          | succ g =>
              have hlistagree : toDictAgrees w2 W w1.nextId
                  (w1.nextId + SavedNode.formCountList children) := by
                intro j hj1 hj2
                exact hag j (by rw [hk1] at hj1; omega)
                  (by rw [hk1] at hj2; omega)
              have hmap := L8 w2 g hlistagree (by omega)
              show SavedNode.node (w2.form w.nextId).pos.1 (w2.form w.nextId).pos.2
                  (w2.form w.nextId).width (w2.form w.nextId).height
                  (w2.form w.nextId).input_text (w2.form w.nextId).markdown_content
                  (w2.form w.nextId).model (w2.form w.nextId).selected_files
                  ((w2.form w.nextId).child_forms.map (to_dict w2 g))
                = SavedNode.node px py wd ht inp ctx mdl files children
              rw [hp, hwdd, hhtt, hinp, hmd, hmdl, hfl, hch, hmap]
    · intro l hl
      cases l with
      | nil =>
          intro w k hk
          refine ⟨?_, ?_, ?_, ?_, ?_, ?_, ?_, ?_⟩
          · show w.nextId = w.nextId + SavedNode.formCountList []
            rfl
          · intro j _ _; rfl
          · show w.form k = { w.form k with
              child_forms := (w.form k).child_forms ++ SavedNode.rootIds w.nextId [] }
            have : (w.form k).child_forms ++ SavedNode.rootIds w.nextId []
                = (w.form k).child_forms := by
              simp [SavedNode.rootIds]
            rw [this]
          · intro j _; rfl
          · intro j h1 h2
            simp only [SavedNode.formCountList] at h2
            omega
          · intro j h1 h2
            simp only [SavedNode.formCountList] at h2
            omega
          · intro j h1 h2
            simp only [SavedNode.formCountList] at h2
            omega
          · intro w2 fuel _ _
            rfl
      | cons cd rest =>
          intro w k hk
          have hdsz : sizeOf cd < n := by
            have hs : sizeOf cd < sizeOf (cd :: rest) := by simp; omega
            omega
          have hrsz : sizeOf rest < n := by
            have hs : sizeOf rest < sizeOf (cd :: rest) := by simp
            omega
          obtain ⟨D1, D2, D3, D4, D5, D6, D7, D8, D9⟩ :=
            (ih _ hdsz).1 cd le_rfl w (some k)
          set r : World × Nat := from_dict render cd w (some k) with hr
          have hck : r.2 = w.nextId := D1
          set wA : World := r.1.updForm k (fun f =>
              { f with child_forms := f.child_forms ++ [r.2] }) with hwA
          set wC : World := ((wA.newLink k r.2).1.addLinkScene
              (wA.newLink k r.2).2).updForm r.2
              (fun f => { f with link_line := some (wA.newLink k r.2).2 }) with hwC
          set W : World := from_dict_children render rest wC k with hW
          have hunf : from_dict_children render (cd :: rest) w k = W := rfl
          have hCnext : wC.nextId = r.1.nextId := rfl
          have hCscene : ∀ j : Nat, wC.inScene j = r.1.inScene j := fun _ => rfl
          have hkc : k ≠ r.2 := by omega
          have hCck : wC.form k
              = { r.1.form k with
                  child_forms := (r.1.form k).child_forms ++ [r.2] } := by
            simp [hwC, hwA, hkc]
          have hCcc : wC.form r.2
              = { r.1.form r.2 with link_line := some wA.nextLink } := by
            simp [hwC, hwA, hkc, Ne.symm hkc]
          have hCother : ∀ j : Nat, j ≠ k → j ≠ r.2 → wC.form j = r.1.form j := by
            intro j hjk hjc
            simp [hwC, hwA, hjk, hjc]
          have hCview : ∀ j : Nat, j ≠ k →
              (wC.form j).saveView = (r.1.form j).saveView := by
            intro j hjk
            by_cases hjc : j = r.2
            · rw [hjc, hCcc]; rfl
            · rw [hCother j hjk hjc]
          obtain ⟨R1, R2, R3, R4, R5, R6, R7, R8⟩ :=
            (ih _ hrsz).2 rest le_rfl wC k (by
              have := SavedNode.one_le_formCount cd
              rw [hCnext, D2]; omega)
          have hm : wC.nextId = w.nextId + cd.formCount := by rw [hCnext, D2]
          have htot : SavedNode.formCountList (cd :: rest)
              = cd.formCount + SavedNode.formCountList rest := rfl
          have hfc1 := SavedNode.one_le_formCount cd
          rw [hunf, htot]
          refine ⟨?_, ?_, ?_, ?_, ?_, ?_, ?_, ?_⟩
          · rw [R1, hm]; omega
          · intro j hjk hj
            have hjc : j ≠ r.2 := by rw [hck]; omega
            rw [R2 j hjk (by rw [hm]; omega), hCother j hjk hjc]
            exact D3 j (by omega)
          · show W.form k = { w.form k with child_forms :=
              (w.form k).child_forms ++ SavedNode.rootIds w.nextId (cd :: rest) }
            rw [R3, hCck]
            show { r.1.form k with child_forms :=
                ((r.1.form k).child_forms ++ [r.2])
                  ++ SavedNode.rootIds wC.nextId rest } = _
            rw [D3 k (by omega), hck, hm]
            have hli : ((w.form k).child_forms ++ [w.nextId])
                  ++ SavedNode.rootIds (w.nextId + cd.formCount) rest
                = (w.form k).child_forms
                  ++ SavedNode.rootIds w.nextId (cd :: rest) := by
              rw [List.append_assoc, List.singleton_append]
              rfl
            rw [hli]
          · intro j hj
            rw [R4 j (by rw [hm]; omega), hCscene j]
            exact D4 j (by omega)
          · intro j h1 h2
            by_cases hjm : j < wC.nextId
            · rw [R4 j (by omega), hCscene j]
              exact D5 j h1 (by rw [hm] at hjm; omega)
            · exact R5 j (by omega) (by rw [hm]; omega)
          · intro j h1 h2
            by_cases hjm : j < wC.nextId
            · have hjk : j ≠ k := by omega
              rw [R2 j hjk (by omega)]
              by_cases hjc : j = r.2
              · rw [hjc, hCcc]
                show (r.1.form r.2).parent_form ≠ none
                rw [hck, D6]
                exact Option.some_ne_none k
              · rw [hCother j hjk hjc]
                have hjlo : w.nextId < j := by
                  rcases Nat.eq_or_lt_of_le h1 with heq | hlt
                  · exact absurd (by rw [← heq, hck] : j = r.2) hjc
                  · exact hlt
                exact D7 j hjlo (by rw [hm] at hjm; omega)
            · exact R6 j (by omega) (by rw [hm]; omega)
          · intro j h1 h2 ch hch
            by_cases hjm : j < wC.nextId
            · have hjk : j ≠ k := by omega
              rw [R2 j hjk (by omega)] at hch
              by_cases hjc : j = r.2
              · rw [hjc] at hch ⊢
                have hchc : ch ∈ (r.1.form r.2).child_forms := by
                  rw [hCcc] at hch
                  exact hch
                have := D8 r.2 (by rw [hck]) (by rw [hck]; omega) ch hchc
                omega
              · rw [hCother j hjk hjc] at hch
                have := D8 j (by omega) (by rw [hm] at hjm; omega) ch hch
                omega
            · have := R7 j (by omega) (by rw [hm]; omega) ch hch
              rw [hm] at this
              omega
          · intro w2 fuel hag hfuel
            have hagc : toDictAgrees w2 r.1 w.nextId (w.nextId + cd.formCount) := by
              intro j hj1 hj2
              have hjk : j ≠ k := by omega
              have h1 := hag j hj1 (by omega)
              rw [R2 j hjk (by rw [hm]; omega), hCview j hjk] at h1
              exact h1
            have hhead : to_dict w2 fuel r.2 = cd := by
              rw [hck]
              exact D9 w2 fuel hagc (by omega)
            have hagrest : toDictAgrees w2 W wC.nextId
                (wC.nextId + SavedNode.formCountList rest) := by
              intro j hj1 hj2
              exact hag j (by rw [hm] at hj1; omega) (by rw [hm] at hj2; omega)
            have htail := R8 w2 fuel hagrest (by omega)
            rw [hm] at htail
            have hroots : SavedNode.rootIds w.nextId (cd :: rest)
                = w.nextId :: SavedNode.rootIds (w.nextId + cd.formCount) rest := rfl
            rw [hroots, List.map_cons, htail, ← hck, hhead]

/-- A freshly loaded block whose first form is parentless contributes
exactly one new scene root, appended after the existing ones. -/
theorem sceneRoots_extend (v r1 : World) (cnt : Nat) (hcnt : 1 ≤ cnt)
    (hnext : r1.nextId = v.nextId + cnt)
    (hform : ∀ j, j < v.nextId → r1.form j = v.form j)
    (hscene : ∀ j, j < v.nextId → r1.inScene j = v.inScene j)
    (hblockScene : ∀ j, v.nextId ≤ j → j < r1.nextId → r1.inScene j = true)
    (hroot : (r1.form v.nextId).parent_form = none)
    (hnonroot : ∀ j, v.nextId < j → j < r1.nextId →
      (r1.form j).parent_form ≠ none) :
    sceneRoots r1 = sceneRoots v ++ [v.nextId] := by
  unfold sceneRoots
  rw [hnext, List.range_add, List.filter_append]
  have hfirst : (List.range v.nextId).filter
        (fun i => r1.inScene i && ((r1.form i).parent_form).isNone)
      = (List.range v.nextId).filter
        (fun i => v.inScene i && ((v.form i).parent_form).isNone) := by
    apply List.filter_congr
    intro x hx
    have hxlt : x < v.nextId := List.mem_range.mp hx
    rw [hform x hxlt, hscene x hxlt]
  rw [hfirst]
  congr 1
  rw [List.filter_map]
  obtain ⟨m, rfl⟩ : ∃ m, cnt = m + 1 := ⟨cnt - 1, by omega⟩
  rw [List.range_succ_eq_map, List.filter_cons]
  have hp0 : (r1.inScene (v.nextId + 0)
      && ((r1.form (v.nextId + 0)).parent_form).isNone) = true := by
    rw [Nat.add_zero, hblockScene v.nextId (le_refl _) (by omega), hroot]
    rfl
  have hrest : ((List.range m).map Nat.succ).filter
      ((fun i => r1.inScene i && ((r1.form i).parent_form).isNone)
        ∘ (fun x => v.nextId + x)) = [] := by
    apply List.filter_eq_nil_iff.mpr
    intro a ha
    obtain ⟨x, hx, rfl⟩ := List.mem_map.mp ha
    have hxm : x < m := List.mem_range.mp hx
    intro hcontra
    have hne := hnonroot (v.nextId + Nat.succ x) (by omega) (by omega)
    simp only [Function.comp] at hcontra
    rcases hpf : (r1.form (v.nextId + Nat.succ x)).parent_form with _ | p
    · exact hne hpf
    · rw [hpf] at hcontra
      simp at hcontra
  have hp0c : (((fun i => r1.inScene i && ((r1.form i).parent_form).isNone)
      ∘ (fun x => v.nextId + x)) 0) = true := hp0
  rw [if_pos hp0c, hrest]
  rfl

/-- The whole `load_from_file` fold: loading a document list allocates the
forest block, records the root ids in order, and re-serializing any root
out of the final world reproduces its document. -/
theorem load_fold_spec (render : String → String) :
    ∀ (docs : List SavedNode) (v : World) (acc : List Nat),
      (∀ j, v.nextId ≤ j → v.inScene j = false) →
      (docs.foldl (fun acc2 d =>
          let r := from_dict render d acc2.1 none
          (r.1, acc2.2 ++ [r.2])) (v, acc)).1.nextId
        = v.nextId + SavedNode.formCountList docs ∧
      (∀ j, j < v.nextId →
        (docs.foldl (fun acc2 d =>
          let r := from_dict render d acc2.1 none
          (r.1, acc2.2 ++ [r.2])) (v, acc)).1.form j = v.form j) ∧
      (∀ j, j < v.nextId →
        (docs.foldl (fun acc2 d =>
          let r := from_dict render d acc2.1 none
          (r.1, acc2.2 ++ [r.2])) (v, acc)).1.inScene j = v.inScene j) ∧
      (∀ j, (docs.foldl (fun acc2 d =>
          let r := from_dict render d acc2.1 none
          (r.1, acc2.2 ++ [r.2])) (v, acc)).1.nextId ≤ j →
        (docs.foldl (fun acc2 d =>
          let r := from_dict render d acc2.1 none
          (r.1, acc2.2 ++ [r.2])) (v, acc)).1.inScene j = false) ∧
      (docs.foldl (fun acc2 d =>
          let r := from_dict render d acc2.1 none
          (r.1, acc2.2 ++ [r.2])) (v, acc)).2
        = acc ++ SavedNode.rootIds v.nextId docs ∧
      sceneRoots (docs.foldl (fun acc2 d =>
          let r := from_dict render d acc2.1 none
          (r.1, acc2.2 ++ [r.2])) (v, acc)).1
        = sceneRoots v ++ SavedNode.rootIds v.nextId docs ∧
      (∀ fuel, SavedNode.formCountList docs ≤ fuel + 1 →
        (SavedNode.rootIds v.nextId docs).map
          (to_dict (docs.foldl (fun acc2 d =>
            let r := from_dict render d acc2.1 none
            (r.1, acc2.2 ++ [r.2])) (v, acc)).1 fuel) = docs) := by
  intro docs
  induction docs with
  | nil =>
      intro v acc hs
      refine ⟨rfl, fun j _ => rfl, fun j _ => rfl, hs, ?_, ?_, fun fuel _ => rfl⟩
      · show acc = acc ++ SavedNode.rootIds v.nextId []
        simp [SavedNode.rootIds]
      · show sceneRoots v = sceneRoots v ++ SavedNode.rootIds v.nextId []
        simp [SavedNode.rootIds]
  | cons d rest ih =>
      intro v acc hs
      obtain ⟨D1, D2, D3, D4, D5, D6, D7, D8, D9⟩ :=
        (fd_spec_all render (sizeOf d)).1 d le_rfl v none
      set r : World × Nat := from_dict render d v none with hr
      have hfc1 := SavedNode.one_le_formCount d
      have hstep : (d :: rest).foldl (fun acc2 d2 =>
          let r2 := from_dict render d2 acc2.1 none
          (r2.1, acc2.2 ++ [r2.2])) (v, acc)
        = rest.foldl (fun acc2 d2 =>
          let r2 := from_dict render d2 acc2.1 none
          (r2.1, acc2.2 ++ [r2.2])) (r.1, acc ++ [r.2]) := rfl
      have hsr : ∀ j, r.1.nextId ≤ j → r.1.inScene j = false := by
        intro j hj
        rw [D2] at hj
        rw [D4 j (by omega)]
        exact hs j (by omega)
      obtain ⟨I1, I2, I3, I4, I5, I6, I7⟩ := ih r.1 (acc ++ [r.2]) hsr
      have htot : SavedNode.formCountList (d :: rest)
          = d.formCount + SavedNode.formCountList rest := rfl
      have hroots : SavedNode.rootIds v.nextId (d :: rest)
          = v.nextId :: SavedNode.rootIds (v.nextId + d.formCount) rest := rfl
      rw [hstep, htot, hroots]
      refine ⟨?_, ?_, ?_, I4, ?_, ?_, ?_⟩
      · rw [I1, D2]; omega
      · intro j hj
        rw [I2 j (by rw [D2]; omega)]
        exact D3 j (by omega)
      · intro j hj
        rw [I3 j (by rw [D2]; omega)]
        exact D4 j (by omega)
      · rw [I5, D1, ← D2, List.append_assoc, List.singleton_append]
      · rw [I6]
        have hone : sceneRoots r.1 = sceneRoots v ++ [v.nextId] := by
          apply sceneRoots_extend v r.1 d.formCount hfc1 D2
          · intro j hj; exact D3 j (by omega)
          · intro j hj; exact D4 j (by omega)
          · intro j h1 h2; exact D5 j h1 (by rw [D2] at h2; omega)
          · exact D6
          · intro j h1 h2; exact D7 j h1 (by rw [D2] at h2; omega)
        rw [hone, List.append_assoc, List.singleton_append, D2]
      · intro fuel hfuel
        rw [List.map_cons]
        have hhead : to_dict ((rest.foldl (fun acc2 d2 =>
            let r2 := from_dict render d2 acc2.1 none
            (r2.1, acc2.2 ++ [r2.2])) (r.1, acc ++ [r.2])).1) fuel v.nextId = d := by
          apply D9 _ fuel _ (by omega)
          intro j hj1 hj2
          rw [I2 j (by rw [D2]; omega)]
        have htail := I7 fuel (by omega)
        rw [D2] at htail
        rw [hhead, htail]

/-- C9: round-trip persistence.  Loading any persisted forest (the
recursive `{pos_x, pos_y, width, height, input, context, model,
selected_files, children}` documents) into a cleared scene and
re-serializing the scene's roots reproduces the document list exactly.
Since `to_dict` serializes precisely the claim's observables — positions,
sizes, prompt texts, response (`markdown_content`) texts, model ids,
attached-file lists, and the `child_forms` nesting in order — a forest
obtained by `serialize; deserialize` is structurally and field-wise
identical to the serialized one. -/
theorem round_trip_persistence (render : String → String)
    (docs : List SavedNode) (w : World) :
    save_canvas (load_canvas render docs w).1 = docs := by
  obtain ⟨I1, I2, I3, I4, I5, I6, I7⟩ :=
    load_fold_spec render docs (clearScene w) [] (fun j _ => rfl)
  unfold load_canvas save_canvas
  rw [I6]
  have hempty : sceneRoots (clearScene w) = [] := by
    unfold sceneRoots
    apply List.filter_eq_nil_iff.mpr
    intro a _
    simp
  rw [hempty, List.nil_append]
  apply I7
  rw [I1]
  omega

/-- Witness for the C4 theorem: the concrete chain `0 → 1 → 2 → 3`. -/
theorem context_assembly_order_witness :
    (pyStrip (chainWorld.form 3).input_text ≠ "") ∧
    (url_pattern_match (pyStrip (chainWorld.form 3).input_text) = false) ∧
    submit_form chainWorld (fun _ => none) 3 = .llmRequest
      [⟨"user", "root-resp"⟩, ⟨"user", "a-resp"⟩, ⟨"user", "b-resp"⟩,
       ⟨"user", "What next?"⟩] :=
  ⟨by decide, by decide, by
    have h := context_assembly_order chainWorld (fun _ => none) 0 1 2 3
      rfl rfl rfl rfl (by decide) (by decide) (by decide) (by decide) rfl
      (by decide) (by decide)
    simpa using h⟩

/-! ## DeleteSubtree: the `_delete_subtree` traversal contract -/

theorem mem_concatMap {f : α → List β} {b : β} :
    ∀ {l : List α}, b ∈ concatMap f l ↔ ∃ a ∈ l, b ∈ f a := by
  intro l
  induction l with
  | nil => simp [concatMap]
  | cons a l ih => simp [concatMap, ih, List.mem_append, or_and_right, exists_or]

theorem concatMap_congr {f g : α → List β} :
    ∀ {l : List α}, (∀ a ∈ l, f a = g a) → concatMap f l = concatMap g l := by
  intro l
  induction l with
  | nil => intro _; rfl
  | cons a l ih =>
      intro h
      simp only [concatMap]
      rw [h a (List.mem_cons_self a l), ih (fun x hx => h x (List.mem_cons_of_mem a hx))]

theorem subtree_ids_congr : ∀ (fuel : Nat) (w1 w2 : World),
    w1.form = w2.form → ∀ i, subtree_ids w1 fuel i = subtree_ids w2 fuel i := by
  intro fuel
  induction fuel with
  | zero => intro _ _ _ _; rfl
  | succ f ih =>
      intro w1 w2 h i
      simp only [subtree_ids, h]
      rw [concatMap_congr (fun c _ => ih w1 w2 h c)]

theorem condSceneRemove_form (v : World) (i : Nat) :
    (condSceneRemove v i).form = v.form := by
  unfold condSceneRemove; split <;> rfl

theorem condSceneRemove_nextId (v : World) (i : Nat) :
    (condSceneRemove v i).nextId = v.nextId := by
  unfold condSceneRemove; split <;> rfl

theorem condSceneRemove_nextLink (v : World) (i : Nat) :
    (condSceneRemove v i).nextLink = v.nextLink := by
  unfold condSceneRemove; split <;> rfl

theorem condSceneRemove_linkInScene (v : World) (i : Nat) :
    (condSceneRemove v i).linkInScene = v.linkInScene := by
  unfold condSceneRemove; split <;> rfl

theorem condSceneRemove_inScene (v : World) (i j : Nat) :
    (condSceneRemove v i).inScene j = if j = i then false else v.inScene j := by
  unfold condSceneRemove
  split
  · rfl
  · rename_i h
    by_cases hji : j = i
    · rw [if_pos hji, hji]
      exact Bool.not_eq_true _ ▸ (Bool.of_not_eq_true h)
    · rw [if_neg hji]

theorem condLinkRemove_form (v : World) (i : Nat) :
    (condLinkRemove v i).form = v.form := by
  unfold condLinkRemove
  rcases (v.form i).link_line with _ | ln
  · rfl
  · show (if v.linkInScene ln then v.removeLinkScene ln else v).form = v.form
    split <;> rfl

theorem condLinkRemove_nextId (v : World) (i : Nat) :
    (condLinkRemove v i).nextId = v.nextId := by
  unfold condLinkRemove
  rcases (v.form i).link_line with _ | ln
  · rfl
  · show (if v.linkInScene ln then v.removeLinkScene ln else v).nextId = v.nextId
    split <;> rfl

theorem condLinkRemove_nextLink (v : World) (i : Nat) :
    (condLinkRemove v i).nextLink = v.nextLink := by
  unfold condLinkRemove
  rcases (v.form i).link_line with _ | ln
  · rfl
  · show (if v.linkInScene ln then v.removeLinkScene ln else v).nextLink = v.nextLink
    split <;> rfl

theorem condLinkRemove_inScene (v : World) (i : Nat) :
    (condLinkRemove v i).inScene = v.inScene := by
  unfold condLinkRemove
  rcases (v.form i).link_line with _ | ln
  · rfl
  · show (if v.linkInScene ln then v.removeLinkScene ln else v).inScene = v.inScene
    split <;> rfl

theorem condLinkRemove_linkInScene (v : World) (i : Nat) (m : Nat) :
    (condLinkRemove v i).linkInScene m
      = if (v.form i).link_line = some m then false else v.linkInScene m := by
  unfold condLinkRemove
  rcases hl : (v.form i).link_line with _ | ln
  · rw [if_neg (by simp)]
  · show (if v.linkInScene ln then v.removeLinkScene ln else v).linkInScene m = _
    by_cases hml : m = ln
    · subst hml
      rw [if_pos rfl]
      by_cases hs : v.linkInScene m
      · rw [if_pos hs, World.removeLinkScene_linkInScene, if_pos rfl]
      · rw [if_neg hs]
        exact Bool.of_not_eq_true hs
    · rw [if_neg (fun hcontra => hml (Option.some.inj hcontra).symm)]
      by_cases hs : v.linkInScene ln
      · rw [if_pos hs, World.removeLinkScene_linkInScene, if_neg hml]
      · rw [if_neg hs]

/-- Full characterization of `_delete_subtree`: forms are never modified,
the captured list is the post-order capture of the subtree, and exactly
the subtree's forms (and their link lines) leave the scene. -/
theorem delete_go_spec :
    ∀ (fuel : Nat) (w : World) (i : Nat),
      (delete_subtree_go w fuel i).1.form = w.form ∧
      (delete_subtree_go w fuel i).1.nextId = w.nextId ∧
      (delete_subtree_go w fuel i).1.nextLink = w.nextLink ∧
      (delete_subtree_go w fuel i).2
        = (subtree_ids w fuel i).map
            (fun j => (j, (w.form j).pos, (w.form j).link_line)) ∧
      (∀ j, (delete_subtree_go w fuel i).1.inScene j
        = if j ∈ subtree_ids w fuel i then false else w.inScene j) ∧
      (∀ m, (delete_subtree_go w fuel i).1.linkInScene m
        = if m ∈ (subtree_ids w fuel i).filterMap
              (fun j => (w.form j).link_line)
          then false else w.linkInScene m) := by
  intro fuel
  induction fuel with
  | zero =>
      intro w i
      refine ⟨rfl, rfl, rfl, rfl, ?_, ?_⟩ <;> intro x <;>
        simp [subtree_ids, delete_subtree_go]
  | succ f ih =>
      intro w i
      have hfold : ∀ (l : List Nat) (W0 : World) (cap : List (Nat × Pos × Option Nat)),
          W0.form = w.form → W0.nextId = w.nextId → W0.nextLink = w.nextLink →
          ((l.foldl (fun acc c =>
              let r := delete_subtree_go acc.1 f c
              (r.1, acc.2 ++ r.2)) (W0, cap)).1.form = w.form ∧
           (l.foldl (fun acc c =>
              let r := delete_subtree_go acc.1 f c
              (r.1, acc.2 ++ r.2)) (W0, cap)).1.nextId = w.nextId ∧
           (l.foldl (fun acc c =>
              let r := delete_subtree_go acc.1 f c
              (r.1, acc.2 ++ r.2)) (W0, cap)).1.nextLink = w.nextLink ∧
           (l.foldl (fun acc c =>
              let r := delete_subtree_go acc.1 f c
              (r.1, acc.2 ++ r.2)) (W0, cap)).2
             = cap ++ (concatMap (subtree_ids w f) l).map
                 (fun j => (j, (w.form j).pos, (w.form j).link_line)) ∧
           (∀ j, (l.foldl (fun acc c =>
              let r := delete_subtree_go acc.1 f c
              (r.1, acc.2 ++ r.2)) (W0, cap)).1.inScene j
             = if j ∈ concatMap (subtree_ids w f) l then false
               else W0.inScene j) ∧
           (∀ m, (l.foldl (fun acc c =>
              let r := delete_subtree_go acc.1 f c
              (r.1, acc.2 ++ r.2)) (W0, cap)).1.linkInScene m
             = if m ∈ (concatMap (subtree_ids w f) l).filterMap
                   (fun j => (w.form j).link_line)
               then false else W0.linkInScene m)) := by
        intro l
        induction l with
        | nil =>
            intro W0 cap h1 h2 h3
            refine ⟨h1, h2, h3, by simp [concatMap], ?_, ?_⟩ <;>
              intro x <;> simp [concatMap]
        | cons c l2 ihl =>
            intro W0 cap h1 h2 h3
            obtain ⟨S1, S2, S3, S4, S5, S6⟩ := ih W0 c
            have hsub : subtree_ids W0 f c = subtree_ids w f c :=
              subtree_ids_congr f W0 w h1 c
            have hstep : (c :: l2).foldl (fun acc c2 =>
                let r := delete_subtree_go acc.1 f c2
                (r.1, acc.2 ++ r.2)) (W0, cap)
              = l2.foldl (fun acc c2 =>
                let r := delete_subtree_go acc.1 f c2
                (r.1, acc.2 ++ r.2))
                ((delete_subtree_go W0 f c).1,
                  cap ++ (delete_subtree_go W0 f c).2) := rfl
            obtain ⟨T1, T2, T3, T4, T5, T6⟩ :=
              ihl (delete_subtree_go W0 f c).1 (cap ++ (delete_subtree_go W0 f c).2)
                (S1.trans h1) (S2.trans h2) (S3.trans h3)
            have hcc : concatMap (subtree_ids w f) (c :: l2)
                = subtree_ids w f c ++ concatMap (subtree_ids w f) l2 := rfl
            rw [hstep, hcc]
            refine ⟨T1, T2, T3, ?_, ?_, ?_⟩
            · rw [T4, S4]
              simp only [h1, hsub]
              simp [List.map_append, List.append_assoc]
            · intro j
              rw [T5 j, S5 j, hsub]
              by_cases hj1 : j ∈ subtree_ids w f c <;>
                by_cases hj2 : j ∈ concatMap (subtree_ids w f) l2 <;>
                  simp [hj1, hj2, List.mem_append]
            · intro m
              rw [T6 m, S6 m]
              simp only [h1, hsub]
              by_cases hm1 : m ∈ (subtree_ids w f c).filterMap
                  (fun j => (w.form j).link_line) <;>
                by_cases hm2 : m ∈ (concatMap (subtree_ids w f) l2).filterMap
                    (fun j => (w.form j).link_line) <;>
                  simp [hm1, hm2, List.filterMap_append, List.mem_append]
      obtain ⟨F1, F2, F3, F4, F5, F6⟩ :=
        hfold (w.form i).child_forms w [] rfl rfl rfl
      set a : World × List (Nat × Pos × Option Nat) :=
        (w.form i).child_forms.foldl (fun acc c =>
          let r := delete_subtree_go acc.1 f c
          (r.1, acc.2 ++ r.2)) (w, []) with ha
      have hunf : delete_subtree_go w (f + 1) i
          = (condLinkRemove (condSceneRemove a.1 i) i,
             a.2 ++ [(i,
               ((condLinkRemove (condSceneRemove a.1 i) i).form i).pos,
               ((condLinkRemove (condSceneRemove a.1 i) i).form i).link_line)]) := rfl
      have hsub1 : subtree_ids w (f + 1) i
          = concatMap (subtree_ids w f) (w.form i).child_forms ++ [i] := rfl
      have hformfin : (condLinkRemove (condSceneRemove a.1 i) i).form = w.form := by
        rw [condLinkRemove_form, condSceneRemove_form, F1]
      rw [hunf, hsub1]
      refine ⟨hformfin, ?_, ?_, ?_, ?_, ?_⟩
      · rw [condLinkRemove_nextId, condSceneRemove_nextId, F2]
      · rw [condLinkRemove_nextLink, condSceneRemove_nextLink, F3]
      · rw [F4, hformfin]
        simp [List.map_append]
      · intro j
        rw [condLinkRemove_inScene, condSceneRemove_inScene, F5 j]
        by_cases hji : j = i <;>
          by_cases hjc : j ∈ concatMap (subtree_ids w f) (w.form i).child_forms <;>
            simp [hji, hjc, List.mem_append]
      · intro m
        rw [condLinkRemove_linkInScene, condSceneRemove_linkInScene,
          condSceneRemove_form, F1, F6 m]
        have hfm : (concatMap (subtree_ids w f) (w.form i).child_forms
              ++ [i]).filterMap (fun j => (w.form j).link_line)
            = (concatMap (subtree_ids w f) (w.form i).child_forms).filterMap
                (fun j => (w.form j).link_line)
              ++ ((w.form i).link_line).toList := by
          rw [List.filterMap_append]
          rcases h : (w.form i).link_line with _ | ln <;> simp [h]
        rw [hfm]
        rcases hll : (w.form i).link_line with _ | ln
        · simp
        · by_cases hm1 : m ∈ (concatMap (subtree_ids w f)
              (w.form i).child_forms).filterMap (fun j => (w.form j).link_line) <;>
            by_cases hmn : ln = m <;>
              simp [hm1, hmn, List.mem_append] <;>
                exact fun _ h2 => hmn h2.symm

/-- Bounds and self-membership for the post-order subtree traversal,
under the parent-id < child-id tree invariant. -/
theorem subtree_mem_facts (w : World)
    (hgt : ∀ a, a < w.nextId → ∀ b ∈ (w.form a).child_forms, a < b)
    (hlt : ∀ a, a < w.nextId → ∀ b ∈ (w.form a).child_forms, b < w.nextId) :
    ∀ (fuel i : Nat), i < w.nextId → w.nextId - i ≤ fuel →
      i ∈ subtree_ids w fuel i ∧
      (∀ j ∈ subtree_ids w fuel i, i ≤ j ∧ j < w.nextId) := by
  intro fuel
  induction fuel with
  | zero => intro i hi hf; omega
  | succ f ih =>
      intro i hi hf
      have hunf : subtree_ids w (f + 1) i
          = concatMap (subtree_ids w f) (w.form i).child_forms ++ [i] := rfl
      constructor
      · rw [hunf]
        simp
      · intro j hj
        rw [hunf, List.mem_append] at hj
        rcases hj with hj | hj
        · obtain ⟨c, hcmem, hjc⟩ := mem_concatMap.mp hj
          have hci : i < c := hgt i hi c hcmem
          have hcn : c < w.nextId := hlt i hi c hcmem
          have := (ih c hcn (by omega)).2 j hjc
          omega
        · have : j = i := List.mem_singleton.mp hj
          omega

/-- All members of an in-scene node's subtree are in the scene
(children-closure of the scene). -/
theorem subtree_mem_scene (w : World)
    (hgt : ∀ a, a < w.nextId → ∀ b ∈ (w.form a).child_forms, a < b)
    (hlt : ∀ a, a < w.nextId → ∀ b ∈ (w.form a).child_forms, b < w.nextId)
    (hclosed : ∀ a, a < w.nextId → w.inScene a = true →
      ∀ b ∈ (w.form a).child_forms, w.inScene b = true) :
    ∀ (fuel i : Nat), i < w.nextId → w.nextId - i ≤ fuel →
      w.inScene i = true → ∀ j ∈ subtree_ids w fuel i, w.inScene j = true := by
  intro fuel
  induction fuel with
  | zero => intro i hi hf; omega
  | succ f ih =>
      intro i hi hf hins j hj
      have hunf : subtree_ids w (f + 1) i
          = concatMap (subtree_ids w f) (w.form i).child_forms ++ [i] := rfl
      rw [hunf, List.mem_append] at hj
      rcases hj with hj | hj
      · obtain ⟨c, hcmem, hjc⟩ := mem_concatMap.mp hj
        have hci : i < c := hgt i hi c hcmem
        have hcn : c < w.nextId := hlt i hi c hcmem
        exact ih c hcn (by omega) (hclosed i hi hins c hcmem) j hjc
      · have : j = i := List.mem_singleton.mp hj
        rw [this]; exact hins

/-- Splitting a `concatMap` at an occurrence locates the originating list
element and the split of its image. -/
theorem concatMap_split {f : α → List β} :
    ∀ (xs : List α) (l1 : List β) (j : β) (l2 : List β),
      concatMap f xs = l1 ++ j :: l2 →
      ∃ (xs1 : List α) (c0 : α) (xs2 : List α) (a b : List β),
        xs = xs1 ++ c0 :: xs2 ∧ f c0 = a ++ j :: b ∧
          l1 = concatMap f xs1 ++ a := by
  intro xs
  induction xs with
  | nil =>
      intro l1 j l2 h
      exfalso
      have : ([] : List β) = l1 ++ j :: l2 := h
      cases l1 <;> simp at this
  | cons c xs ih =>
      intro l1 j l2 h
      have h2 : f c ++ concatMap f xs = l1 ++ j :: l2 := h
      rcases List.append_eq_append_iff.mp h2 with ⟨a2, ha1, ha2⟩ | ⟨c2, hc1, hc2⟩
      · obtain ⟨xs1, c0, xs2, a, b, hx, hfc0, hl⟩ := ih a2 j l2 ha2
        refine ⟨c :: xs1, c0, xs2, a, b, by rw [hx]; rfl, hfc0, ?_⟩
        rw [ha1, hl]
        show f c ++ (concatMap f xs1 ++ a) = (f c ++ concatMap f xs1) ++ a
        rw [List.append_assoc]
      · cases c2 with
        | nil =>
            rw [List.append_nil] at hc1
            rw [List.nil_append] at hc2
            obtain ⟨xs1, c0, xs2, a, b, hx, hfc0, hl⟩ := ih [] j l2 hc2.symm
            have hnil : concatMap f xs1 = [] ∧ a = [] := by
              have := hl.symm
              exact List.append_eq_nil.mp this
            refine ⟨c :: xs1, c0, xs2, a, b, by rw [hx]; rfl, hfc0, ?_⟩
            show l1 = (f c ++ concatMap f xs1) ++ a
            rw [hnil.1, hnil.2, List.append_nil, List.append_nil, hc1]
        | cons j2 t =>
            rw [List.cons_append] at hc2
            injection hc2 with hj2 hl2
            refine ⟨[], c, xs, l1, t, rfl, ?_, by simp [concatMap]⟩
            rw [hc1, hj2]

/-- The post-order traversal lists every node after all of its
children. -/
theorem subtree_childrenFirst (w : World)
    (hgt : ∀ a, a < w.nextId → ∀ b ∈ (w.form a).child_forms, a < b)
    (hlt : ∀ a, a < w.nextId → ∀ b ∈ (w.form a).child_forms, b < w.nextId) :
    ∀ (fuel i : Nat), i < w.nextId → w.nextId - i ≤ fuel →
      childrenFirst w (subtree_ids w fuel i) := by
  intro fuel
  induction fuel with
  | zero => intro i hi hf; omega
  | succ f ih =>
      intro i hi hf l1 j l2 hsplit c hc
      have hunf : subtree_ids w (f + 1) i
          = concatMap (subtree_ids w f) (w.form i).child_forms ++ [i] := rfl
      rw [hunf] at hsplit
      have hlast : (l1 = concatMap (subtree_ids w f) (w.form i).child_forms ∧ j = i)
          ∨ ∃ t, concatMap (subtree_ids w f) (w.form i).child_forms
              = l1 ++ j :: t := by
        rcases List.append_eq_append_iff.mp hsplit with
          ⟨a2, ha1, ha2⟩ | ⟨c2, hc1, hc2⟩
        · cases a2 with
          | nil =>
              injection ha2 with h1 h2
              rw [List.append_nil] at ha1
              exact Or.inl ⟨ha1, h1.symm⟩
          | cons x t =>
              exfalso
              rw [List.cons_append] at ha2
              injection ha2 with h1 h2
              cases t <;> simp at h2
        · cases c2 with
          | nil =>
              rw [List.append_nil] at hc1
              injection hc2 with h1 h2
              exact Or.inl ⟨hc1.symm, h1⟩
          | cons x t =>
              rw [List.cons_append] at hc2
              injection hc2 with h1 h2
              exact Or.inr ⟨t, by rw [hc1, h1]⟩
      rcases hlast with ⟨hl1, hji⟩ | ⟨t, hA⟩
      · rw [hji] at hc
        rw [hl1]
        have hci : i < c := hgt i hi c hc
        have hcn : c < w.nextId := hlt i hi c hc
        have hself := (subtree_mem_facts w hgt hlt f c hcn (by omega)).1
        exact mem_concatMap.mpr ⟨c, hc, hself⟩
      · obtain ⟨xs1, c0, xs2, a, b, hx, hfc0, hl⟩ :=
          concatMap_split _ l1 j t hA
        have hc0mem : c0 ∈ (w.form i).child_forms := by
          rw [hx]; exact List.mem_append.mpr (Or.inr (List.mem_cons_self _ _))
        have hc0i : i < c0 := hgt i hi c0 hc0mem
        have hc0n : c0 < w.nextId := hlt i hi c0 hc0mem
        have hcf := ih c0 hc0n (by omega) a j b hfc0 c hc
        rw [hl]
        exact List.mem_append.mpr (Or.inr hcf)

/-- Removing one kept element from a filter shortens it by exactly one. -/
theorem filter_remove_one :
    ∀ (l : List Nat) (p : Nat → Bool) (s : Nat), l.Nodup → s ∈ l → p s = true →
      (l.filter (fun j => if j = s then false else p j)).length + 1
        = (l.filter p).length := by
  intro l
  induction l with
  | nil => intro p s _ hs; cases hs
  | cons a l2 ih =>
      intro p s hnd hs hp
      rcases List.mem_cons.mp hs with rfl | hsl
      · have hnotin : s ∉ l2 := (List.nodup_cons.mp hnd).1
        have hcong : l2.filter (fun j => if j = s then false else p j)
            = l2.filter p := by
          apply List.filter_congr
          intro x hx
          show (if x = s then false else p x) = p x
          rw [if_neg (fun (hxs : x = s) => hnotin (hxs ▸ hx))]
        rw [List.filter_cons, List.filter_cons, if_pos hp]
        rw [if_neg (by simp : ¬((if s = s then false else p s) = true))]
        rw [hcong]
        rfl
      · have hne : a ≠ s := fun has => (List.nodup_cons.mp hnd).1 (has ▸ hsl)
        have := ih p s (List.nodup_cons.mp hnd).2 hsl hp
        rw [List.filter_cons, List.filter_cons]
        by_cases hpa : p a = true
        · rw [if_pos (by rw [if_neg hne]; exact hpa), if_pos hpa]
          simp only [List.length_cons]
          omega
        · rw [if_neg (by rw [if_neg hne]; exact hpa), if_neg hpa]
          exact this

/-- Removing a nodup set of kept elements shortens a filter by its
size. -/
theorem filter_remove_set :
    ∀ (S : List Nat) (p : Nat → Bool) (l : List Nat), l.Nodup → S.Nodup →
      (∀ j ∈ S, p j = true ∧ j ∈ l) →
      (l.filter (fun j => if j ∈ S then false else p j)).length + S.length
        = (l.filter p).length := by
  intro S
  induction S with
  | nil =>
      intro p l _ _ _
      simp
  | cons s S2 ih =>
      intro p l hl hnd hall
      have hpred : ∀ x ∈ l, (if x ∈ s :: S2 then false else p x)
          = (if x ∈ S2 then false else (if x = s then false else p x)) := by
        intro x _
        by_cases h1 : x ∈ S2 <;> by_cases h2 : x = s <;>
          simp [h1, h2, List.mem_cons]
      rw [List.filter_congr hpred]
      have hih : (l.filter (fun x => if x ∈ S2 then false
            else (if x = s then false else p x))).length + S2.length
          = (l.filter (fun j => if j = s then false else p j)).length :=
        ih (fun j => if j = s then false else p j) l hl
        (List.nodup_cons.mp hnd).2 (fun j hj => by
          have hjs : j ≠ s := fun hjs => (List.nodup_cons.mp hnd).1 (hjs ▸ hj)
          have h5 := hall j (List.mem_cons_of_mem s hj)
          refine ⟨?_, h5.2⟩
          show (if j = s then false else p j) = true
          rw [if_neg hjs]
          exact h5.1)
      have hone := filter_remove_one l p s hl
        (hall s (List.mem_cons_self s S2)).2 (hall s (List.mem_cons_self s S2)).1
      simp only [List.length_cons]
      omega

/-- Children-before-parent order reverses to parent-before-children
order. -/
theorem childrenFirst_reverse (w : World) (L : List Nat)
    (h : childrenFirst w L) : parentsFirst w L.reverse := by
  intro l1 j l2 hsplit c hc
  have hL : L = l2.reverse ++ j :: l1.reverse := by
    have h2 := congrArg List.reverse hsplit
    rw [List.reverse_reverse] at h2
    rw [h2]
    simp
  have hcl := h l2.reverse j l1.reverse hL c hc
  exact List.mem_reverse.mp hcl

/-! ## CloneBranch groundwork -/

theorem CTree.shiftList_eq_map (d : Pos) :
    ∀ ts : List CTree, CTree.shiftList d ts = ts.map (CTree.shift d) := by
  intro ts
  induction ts with
  | nil => rfl
  | cons t ts ih => simp [CTree.shiftList, ih]

/-- `formTree` only depends on the forms of a children-closed id set. -/
theorem formTree_congr_on (w1 w2 : World) (S : Nat → Prop)
    (hagree : ∀ j, S j → w2.form j = w1.form j)
    (hclosed : ∀ j, S j → ∀ b ∈ (w1.form j).child_forms, S b) :
    ∀ (fuel root : Nat), S root → formTree w2 fuel root = formTree w1 fuel root := by
  intro fuel
  induction fuel with
  | zero =>
      intro root hS
      simp [formTree, hagree root hS]
  | succ f ih =>
      intro root hS
      simp only [formTree, hagree root hS]
      congr 1
      exact List.map_congr_left (fun b hb => ih b (hclosed root hS b hb))

/-- `subtree_ids` only depends on the forms of a children-closed id
set. -/
theorem subtree_ids_congr_on (w1 w2 : World) (S : Nat → Prop)
    (hagree : ∀ j, S j → w2.form j = w1.form j)
    (hclosed : ∀ j, S j → ∀ b ∈ (w1.form j).child_forms, S b) :
    ∀ (fuel root : Nat), S root →
      subtree_ids w2 fuel root = subtree_ids w1 fuel root := by
  intro fuel
  induction fuel with
  | zero => intro root _; rfl
  | succ f ih =>
      intro root hS
      show concatMap (subtree_ids w2 f) (w2.form root).child_forms ++ [root]
        = concatMap (subtree_ids w1 f) (w1.form root).child_forms ++ [root]
      rw [hagree root hS]
      congr 1
      exact concatMap_congr (fun b hb => ih b (hclosed root hS b hb))

/-- Cancellation of the relative-position arithmetic: the child clone's
offset equals the root clone's offset. -/
theorem pos_shift_cancel (a b c : Pos) : (a + (b - c)) - b = a - c := by
  rcases a with ⟨a1, a2⟩
  rcases b with ⟨b1, b2⟩
  rcases c with ⟨c1, c2⟩
  simp [Prod.ext_iff]
  omega

/-- The children loop of `_clone_branch` (src/app.py:538-540), fully
characterized relative to the original world `w`, the source-subtree id
bound `N`, and the root clone `k`. -/
theorem clone_fold_spec (w : World) (N src f : Nat) (position : Pos) (k : Nat)
    (hsrcN : src < N)
    (hcl : ∀ j, src ≤ j → j < N → ∀ b ∈ (w.form j).child_forms, j < b ∧ b < N)
    (hdep : N - src ≤ f + 1)
    (hkN : N ≤ k)
    (IH : CGSpec f) :
    ∀ (l : List Nat), (∀ c ∈ l, src < c ∧ c < N) →
    ∀ (wF : World) (accL : List Nat),
      N ≤ wF.nextId → k < wF.nextId →
      (∀ j, src ≤ j → j < N → wF.form j = w.form j) →
      ∃ (newL roots : List Nat),
        (l.foldl (fun (acc : World × List Nat) c =>
            let childPos := position + ((acc.1.form c).pos - (acc.1.form src).pos)
            let r := clone_branch_go acc.1 f c (some k) childPos
            (r.1, acc.2 ++ r.2)) (wF, accL)).2 = accL ++ newL ∧
        newL.length = (concatMap (subtree_ids w f) l).length ∧
        (l.foldl (fun (acc : World × List Nat) c =>
            let childPos := position + ((acc.1.form c).pos - (acc.1.form src).pos)
            let r := clone_branch_go acc.1 f c (some k) childPos
            (r.1, acc.2 ++ r.2)) (wF, accL)).1.nextId = wF.nextId + newL.length ∧
        (∀ x ∈ newL, wF.nextId ≤ x ∧ x < wF.nextId + newL.length) ∧
        (∀ r2 ∈ roots, wF.nextId ≤ r2 ∧ r2 < wF.nextId + newL.length) ∧
        (∀ j, j < wF.nextId → j ≠ k →
          (l.foldl (fun (acc : World × List Nat) c =>
            let childPos := position + ((acc.1.form c).pos - (acc.1.form src).pos)
            let r := clone_branch_go acc.1 f c (some k) childPos
            (r.1, acc.2 ++ r.2)) (wF, accL)).1.form j = wF.form j) ∧
        ((l.foldl (fun (acc : World × List Nat) c =>
            let childPos := position + ((acc.1.form c).pos - (acc.1.form src).pos)
            let r := clone_branch_go acc.1 f c (some k) childPos
            (r.1, acc.2 ++ r.2)) (wF, accL)).1.form k
          = { wF.form k with
              child_forms := (wF.form k).child_forms ++ roots }) ∧
        (∀ j, ¬(wF.nextId ≤ j ∧ j < wF.nextId + newL.length) →
          (l.foldl (fun (acc : World × List Nat) c =>
            let childPos := position + ((acc.1.form c).pos - (acc.1.form src).pos)
            let r := clone_branch_go acc.1 f c (some k) childPos
            (r.1, acc.2 ++ r.2)) (wF, accL)).1.inScene j = wF.inScene j) ∧
        (∀ j, wF.nextId ≤ j → j < wF.nextId + newL.length →
          (l.foldl (fun (acc : World × List Nat) c =>
            let childPos := position + ((acc.1.form c).pos - (acc.1.form src).pos)
            let r := clone_branch_go acc.1 f c (some k) childPos
            (r.1, acc.2 ++ r.2)) (wF, accL)).1.inScene j = true) ∧
        (∀ j, wF.nextId ≤ j → j < wF.nextId + newL.length →
          ∀ b ∈ ((l.foldl (fun (acc : World × List Nat) c =>
            let childPos := position + ((acc.1.form c).pos - (acc.1.form src).pos)
            let r := clone_branch_go acc.1 f c (some k) childPos
            (r.1, acc.2 ++ r.2)) (wF, accL)).1.form j).child_forms,
            j < b ∧ b < wF.nextId + newL.length) ∧
        wF.nextLink ≤ (l.foldl (fun (acc : World × List Nat) c =>
            let childPos := position + ((acc.1.form c).pos - (acc.1.form src).pos)
            let r := clone_branch_go acc.1 f c (some k) childPos
            (r.1, acc.2 ++ r.2)) (wF, accL)).1.nextLink ∧
        (∀ m, ¬(wF.nextLink ≤ m ∧
            m < (l.foldl (fun (acc : World × List Nat) c =>
              let childPos := position + ((acc.1.form c).pos - (acc.1.form src).pos)
              let r := clone_branch_go acc.1 f c (some k) childPos
              (r.1, acc.2 ++ r.2)) (wF, accL)).1.nextLink) →
          (l.foldl (fun (acc : World × List Nat) c =>
            let childPos := position + ((acc.1.form c).pos - (acc.1.form src).pos)
            let r := clone_branch_go acc.1 f c (some k) childPos
            (r.1, acc.2 ++ r.2)) (wF, accL)).1.linkInScene m = wF.linkInScene m) ∧
        (∀ x ∈ newL, ∀ ln,
          ((l.foldl (fun (acc : World × List Nat) c =>
            let childPos := position + ((acc.1.form c).pos - (acc.1.form src).pos)
            let r := clone_branch_go acc.1 f c (some k) childPos
            (r.1, acc.2 ++ r.2)) (wF, accL)).1.form x).link_line = some ln →
          wF.nextLink ≤ ln ∧
            ln < (l.foldl (fun (acc : World × List Nat) c =>
              let childPos := position + ((acc.1.form c).pos - (acc.1.form src).pos)
              let r := clone_branch_go acc.1 f c (some k) childPos
              (r.1, acc.2 ++ r.2)) (wF, accL)).1.nextLink ∧
            (l.foldl (fun (acc : World × List Nat) c =>
              let childPos := position + ((acc.1.form c).pos - (acc.1.form src).pos)
              let r := clone_branch_go acc.1 f c (some k) childPos
              (r.1, acc.2 ++ r.2)) (wF, accL)).1.linkInScene ln = true) ∧
        (∀ w2 : World,
          (∀ j, wF.nextId ≤ j → j < wF.nextId + newL.length →
            w2.form j = (l.foldl (fun (acc : World × List Nat) c =>
              let childPos := position + ((acc.1.form c).pos - (acc.1.form src).pos)
              let r := clone_branch_go acc.1 f c (some k) childPos
              (r.1, acc.2 ++ r.2)) (wF, accL)).1.form j) →
          ∀ fuel2, roots.map (formTree w2 fuel2)
            = l.map (fun c =>
                CTree.shift (position - (w.form src).pos)
                  (formTree w fuel2 c))) ∧
        (∀ m, wF.nextLink ≤ m →
          m < (l.foldl (fun (acc : World × List Nat) c =>
            let childPos := position + ((acc.1.form c).pos - (acc.1.form src).pos)
            let r := clone_branch_go acc.1 f c (some k) childPos
            (r.1, acc.2 ++ r.2)) (wF, accL)).1.nextLink →
          (l.foldl (fun (acc : World × List Nat) c =>
            let childPos := position + ((acc.1.form c).pos - (acc.1.form src).pos)
            let r := clone_branch_go acc.1 f c (some k) childPos
            (r.1, acc.2 ++ r.2)) (wF, accL)).1.linkInScene m = true →
          ∃ x, x ∈ newL ∧
            ((l.foldl (fun (acc : World × List Nat) c =>
              let childPos := position + ((acc.1.form c).pos - (acc.1.form src).pos)
              let r := clone_branch_go acc.1 f c (some k) childPos
              (r.1, acc.2 ++ r.2)) (wF, accL)).1.form x).link_line
              = some m) ∧
        (∀ x, wF.nextId ≤ x → x < wF.nextId + newL.length → x ∈ newL) ∧
        (∀ x ∈ newL, ∃ q,
          (((l.foldl (fun (acc : World × List Nat) c =>
            let childPos := position + ((acc.1.form c).pos - (acc.1.form src).pos)
            let r := clone_branch_go acc.1 f c (some k) childPos
            (r.1, acc.2 ++ r.2)) (wF, accL)).1.form x).parent_form = some q) ∧
          (q = k ∨ (wF.nextId ≤ q ∧ q < x))) := by
  intro l
  induction l with
  | nil =>
      intro _ wF accL hN hk hag
      refine ⟨[], [], by simp, by simp [concatMap], by simp, ?_, ?_, ?_, ?_,
        ?_, ?_, ?_, le_refl _, ?_, ?_, ?_, ?_, ?_, ?_⟩
      · intro x hx; cases hx
      · intro r2 hr2; cases hr2
      · intro j _ _; rfl
      · show wF.form k = { wF.form k with
          child_forms := (wF.form k).child_forms ++ [] }
        rw [List.append_nil]
      · intro j _; rfl
      · intro j h1 h2; simp only [List.length_nil] at h2; omega
      · intro j h1 h2 b hb; simp only [List.length_nil] at h2; omega
      · intro m _; rfl
      · intro x hx; cases hx
      · intro w2 _ fuel2; rfl
      · intro m h1 h2 _
        have h2' : m < wF.nextLink := h2
        omega
      · intro x h1 h2
        simp only [List.length_nil] at h2
        omega
      · intro x hx
        cases hx
  | cons c l2 ihl =>
      intro hsub wF accL hN hk hag
      have hc := hsub c (List.mem_cons_self c l2)
      have hstep : (c :: l2).foldl (fun (acc : World × List Nat) c2 =>
          let childPos := position + ((acc.1.form c2).pos - (acc.1.form src).pos)
          let r := clone_branch_go acc.1 f c2 (some k) childPos
          (r.1, acc.2 ++ r.2)) (wF, accL)
        = l2.foldl (fun (acc : World × List Nat) c2 =>
          let childPos := position + ((acc.1.form c2).pos - (acc.1.form src).pos)
          let r := clone_branch_go acc.1 f c2 (some k) childPos
          (r.1, acc.2 ++ r.2))
          ((clone_branch_go wF f c (some k)
              (position + ((wF.form c).pos - (wF.form src).pos))).1,
            accL ++ (clone_branch_go wF f c (some k)
              (position + ((wF.form c).pos - (wF.form src).pos))).2) := rfl
      obtain ⟨D1, D2, D3, D4, D5, D6, D7, D8, D9, D10, D11, D12, D13, D14, D15,
          D16, D17, D18⟩ :=
        IH wF c (some k)
          (position + ((wF.form c).pos - (wF.form src).pos)) N hc.2 (by omega)
          (fun j hj1 hj2 => by
            rw [hag j (by omega) hj2]
            exact hcl j (by omega) hj2)
          (by omega)
          (fun p0 hp0 => by injection hp0 with h5; exact Or.inr (h5 ▸ hkN))
          (fun p0 hp0 => by injection hp0 with h5; omega)
      set wN : World := (clone_branch_go wF f c (some k)
          (position + ((wF.form c).pos - (wF.form src).pos))).1 with hwN
      set subL : List Nat := (clone_branch_go wF f c (some k)
          (position + ((wF.form c).pos - (wF.form src).pos))).2 with hsubL
      obtain ⟨newL2, roots2, E1, E2, E3, E4, E5, E6, E7, E8, E9, E10, E11,
          E12, E13, E14, E16, E17, E18⟩ :=
        ihl (fun x hx => hsub x (List.mem_cons_of_mem c hx)) wN (accL ++ subL)
          (by omega) (by omega)
          (fun j hj1 hj2 => by
            rw [D6 j (by omega) (fun p0 hp0 => by
              injection hp0 with h5; omega)]
            exact hag j hj1 hj2)
      rw [hstep]
      refine ⟨subL ++ newL2, wF.nextId :: roots2, ?_, ?_, ?_, ?_, ?_, ?_, ?_,
        ?_, ?_, ?_, ?_, ?_, ?_, ?_, ?_, ?_, ?_⟩
      · rw [E1, List.append_assoc]
      · have hcsub : subtree_ids wF f c = subtree_ids w f c :=
          subtree_ids_congr_on w wF (fun j => c ≤ j ∧ j < N)
            (fun j hj => hag j (by omega) hj.2)
            (fun j hj b hb => by
              have := hcl j (by omega) hj.2 b hb
              omega)
            f c ⟨le_refl c, hc.2⟩
        have hlen : (concatMap (subtree_ids w f) (c :: l2)).length
            = (subtree_ids w f c).length
              + (concatMap (subtree_ids w f) l2).length := by
          show (subtree_ids w f c ++ concatMap (subtree_ids w f) l2).length = _
          rw [List.length_append]
        rw [List.length_append, E2, hlen, D4, hcsub]
      · rw [E3, D1]
        rw [List.length_append]
        omega
      · intro x hx
        rcases List.mem_append.mp hx with hx | hx
        · have := D5 x hx
          rw [D1] at this
          rw [List.length_append]
          omega
        · have := E4 x hx
          rw [D1] at this
          rw [List.length_append]
          omega
      · intro r2 hr2
        rcases List.mem_cons.mp hr2 with rfl | hr2
        · rw [List.length_append]
          have := D2
          omega
        · have := E5 r2 hr2
          rw [D1] at this
          rw [List.length_append]
          omega
      · intro j hj hjk
        rw [E6 j (by omega) hjk, D6 j hj (fun p0 hp0 => by
          injection hp0 with h5; omega)]
      · rw [E7, D7 k rfl]
        show { wF.form k with child_forms :=
            ((wF.form k).child_forms ++ [wF.nextId]) ++ roots2 } = _
        rw [List.append_assoc, List.singleton_append]
      · intro j hj
        rw [List.length_append] at hj
        rw [E8 j (by rw [D1] at *; omega), D9 j (by omega)]
      · intro j h1 h2
        rw [List.length_append] at h2
        by_cases hjn : j < wN.nextId
        · rw [E8 j (by omega), D10 j h1 (by omega)]
        · exact E9 j (by omega) (by rw [D1] at *; omega)
      · intro j h1 h2 b hb
        rw [List.length_append] at h2
        by_cases hjn : j < wN.nextId
        · rw [E6 j (by omega) (by omega)] at hb
          have := D11 j h1 (by omega) b hb
          rw [D1] at this
          rw [List.length_append]
          omega
        · have := E10 j (by omega) (by rw [D1] at *; omega) b hb
          rw [D1] at this
          rw [List.length_append]
          omega
      · omega
      · intro m hm
        rw [E12 m (by omega), D13 m (by omega)]
      · intro x hx ln hln
        rcases List.mem_append.mp hx with hx | hx
        · have hxb := D5 x hx
          have hxform : (l2.foldl (fun (acc : World × List Nat) c2 =>
              let childPos := position + ((acc.1.form c2).pos - (acc.1.form src).pos)
              let r := clone_branch_go acc.1 f c2 (some k) childPos
              (r.1, acc.2 ++ r.2)) (wN, accL ++ subL)).1.form x
              = wN.form x := E6 x (by omega) (by omega)
          rw [hxform] at hln
          have := D14 x hx ln hln
          refine ⟨by omega, by omega, ?_⟩
          rw [E12 ln (by omega)]
          exact this.2.2
        · have := E13 x hx ln hln
          exact ⟨by omega, this.2.1, this.2.2⟩
      · intro w2 hagree fuel2
        rw [List.map_cons]
        have hhead : formTree w2 fuel2 wF.nextId
            = CTree.shift (position - (w.form src).pos) (formTree w fuel2 c) := by
          have hD15 := D15 w2 (fun j hj1 hj2 => by
            rw [hagree j hj1 (by rw [List.length_append]; rw [D1] at hj2; omega)]
            exact E6 j (by omega) (by omega)) fuel2
          rw [hD15]
          have hsrcpos : (wF.form src).pos = (w.form src).pos := by
            rw [hag src (le_refl src) hsrcN]
          have hcpos : (wF.form c).pos = (w.form c).pos := by
            rw [hag c (by omega) hc.2]
          have hδ : (position + ((wF.form c).pos - (wF.form src).pos))
                - (wF.form c).pos = position - (w.form src).pos := by
            rw [hsrcpos, hcpos]
            exact pos_shift_cancel position (w.form c).pos (w.form src).pos
          rw [hδ]
          have hsrcTree : formTree wF fuel2 c = formTree w fuel2 c :=
            formTree_congr_on w wF (fun j => c ≤ j ∧ j < N)
              (fun j hj => hag j (by omega) hj.2)
              (fun j hj b hb => by
                have := hcl j (by omega) hj.2 b hb
                omega)
              fuel2 c ⟨le_refl c, hc.2⟩
          rw [hsrcTree]
        rw [hhead]
        have htail := E14 w2 (fun j hj1 hj2 => by
          rw [D1] at hj1
          exact hagree j (by omega)
            (by rw [List.length_append]; rw [D1] at hj2; omega)) fuel2
        rw [htail, List.map_cons]
      · intro m h1 h2 h3
        by_cases hm : m < wN.nextLink
        · have hE12 := E12 m (by omega)
          rw [hE12] at h3
          obtain ⟨x, hx, hxl⟩ := D16 m h1 hm h3
          refine ⟨x, List.mem_append.mpr (Or.inl hx), ?_⟩
          have hxb := D5 x hx
          rw [E6 x (by omega) (by omega)]
          exact hxl
        · obtain ⟨x, hx, hxl⟩ := E16 m (by omega) h2 h3
          exact ⟨x, List.mem_append.mpr (Or.inr hx), hxl⟩
      · intro x h1 h2
        rw [List.length_append] at h2
        by_cases hx : x < wN.nextId
        · exact List.mem_append.mpr (Or.inl (D17 x h1 hx))
        · refine List.mem_append.mpr (Or.inr (E17 x (by omega) ?_))
          rw [D1] at hx ⊢
          omega
      · intro x hx
        rcases List.mem_append.mp hx with hx | hx
        · have hxb := D5 x hx
          have hxf : (l2.foldl (fun (acc : World × List Nat) c2 =>
              let childPos := position
                + ((acc.1.form c2).pos - (acc.1.form src).pos)
              let r := clone_branch_go acc.1 f c2 (some k) childPos
              (r.1, acc.2 ++ r.2)) (wN, accL ++ subL)).1.form x = wN.form x :=
            E6 x (by omega) (by omega)
          by_cases hxr : x = wF.nextId
          · subst hxr
            refine ⟨k, ?_, Or.inl rfl⟩
            rw [hxf]
            exact D8
          · obtain ⟨q, hq1, hq2, hq3⟩ := D18 x hx hxr
            refine ⟨q, ?_, Or.inr ⟨hq2, hq3⟩⟩
            rw [hxf]
            exact hq1
        · obtain ⟨q, hq1, hq2⟩ := E18 x hx
          refine ⟨q, hq1, ?_⟩
          rcases hq2 with hqk | ⟨hq3, hq4⟩
          · exact Or.inl hqk
          · refine Or.inr ⟨?_, hq4⟩
            rw [D1] at hq3
            omega

/-- The mirror image of `pos_shift_cancel`: re-basing the shifted
position recovers the target. -/
theorem pos_sub_add_cancel (a b : Pos) : b + (a - b) = a := by
  rcases a with ⟨a1, a2⟩
  rcases b with ⟨b1, b2⟩
  simp [Prod.ext_iff]

/-- The clone root's offset from its source is exactly the caller-supplied
displacement. -/
theorem pos_add_sub_cancel_left (a d : Pos) : (a + d) - a = d := by
  rcases a with ⟨a1, a2⟩
  rcases d with ⟨d1, d2⟩
  simp [Prod.ext_iff]

/-- Assembling one `_clone_branch` call: given the post-setup world `W2`
(fresh root clone allocated, in scene, attached to the parent), the
children loop from `(W2, [w.nextId])` satisfies the full `CGSpec`
contract of the call. -/
theorem clone_assemble (w W2 : World) (src : Nat) (parent : Option Nat)
    (position : Pos) (N f : Nat)
    (hsrcN : src < N) (hNw : N ≤ w.nextId)
    (hcl : ∀ j, src ≤ j → j < N → ∀ b ∈ (w.form j).child_forms, j < b ∧ b < N)
    (hdep : N - src ≤ f + 1)
    (hpalloc : ∀ p0, parent = some p0 → p0 < w.nextId)
    (IH : CGSpec f)
    (hWn : W2.nextId = w.nextId + 1)
    (hWnl : w.nextLink ≤ W2.nextLink)
    (hag : ∀ j, src ≤ j → j < N → W2.form j = w.form j)
    (hWfr : ∀ j, j < w.nextId → (∀ p0, parent = some p0 → j ≠ p0) →
      W2.form j = w.form j)
    (hWp : ∀ p0, parent = some p0 →
      W2.form p0 = { w.form p0 with
        child_forms := (w.form p0).child_forms ++ [w.nextId] })
    (hWkpar : (W2.form w.nextId).parent_form = parent)
    (hWkch : (W2.form w.nextId).child_forms = [])
    (hWkpos : (W2.form w.nextId).pos = position)
    (hWkin : (W2.form w.nextId).input_text = (w.form src).input_text)
    (hWkconv : (W2.form w.nextId).conv_text = (w.form src).conv_text)
    (hWkmod : (W2.form w.nextId).model = (w.form src).model)
    (hWklink : ∀ ln, (W2.form w.nextId).link_line = some ln →
      w.nextLink ≤ ln ∧ ln < W2.nextLink ∧ W2.linkInScene ln = true)
    (hWsc : ∀ j, W2.inScene j = if j = w.nextId then true else w.inScene j)
    (hWlfr : ∀ m, ¬(w.nextLink ≤ m ∧ m < W2.nextLink) →
      W2.linkInScene m = w.linkInScene m)
    (hWroot : ∀ m, w.nextLink ≤ m → m < W2.nextLink →
      W2.linkInScene m = true → (W2.form w.nextId).link_line = some m) :
    ∀ R : World × List Nat,
      R = ((W2.form src).child_forms).foldl
        (fun (acc : World × List Nat) c =>
          let childPos := position + ((acc.1.form c).pos - (acc.1.form src).pos)
          let r := clone_branch_go acc.1 f c (some w.nextId) childPos
          (r.1, acc.2 ++ r.2)) (W2, [w.nextId]) →
      R.1.nextId = w.nextId + R.2.length ∧
      1 ≤ R.2.length ∧
      R.2.head? = some w.nextId ∧
      R.2.length = (subtree_ids w (f + 1) src).length ∧
      (∀ c ∈ R.2, w.nextId ≤ c ∧ c < R.1.nextId) ∧
      (∀ j, j < w.nextId → (∀ p0, parent = some p0 → j ≠ p0) →
        R.1.form j = w.form j) ∧
      (∀ p0, parent = some p0 →
        R.1.form p0 = { w.form p0 with
          child_forms := (w.form p0).child_forms ++ [w.nextId] }) ∧
      (R.1.form w.nextId).parent_form = parent ∧
      (∀ j, ¬(w.nextId ≤ j ∧ j < R.1.nextId) →
        R.1.inScene j = w.inScene j) ∧
      (∀ j, w.nextId ≤ j → j < R.1.nextId → R.1.inScene j = true) ∧
      (∀ j, w.nextId ≤ j → j < R.1.nextId →
        ∀ b ∈ (R.1.form j).child_forms, j < b ∧ b < R.1.nextId) ∧
      w.nextLink ≤ R.1.nextLink ∧
      (∀ m, ¬(w.nextLink ≤ m ∧ m < R.1.nextLink) →
        R.1.linkInScene m = w.linkInScene m) ∧
      (∀ c ∈ R.2, ∀ ln, (R.1.form c).link_line = some ln →
        w.nextLink ≤ ln ∧ ln < R.1.nextLink ∧
          R.1.linkInScene ln = true) ∧
      (∀ w2 : World,
        (∀ j, w.nextId ≤ j → j < R.1.nextId → w2.form j = R.1.form j) →
        ∀ fuel2, formTree w2 fuel2 w.nextId
          = CTree.shift (position - (w.form src).pos)
              (formTree w fuel2 src)) ∧
      (∀ m, w.nextLink ≤ m → m < R.1.nextLink →
        R.1.linkInScene m = true →
        ∃ c2, c2 ∈ R.2 ∧ (R.1.form c2).link_line = some m) ∧
      (∀ x, w.nextId ≤ x → x < R.1.nextId → x ∈ R.2) ∧
      (∀ x ∈ R.2, x ≠ w.nextId →
        ∃ q, (R.1.form x).parent_form = some q ∧ w.nextId ≤ q ∧ q < x) := by
  intro R hReq
  subst hReq
  have hl : W2.form src = w.form src := hag src (le_refl src) hsrcN
  have hsub : ∀ c ∈ (W2.form src).child_forms, src < c ∧ c < N := by
    rw [hl]
    exact hcl src (le_refl src) hsrcN
  obtain ⟨newL, roots, F1, F2, F3, F4, F5, F6, F7, F8, F9, F10, F11, F12,
      F13, F14, F16, F17, F18⟩ :=
    clone_fold_spec w N src f position w.nextId hsrcN hcl hdep hNw IH
      ((W2.form src).child_forms) hsub W2 [w.nextId] (by omega) (by omega) hag
  rw [hl] at F2
  refine ⟨?_, ?_, ?_, ?_, ?_, ?_, ?_, ?_, ?_, ?_, ?_, ?_, ?_, ?_, ?_, ?_, ?_,
    ?_⟩
  · rw [F3, F1, hWn, List.length_append, List.length_singleton]
    omega
  · rw [F1, List.length_append, List.length_singleton]
    omega
  · rw [F1]
    rfl
  · have hsub1 : subtree_ids w (f + 1) src
        = concatMap (subtree_ids w f) ((w.form src).child_forms) ++ [src] := rfl
    rw [F1, hsub1, List.length_append, List.length_append,
      List.length_singleton, List.length_singleton, F2]
    omega
  · intro c hc
    rw [F1] at hc
    rcases List.mem_append.mp hc with hc | hc
    · have hce := List.mem_singleton.mp hc
      subst hce
      refine ⟨le_refl _, ?_⟩
      rw [F3, hWn]
      omega
    · have h4 := F4 c hc
      rw [hWn] at h4
      refine ⟨by omega, ?_⟩
      rw [F3, hWn]
      omega
  · intro j hj hjp
    have h6 := F6 j (by rw [hWn]; omega) (by omega)
    rw [h6]
    exact hWfr j hj hjp
  · intro p0 hp0
    have hp0w := hpalloc p0 hp0
    have h6 := F6 p0 (by rw [hWn]; omega) (by omega)
    rw [h6]
    exact hWp p0 hp0
  · rw [F7]
    exact hWkpar
  · intro j hj
    rw [F3] at hj
    rw [hWn] at hj
    have h8 := F8 j (by rw [hWn]; omega)
    rw [h8, hWsc j, if_neg (by omega)]
  · intro j h1 h2
    rw [F3] at h2
    by_cases hj : j = w.nextId
    · subst hj
      have h8 := F8 w.nextId (by rw [hWn]; omega)
      rw [h8, hWsc w.nextId, if_pos rfl]
    · rw [hWn] at h2
      exact F9 j (by rw [hWn]; omega) (by rw [hWn]; omega)
  · intro j h1 h2 b hb
    rw [F3] at h2
    by_cases hj : j = w.nextId
    · subst hj
      rw [F7] at hb
      have hb2 : b ∈ (W2.form w.nextId).child_forms ++ roots := hb
      rw [hWkch, List.nil_append] at hb2
      have h5 := F5 b hb2
      rw [hWn] at h5
      refine ⟨by omega, ?_⟩
      rw [F3, hWn]
      omega
    · have h10 := F10 j (by rw [hWn]; omega) h2 b hb
      refine ⟨h10.1, ?_⟩
      rw [F3]
      exact h10.2
  · exact le_trans hWnl F11
  · intro m hm
    have h12 := F12 m (by omega)
    rw [h12]
    exact hWlfr m (by omega)
  · intro c hc ln hln
    rw [F1] at hc
    rcases List.mem_append.mp hc with hc | hc
    · have hce := List.mem_singleton.mp hc
      subst hce
      rw [F7] at hln
      have hln2 : (W2.form w.nextId).link_line = some ln := hln
      obtain ⟨ha, hb2, hc2⟩ := hWklink ln hln2
      refine ⟨ha, by omega, ?_⟩
      have h12 := F12 ln (by omega)
      rw [h12]
      exact hc2
    · have h13 := F13 c hc ln hln
      exact ⟨by omega, h13.2.1, h13.2.2⟩
  · intro w2 hagr fuel2
    have hk2 : w.nextId
        < (((W2.form src).child_forms).foldl
            (fun (acc : World × List Nat) c =>
              let childPos := position + ((acc.1.form c).pos - (acc.1.form src).pos)
              let r := clone_branch_go acc.1 f c (some w.nextId) childPos
              (r.1, acc.2 ++ r.2)) (W2, [w.nextId])).1.nextId := by
      rw [F3, hWn]
      omega
    have hw2k := hagr w.nextId (le_refl _) hk2
    have hkids : (w2.form w.nextId).child_forms = roots := by
      rw [hw2k, F7]
      show (W2.form w.nextId).child_forms ++ roots = roots
      rw [hWkch]
      rfl
    have hpos2 : (w2.form w.nextId).pos = position := by
      rw [hw2k, F7]
      exact hWkpos
    have hin2 : (w2.form w.nextId).input_text = (w.form src).input_text := by
      rw [hw2k, F7]
      exact hWkin
    have hconv2 : (w2.form w.nextId).conv_text = (w.form src).conv_text := by
      rw [hw2k, F7]
      exact hWkconv
    have hmod2 : (w2.form w.nextId).model = (w.form src).model := by
      rw [hw2k, F7]
      exact hWkmod
    cases fuel2 with
    | zero =>
        show CTree.node (w2.form w.nextId).pos (w2.form w.nextId).input_text
            (w2.form w.nextId).conv_text (w2.form w.nextId).model []
          = CTree.node ((w.form src).pos + (position - (w.form src).pos))
            (w.form src).input_text (w.form src).conv_text (w.form src).model
            (CTree.shiftList (position - (w.form src).pos) [])
        rw [hpos2, hin2, hconv2, hmod2, pos_sub_add_cancel]
        rfl
    | succ n =>
        have hmap := F14 w2 (fun j hj1 hj2 =>
          hagr j (by rw [hWn] at hj1; omega) (by rw [F3]; exact hj2)) n
        rw [hl] at hmap
        show CTree.node (w2.form w.nextId).pos (w2.form w.nextId).input_text
            (w2.form w.nextId).conv_text (w2.form w.nextId).model
            ((w2.form w.nextId).child_forms.map (formTree w2 n))
          = CTree.node ((w.form src).pos + (position - (w.form src).pos))
            (w.form src).input_text (w.form src).conv_text (w.form src).model
            (CTree.shiftList (position - (w.form src).pos)
              ((w.form src).child_forms.map (formTree w n)))
        rw [hpos2, hin2, hconv2, hmod2, hkids, pos_sub_add_cancel, hmap,
          CTree.shiftList_eq_map, List.map_map]
        rfl
  · intro m h1 h2 h3
    by_cases hm : m < W2.nextLink
    · have hF12 := F12 m (by omega)
      rw [hF12] at h3
      refine ⟨w.nextId, ?_, ?_⟩
      · rw [F1]
        exact List.mem_append.mpr (Or.inl (List.mem_singleton.mpr rfl))
      · rw [F7]
        exact hWroot m h1 hm h3
    · obtain ⟨x, hx, hxl⟩ := F16 m (by omega) h2 h3
      refine ⟨x, ?_, hxl⟩
      rw [F1]
      exact List.mem_append.mpr (Or.inr hx)
  · intro x h1 h2
    rw [F3] at h2
    rw [F1]
    by_cases hx : x = w.nextId
    · exact List.mem_append.mpr (Or.inl (List.mem_singleton.mpr hx))
    · refine List.mem_append.mpr (Or.inr (F17 x ?_ ?_))
      · rw [hWn]
        omega
      · exact h2
  · intro x hx hxne
    rw [F1] at hx
    rcases List.mem_append.mp hx with hx | hx
    · exact absurd (List.mem_singleton.mp hx) hxne
    · obtain ⟨q, hq1, hq2⟩ := F18 x hx
      refine ⟨q, hq1, ?_⟩
      rcases hq2 with hqk | ⟨hq3, hq4⟩
      · have hx4 := (F4 x hx).1
        rw [hWn] at hx4
        subst hqk
        exact ⟨le_refl _, by omega⟩
      · rw [hWn] at hq3
        exact ⟨by omega, hq4⟩

/-- Every fuel bound satisfies the `_clone_branch` contract: induction on
the fuel, splitting on whether the clone is attached to a parent. -/
theorem clone_go_spec : ∀ f, CGSpec f := by
  intro f
  induction f with
  | zero =>
      intro w src parent position N h1 h2 h3 h4 h5 h6
      omega
  | succ f IH =>
      intro w src parent position N hsrcN hNw hcl hdep hpar hpalloc
      cases parent with
      | none =>
          have hR : clone_branch_go w (f + 1) src none position
              = ((((w.newForm { newFormWidget none ((w.form src).model) with
                    pos := position
                    input_text := (w.form src).input_text
                    conv_text := (w.form src).conv_text }).1.addScene
                      w.nextId).form src).child_forms).foldl
                  (fun (acc : World × List Nat) c =>
                    let childPos := position
                      + ((acc.1.form c).pos - (acc.1.form src).pos)
                    let r := clone_branch_go acc.1 f c (some w.nextId) childPos
                    (r.1, acc.2 ++ r.2))
                  ((w.newForm { newFormWidget none ((w.form src).model) with
                    pos := position
                    input_text := (w.form src).input_text
                    conv_text := (w.form src).conv_text }).1.addScene
                      w.nextId, [w.nextId]) := rfl
          exact clone_assemble w
            ((w.newForm { newFormWidget none ((w.form src).model) with
              pos := position
              input_text := (w.form src).input_text
              conv_text := (w.form src).conv_text }).1.addScene w.nextId)
            src none position N f hsrcN hNw hcl hdep hpalloc IH
            rfl le_rfl
            (fun j _ hj2 => by simp [show j ≠ w.nextId by omega])
            (fun j hj _ => by simp [show j ≠ w.nextId by omega])
            (fun p0 hp0 => by simp at hp0)
            (by simp [newFormWidget]) (by simp [newFormWidget])
            (by simp [newFormWidget]) (by simp [newFormWidget])
            (by simp [newFormWidget]) (by simp [newFormWidget])
            (fun ln h => by simp [newFormWidget] at h)
            (fun j => rfl)
            (fun m _ => rfl)
            (fun m h1 h2 _ => by
              have h2' : m < w.nextLink := h2
              omega)
            (clone_branch_go w (f + 1) src none position) hR
      | some p =>
          have hpsrc : p < src ∨ N ≤ p := hpar p rfl
          have hpw : p < w.nextId := hpalloc p rfl
          have hR : clone_branch_go w (f + 1) src (some p) position
              = ((((((((w.newForm
                      { newFormWidget (some p) ((w.form src).model) with
                        pos := position
                        input_text := (w.form src).input_text
                        conv_text := (w.form src).conv_text }).1.addScene
                        w.nextId).updForm p (fun f2 =>
                          { f2 with child_forms := f2.child_forms
                              ++ [w.nextId] })).newLink p
                        w.nextId).1.addLinkScene w.nextLink).updForm w.nextId
                        (fun f2 => { f2 with link_line := some w.nextLink })).form
                    src).child_forms).foldl
                  (fun (acc : World × List Nat) c =>
                    let childPos := position
                      + ((acc.1.form c).pos - (acc.1.form src).pos)
                    let r := clone_branch_go acc.1 f c (some w.nextId) childPos
                    (r.1, acc.2 ++ r.2))
                  ((((((w.newForm
                      { newFormWidget (some p) ((w.form src).model) with
                        pos := position
                        input_text := (w.form src).input_text
                        conv_text := (w.form src).conv_text }).1.addScene
                        w.nextId).updForm p (fun f2 =>
                          { f2 with child_forms := f2.child_forms
                              ++ [w.nextId] })).newLink p
                        w.nextId).1.addLinkScene w.nextLink).updForm w.nextId
                        (fun f2 => { f2 with link_line := some w.nextLink }),
                    [w.nextId]) := rfl
          exact clone_assemble w
            ((((((w.newForm { newFormWidget (some p) ((w.form src).model) with
                pos := position
                input_text := (w.form src).input_text
                conv_text := (w.form src).conv_text }).1.addScene
                w.nextId).updForm p (fun f2 =>
                  { f2 with child_forms := f2.child_forms
                      ++ [w.nextId] })).newLink p
                w.nextId).1.addLinkScene w.nextLink).updForm w.nextId
                (fun f2 => { f2 with link_line := some w.nextLink }))
            src (some p) position N f hsrcN hNw hcl hdep hpalloc IH
            rfl (Nat.le_succ _)
            (fun j hj1 hj2 => by
              simp [show j ≠ w.nextId by omega, show j ≠ p by omega])
            (fun j hj hjp => by
              simp [show j ≠ w.nextId by omega, hjp p rfl])
            (fun p0 hp0 => by
              injection hp0 with hE
              subst hE
              simp [show p ≠ w.nextId by omega, show w.nextId ≠ p by omega])
            (by simp [show w.nextId ≠ p by omega, newFormWidget])
            (by simp [show w.nextId ≠ p by omega, newFormWidget])
            (by simp [show w.nextId ≠ p by omega, newFormWidget])
            (by simp [show w.nextId ≠ p by omega, newFormWidget])
            (by simp [show w.nextId ≠ p by omega, newFormWidget])
            (by simp [show w.nextId ≠ p by omega, newFormWidget])
            (fun ln h => by
              simp at h
              subst h
              refine ⟨le_refl _, Nat.lt_succ_self _, ?_⟩
              simp)
            (fun j => rfl)
            (fun m hm => by
              have hNL : ((((((w.newForm
                  { newFormWidget (some p) ((w.form src).model) with
                    pos := position
                    input_text := (w.form src).input_text
                    conv_text := (w.form src).conv_text }).1.addScene
                    w.nextId).updForm p (fun f2 =>
                      { f2 with child_forms := f2.child_forms
                          ++ [w.nextId] })).newLink p
                    w.nextId).1.addLinkScene w.nextLink).updForm w.nextId
                    (fun f2 =>
                      { f2 with link_line := some w.nextLink })).nextLink
                  = w.nextLink + 1 := rfl
              rw [hNL] at hm
              simp [show m ≠ w.nextLink by omega])
            (fun m h1 h2 h3 => by
              have h2' : m < w.nextLink + 1 := h2
              have hm : m = w.nextLink := by omega
              subst hm
              simp [show w.nextId ≠ p by omega, newFormWidget])
            (clone_branch_go w (f + 1) src (some p) position) hR

/-- C7: `DeleteFormCommand.execute` on a node with `k` proper descendants
(so `k + 1` subtree nodes) detaches exactly the subtree from the scene —
the scene shrinks by exactly `k + 1` forms and no other node's links or
children change (in particular nothing is re-parented to the
grandparent; the parent's child list only loses the node).  The captured
`deleted_subtree` is the post-order traversal (every node after all its
children), and the undo side (`_restore_subtree` walks the captured list
reversed) therefore re-attaches parents before their children. -/
theorem deleteSubtree_contract (w : World) (i p : Nat)
    (hgt : ∀ a, a < w.nextId → ∀ b ∈ (w.form a).child_forms, a < b)
    (hlt : ∀ a, a < w.nextId → ∀ b ∈ (w.form a).child_forms, b < w.nextId)
    (hclosed : ∀ a, a < w.nextId → w.inScene a = true →
      ∀ b ∈ (w.form a).child_forms, w.inScene b = true)
    (hi : i < w.nextId) (hins : w.inScene i = true)
    (hnd : (subtree_ids w w.nextId i).Nodup)
    (hp : (w.form i).parent_form = some p) :
    i ∈ subtree_ids w w.nextId i ∧
    ((DeleteFormCommand.mk' w i).execute w).1.deleted_subtree
        = (subtree_ids w w.nextId i).map
            (fun j => (j, (w.form j).pos, (w.form j).link_line)) ∧
    childrenFirst w (subtree_ids w w.nextId i) ∧
    parentsFirst w
      ((((DeleteFormCommand.mk' w i).execute w).1.deleted_subtree.map
          (fun t => t.1)).reverse) ∧
    (∀ j, (((DeleteFormCommand.mk' w i).execute w).2).inScene j
        = if j ∈ subtree_ids w w.nextId i then false else w.inScene j) ∧
    sceneCount (((DeleteFormCommand.mk' w i).execute w).2)
        + (subtree_ids w w.nextId i).length = sceneCount w ∧
    (∀ j, j ≠ p → (((DeleteFormCommand.mk' w i).execute w).2).form j = w.form j) ∧
    ((((DeleteFormCommand.mk' w i).execute w).2).form p
        = { w.form p with child_forms := (w.form p).child_forms.erase i }) := by
  obtain ⟨G1, G2, G3, G4, G5, G6⟩ := delete_go_spec w.nextId w i
  have hmemi := (subtree_mem_facts w hgt hlt w.nextId i hi (by omega)).1
  have hbounds := (subtree_mem_facts w hgt hlt w.nextId i hi (by omega)).2
  have hscene := subtree_mem_scene w hgt hlt hclosed w.nextId i hi (by omega) hins
  have hcf := subtree_childrenFirst w hgt hlt w.nextId i hi (by omega)
  have hdel : ((DeleteFormCommand.mk' w i).execute w).1.deleted_subtree
      = (delete_subtree_go w w.nextId i).2 := rfl
  have hexecW : ((DeleteFormCommand.mk' w i).execute w).2
      = (if i ∈ ((delete_subtree_go w w.nextId i).1.form p).child_forms
         then (delete_subtree_go w w.nextId i).1.updForm p
                (fun f => { f with child_forms := f.child_forms.erase i })
         else (delete_subtree_go w w.nextId i).1) := by
    show (match (DeleteFormCommand.mk' w i).parent_form with
          | some p2 =>
              if (DeleteFormCommand.mk' w i).form
                  ∈ ((delete_subtree_go w w.nextId i).1.form p2).child_forms
              then (delete_subtree_go w w.nextId i).1.updForm p2
                (fun f => { f with
                  child_forms :=
                    f.child_forms.erase (DeleteFormCommand.mk' w i).form })
              else (delete_subtree_go w w.nextId i).1
          | none => (delete_subtree_go w w.nextId i).1) = _
    have hmk : (DeleteFormCommand.mk' w i).parent_form
        = (w.form i).parent_form := rfl
    rw [hmk, hp]
    rfl
  have hWscene : ∀ j, (((DeleteFormCommand.mk' w i).execute w).2).inScene j
      = if j ∈ subtree_ids w w.nextId i then false else w.inScene j := by
    intro j
    rw [hexecW]
    by_cases hm : i ∈ ((delete_subtree_go w w.nextId i).1.form p).child_forms
    · rw [if_pos hm]
      show (delete_subtree_go w w.nextId i).1.inScene j = _
      exact G5 j
    · rw [if_neg hm]
      exact G5 j
  have hWnext : (((DeleteFormCommand.mk' w i).execute w).2).nextId = w.nextId := by
    rw [hexecW]
    by_cases hm : i ∈ ((delete_subtree_go w w.nextId i).1.form p).child_forms
    · rw [if_pos hm]; exact G2
    · rw [if_neg hm]; exact G2
  refine ⟨hmemi, by rw [hdel, G4], hcf, ?_, hWscene, ?_, ?_, ?_⟩
  · rw [hdel, G4]
    have hmap : ((subtree_ids w w.nextId i).map
          (fun j => (j, (w.form j).pos, (w.form j).link_line))).map
        (fun t => t.1) = subtree_ids w w.nextId i := by
      rw [List.map_map]
      have hco : ((fun t : Nat × Pos × Option Nat => t.1)
          ∘ fun j => (j, (w.form j).pos, (w.form j).link_line))
            = fun j : Nat => j := rfl
      rw [hco]
      exact List.map_id _
    rw [hmap]
    exact childrenFirst_reverse w _ (by exact hcf)
  · unfold sceneCount
    rw [hWnext]
    have hcong : (List.range w.nextId).filter
          (fun j => (((DeleteFormCommand.mk' w i).execute w).2).inScene j)
        = (List.range w.nextId).filter
          (fun j => if j ∈ subtree_ids w w.nextId i then false
                    else w.inScene j) := by
      apply List.filter_congr
      intro x _
      rw [hWscene x]
    rw [hcong]
    exact filter_remove_set (subtree_ids w w.nextId i) (fun j => w.inScene j)
      (List.range w.nextId) (List.nodup_range w.nextId) hnd
      (fun j hj => ⟨hscene j hj, List.mem_range.mpr (hbounds j hj).2⟩)
  · intro j hjp
    rw [hexecW]
    by_cases hm : i ∈ ((delete_subtree_go w w.nextId i).1.form p).child_forms
    · rw [if_pos hm]
      show (if j = p then _ else (delete_subtree_go w w.nextId i).1.form j) = _
      rw [if_neg hjp]
      rw [G1]
    · rw [if_neg hm]
      rw [G1]
  · rw [hexecW]
    by_cases hm : i ∈ ((delete_subtree_go w w.nextId i).1.form p).child_forms
    · rw [if_pos hm]
      show (if p = p then { (delete_subtree_go w w.nextId i).1.form p with
          child_forms :=
            ((delete_subtree_go w w.nextId i).1.form p).child_forms.erase i }
        else (delete_subtree_go w w.nextId i).1.form p) = _
      rw [if_pos rfl, G1]
    · rw [if_neg hm]
      rw [G1] at hm ⊢
      rw [List.erase_of_not_mem hm]

/-- Witness for the C7 theorem: deleting node 1 (which has descendants 2
and 3) from the concrete chain removes exactly the three subtree nodes. -/
theorem deleteSubtree_contract_witness :
    (1 < chainWorld.nextId ∧ chainWorld.inScene 1 = true ∧
      (subtree_ids chainWorld chainWorld.nextId 1).Nodup ∧
      (chainWorld.form 1).parent_form = some 0) ∧
    (1 ∈ subtree_ids chainWorld chainWorld.nextId 1 ∧
      ((DeleteFormCommand.mk' chainWorld 1).execute chainWorld).1.deleted_subtree
        = (subtree_ids chainWorld chainWorld.nextId 1).map
            (fun j => (j, (chainWorld.form j).pos, (chainWorld.form j).link_line)) ∧
      childrenFirst chainWorld (subtree_ids chainWorld chainWorld.nextId 1) ∧
      parentsFirst chainWorld
        ((((DeleteFormCommand.mk' chainWorld 1).execute chainWorld).1.deleted_subtree.map
            (fun t => t.1)).reverse) ∧
      (∀ j, (((DeleteFormCommand.mk' chainWorld 1).execute chainWorld).2).inScene j
          = if j ∈ subtree_ids chainWorld chainWorld.nextId 1 then false
            else chainWorld.inScene j) ∧
      sceneCount (((DeleteFormCommand.mk' chainWorld 1).execute chainWorld).2)
          + (subtree_ids chainWorld chainWorld.nextId 1).length
        = sceneCount chainWorld ∧
      (∀ j, j ≠ 0 →
        (((DeleteFormCommand.mk' chainWorld 1).execute chainWorld).2).form j
          = chainWorld.form j) ∧
      ((((DeleteFormCommand.mk' chainWorld 1).execute chainWorld).2).form 0
          = { chainWorld.form 0 with
              child_forms := (chainWorld.form 0).child_forms.erase 1 })) :=
  ⟨⟨by decide, by decide, by decide, by decide⟩,
   deleteSubtree_contract chainWorld 1 0
    (by decide) (by decide) (by decide)
    (by decide) (by decide) (by decide) (by decide)⟩

/-- C8: executing `CloneBranchCommand` on a source node with `k` proper
descendants (a subtree of `k + 1` nodes, enumerated by `subtree_ids`)
allocates exactly `k + 1` new nodes — all at fresh ids, recorded
root-first in `cloned_forms` — attaches the cloned root as a new last
sibling of the source (under the source's own parent `p`), leaves every
other pre-existing node untouched, and the cloned subtree's payload tree
(parent/child structure with child order, prompt and conversation texts,
model, and positions) mirrors the source subtree with every position
shifted by the fixed `(200, 600)` offset — hence each cloned child's
position equals the cloned parent's position plus the original
child-minus-parent offset. -/
theorem cloneBranch_contract (w : World) (src p : Nat)
    (hwf : ∀ a, a < w.nextId → ∀ b ∈ (w.form a).child_forms,
      a < b ∧ b < w.nextId)
    (hsrc : src < w.nextId)
    (hpar : (w.form src).parent_form = some p)
    (hp : p < src) :
    (((CloneBranchCommand.mk' src).execute w).1.cloned_forms).length
        = (subtree_ids w w.nextId src).length ∧
    ((CloneBranchCommand.mk' src).execute w).2.nextId
        = w.nextId
          + (((CloneBranchCommand.mk' src).execute w).1.cloned_forms).length ∧
    (∀ c ∈ ((CloneBranchCommand.mk' src).execute w).1.cloned_forms,
      w.nextId ≤ c) ∧
    ((CloneBranchCommand.mk' src).execute w).1.cloned_forms.head?
        = some w.nextId ∧
    ((((CloneBranchCommand.mk' src).execute w).2.form w.nextId).parent_form
        = some p) ∧
    ((((CloneBranchCommand.mk' src).execute w).2.form p).child_forms
        = (w.form p).child_forms ++ [w.nextId]) ∧
    (∀ j, j < w.nextId → j ≠ p →
      ((CloneBranchCommand.mk' src).execute w).2.form j = w.form j) ∧
    (∀ fuel2,
      formTree ((CloneBranchCommand.mk' src).execute w).2 fuel2 w.nextId
        = CTree.shift ((200 : Int), (600 : Int)) (formTree w fuel2 src)) := by
  have hpw : p < w.nextId := by omega
  obtain ⟨G1, G2, G3, G4, G5, G6, G7, G8, G9, G10, G11, G12, G13, G14, G15,
      G16, G17, G18⟩ :=
    clone_go_spec w.nextId w src ((w.form src).parent_form)
      ((w.form src).pos + ((200 : Int), (600 : Int))) w.nextId hsrc
      (le_refl _) (fun j _ hj2 => hwf j hj2) (by omega)
      (fun p0 h0 => by
        rw [hpar] at h0
        injection h0 with h5
        subst h5
        exact Or.inl hp)
      (fun p0 h0 => by
        rw [hpar] at h0
        injection h0 with h5
        subst h5
        exact hpw)
  refine ⟨G4, G1, fun c hc => (G5 c hc).1, G3, G8.trans hpar,
    congrArg Form.child_forms (G7 p hpar), ?_, ?_⟩
  · intro j hj hjp
    exact G6 j hj (fun p0 h0 => by
      rw [hpar] at h0
      injection h0 with h5
      subst h5
      exact hjp)
  · intro fuel2
    have h15 := G15 ((CloneBranchCommand.mk' src).execute w).2
      (fun j _ _ => rfl) fuel2
    rw [pos_add_sub_cancel_left] at h15
    exact h15

/-! ## Structural similarity: basic laws -/

theorem FormSim_refl (f : Form) : FormSim f f :=
  ⟨rfl, List.Perm.refl _, rfl, rfl, rfl, rfl, rfl, rfl, rfl, rfl, rfl⟩

theorem FormSim_of_eq (f g : Form) (h : g = f) : FormSim f g := by
  subst h
  exact FormSim_refl g

theorem FormSim_perm_children (f : Form) (l : List Nat)
    (hp : l.Perm f.child_forms) : FormSim f { f with child_forms := l } :=
  ⟨rfl, hp, rfl, rfl, rfl, rfl, rfl, rfl, rfl, rfl, rfl⟩

theorem FormSim_trans (f g h : Form) (h1 : FormSim f g) (h2 : FormSim g h) :
    FormSim f h := by
  obtain ⟨a1, a2, a3, a4, a5, a6, a7, a8, a9, a10, a11⟩ := h1
  obtain ⟨b1, b2, b3, b4, b5, b6, b7, b8, b9, b10, b11⟩ := h2
  exact ⟨b1.trans a1, b2.trans a2, b3.trans a3, b4.trans a4, b5.trans a5,
    b6.trans a6, b7.trans a7, b8.trans a8, b9.trans a9, b10.trans a10,
    b11.trans a11⟩

theorem Wsim_refl (n : Nat) (w : World) : Wsim n w w :=
  ⟨fun _ => rfl, fun _ => rfl, fun j _ => FormSim_refl (w.form j)⟩

theorem Wsim_trans (n : Nat) (a b c : World) (h1 : Wsim n a b)
    (h2 : Wsim n b c) : Wsim n a c := by
  obtain ⟨s1, l1, f1⟩ := h1
  obtain ⟨s2, l2, f2⟩ := h2
  exact ⟨fun j => (s2 j).trans (s1 j), fun m => (l2 m).trans (l1 m),
    fun j hj => FormSim_trans _ _ _ (f1 j hj) (f2 j hj)⟩

theorem Wsim_mono (n n2 : Nat) (a b : World) (hn : n2 ≤ n)
    (h : Wsim n a b) : Wsim n2 a b :=
  ⟨h.1, h.2.1, fun j hj => h.2.2 j (lt_of_lt_of_le hj hn)⟩

/-! ## The restore loop of `DeleteFormCommand.undo` -/

theorem restore_step_nextId (V : World) (t : Nat × Pos × Option Nat) :
    (restore_step V t).nextId = V.nextId := by
  rcases t with ⟨j, P, _ | ln⟩ <;> rfl

theorem restore_step_nextLink (V : World) (t : Nat × Pos × Option Nat) :
    (restore_step V t).nextLink = V.nextLink := by
  rcases t with ⟨j, P, _ | ln⟩ <;> rfl

theorem restore_step_form_other (V : World) (t : Nat × Pos × Option Nat)
    (j : Nat) (h : j ≠ t.1) : (restore_step V t).form j = V.form j := by
  rcases t with ⟨i, P, _ | ln⟩ <;> simp [restore_step, h]

theorem restore_step_inScene (V : World) (t : Nat × Pos × Option Nat)
    (j : Nat) : (restore_step V t).inScene j
      = if j = t.1 then true else V.inScene j := by
  rcases t with ⟨i, P, _ | ln⟩ <;> rfl

theorem restore_step_linkInScene (V : World) (t : Nat × Pos × Option Nat)
    (m : Nat) : (restore_step V t).linkInScene m
      = if t.2.2 = some m then true else V.linkInScene m := by
  rcases t with ⟨i, P, _ | ln⟩
  · rfl
  · show (if m = ln then true else V.linkInScene m)
      = if some ln = some m then true else V.linkInScene m
    by_cases h : m = ln
    · subst h
      rw [if_pos rfl, if_pos rfl]
    · rw [if_neg h, if_neg (fun h2 => h (Option.some.inj h2).symm)]

theorem restore_step_form_self (V : World) (t : Nat × Pos × Option Nat) :
    (restore_step V t).form t.1
      = match t.2.2 with
        | some ln => { V.form t.1 with pos := t.2.1, link_line := some ln }
        | none => { V.form t.1 with pos := t.2.1 } := by
  rcases t with ⟨i, P, _ | ln⟩ <;> simp [restore_step]

/-- Full characterization of a run of the restore loop: allocation
counters untouched, scene membership forced on for every listed form,
link visibility forced on for every listed link line, and each listed
form's position and link line overwritten with the captured values (all
other fields and all other forms untouched). -/
theorem restore_go_spec (items : List (Nat × Pos × Option Nat)) :
    ∀ (V : World),
      ((items.foldl restore_step V).nextId = V.nextId) ∧
      ((items.foldl restore_step V).nextLink = V.nextLink) ∧
      (∀ j, j ∉ items.map (fun t => t.1) →
        (items.foldl restore_step V).form j = V.form j) ∧
      (∀ j, (items.foldl restore_step V).inScene j
        = if j ∈ items.map (fun t => t.1) then true else V.inScene j) ∧
      (∀ m, (items.foldl restore_step V).linkInScene m
        = if m ∈ items.filterMap (fun t => t.2.2) then true
          else V.linkInScene m) ∧
      ((items.map (fun t => t.1)).Nodup →
        ∀ t ∈ items, (items.foldl restore_step V).form t.1
          = match t.2.2 with
            | some ln => { V.form t.1 with pos := t.2.1, link_line := some ln }
            | none => { V.form t.1 with pos := t.2.1 }) := by
  induction items with
  | nil =>
      intro V
      refine ⟨rfl, rfl, fun j _ => rfl, fun j => by simp, fun m => by simp,
        fun _ t ht => absurd ht (List.not_mem_nil t)⟩
  | cons t0 rest ih =>
      intro V
      obtain ⟨I1, I2, I3, I4, I5, I6⟩ := ih (restore_step V t0)
      have hstep : (t0 :: rest).foldl restore_step V
          = rest.foldl restore_step (restore_step V t0) := rfl
      rw [hstep]
      refine ⟨I1.trans (restore_step_nextId V t0),
        I2.trans (restore_step_nextLink V t0), ?_, ?_, ?_, ?_⟩
      · intro j hj
        rw [List.map_cons] at hj
        have hj1 : j ≠ t0.1 := fun h => hj (h ▸ List.mem_cons_self _ _)
        have hj2 : j ∉ rest.map (fun t => t.1) :=
          fun h => hj (List.mem_cons_of_mem _ h)
        rw [I3 j hj2, restore_step_form_other V t0 j hj1]
      · intro j
        rw [I4 j, List.map_cons, restore_step_inScene V t0 j]
        by_cases h1 : j ∈ rest.map (fun t => t.1) <;>
          by_cases h2 : j = t0.1 <;> simp [h1, h2]
      · intro m
        rw [I5 m, restore_step_linkInScene V t0 m]
        rcases ht : t0.2.2 with _ | ln
        · rw [@List.filterMap_cons_none _ _ (fun t => t.2.2) t0 rest ht]
          simp
        · rw [@List.filterMap_cons_some _ _ (fun t => t.2.2) t0 rest ln ht]
          by_cases h1 : m ∈ rest.filterMap (fun t => t.2.2) <;>
            by_cases h2 : ln = m <;>
              simp [h1, h2, List.mem_cons]
          exact fun h => absurd h.symm h2
      · intro hnd t ht
        rw [List.map_cons] at hnd
        have hnd2 := (List.nodup_cons.mp hnd).2
        have ht0r : t0.1 ∉ rest.map (fun t => t.1) := (List.nodup_cons.mp hnd).1
        rcases List.mem_cons.mp ht with rfl | ht
        · rw [I3 t.1 ht0r, restore_step_form_self V t]
        · have hne : t.1 ≠ t0.1 := by
            intro h
            exact ht0r (h ▸ List.mem_map.mpr ⟨t, ht, rfl⟩)
          rw [I6 hnd2 t ht, restore_step_form_other V t0 t.1 hne]

theorem restore_subtree_eq (w : World)
    (items : List (Nat × Pos × Option Nat)) :
    restore_subtree w items = items.reverse.foldl restore_step w := rfl

/-- Deleting a live subtree and undoing the deletion restores the canvas
exactly, except that the deleted node is re-appended at the end of its
parent's child list (a permutation of the original order). -/
theorem delete_roundtrip (w : World) (i : Nat)
    (hwf : WFsmall w) (hv : ValidCmd w (CmdSpec.delete i)) :
    Wsim w.nextId w
      (((mkCmd (CmdSpec.delete i) w).execute w).1.undo
        ((mkCmd (CmdSpec.delete i) w).execute w).2).2 := by
  obtain ⟨hwf1, hwf2, hwf3⟩ := hwf
  obtain ⟨hi, hsc, hnd, hallsc, hlinks, hparc⟩ := hv
  obtain ⟨D1, D2, D3, D4, D5, D6⟩ := delete_go_spec w.nextId w i
  have hLfacts := subtree_mem_facts w
    (fun a ha b hb => (hwf1 a ha b hb).1)
    (fun a ha b hb => (hwf1 a ha b hb).2) w.nextId i hi (by omega)
  have hco : ((fun t : Nat × Pos × Option Nat => t.1)
      ∘ (fun j => (j, (w.form j).pos, (w.form j).link_line)))
      = fun j : Nat => j := rfl
  have hkeys : ((delete_subtree_go w w.nextId i).2).map (fun t => t.1)
      = subtree_ids w w.nextId i := by
    rw [D4, List.map_map, hco]
    exact List.map_id _
  have hlinkset : ((delete_subtree_go w w.nextId i).2).filterMap
      (fun t => t.2.2)
      = (subtree_ids w w.nextId i).filterMap
          (fun j => (w.form j).link_line) := by
    rw [D4, List.filterMap_map]
    rfl
  have hkeymem : ∀ j, (j ∈ ((delete_subtree_go w w.nextId i).2).reverse.map
      (fun t => t.1)) ↔ j ∈ subtree_ids w w.nextId i := by
    intro j
    rw [List.map_reverse, List.mem_reverse, hkeys]
  have hlinkmem : ∀ m,
      (m ∈ ((delete_subtree_go w w.nextId i).2).reverse.filterMap
        (fun t => t.2.2))
      ↔ m ∈ (subtree_ids w w.nextId i).filterMap
          (fun j => (w.form j).link_line) := by
    intro m
    rw [List.filterMap_reverse, List.mem_reverse, hlinkset]
  have hndkeys : (((delete_subtree_go w w.nextId i).2).reverse.map
      (fun t => t.1)).Nodup := by
    rw [List.map_reverse, List.nodup_reverse, hkeys]
    exact hnd
  have hred : (((mkCmd (CmdSpec.delete i) w).execute w).1.undo
      ((mkCmd (CmdSpec.delete i) w).execute w).2).2
      = (((DeleteFormCommand.mk' w i).execute w).1.undo
          ((DeleteFormCommand.mk' w i).execute w).2).2 := rfl
  rw [hred]
  rcases hpar : (w.form i).parent_form with _ | p
  · have hex : (DeleteFormCommand.mk' w i).execute w
        = (({ form := i, parent_form := none,
              deleted_subtree := (delete_subtree_go w w.nextId i).2 } :
               DeleteFormCommand),
           (delete_subtree_go w w.nextId i).1) := by
      show (({ form := i, parent_form := (w.form i).parent_form,
               deleted_subtree := (delete_subtree_go w w.nextId i).2 } :
               DeleteFormCommand),
            match (w.form i).parent_form with
            | some p2 =>
                if i ∈ ((delete_subtree_go w w.nextId i).1.form p2).child_forms
                then (delete_subtree_go w w.nextId i).1.updForm p2
                  (fun f => { f with child_forms := f.child_forms.erase i })
                else (delete_subtree_go w w.nextId i).1
            | none => (delete_subtree_go w w.nextId i).1) = _
      rw [hpar]
    rw [hex]
    have hun : ((({ form := i, parent_form := none,
                    deleted_subtree := (delete_subtree_go w w.nextId i).2 } :
          DeleteFormCommand)).undo (delete_subtree_go w w.nextId i).1).2
        = ((delete_subtree_go w w.nextId i).2).reverse.foldl restore_step
            (delete_subtree_go w w.nextId i).1 := rfl
    rw [hun]
    obtain ⟨R1, R2, R3, R4, R5, R6⟩ := restore_go_spec
      ((delete_subtree_go w w.nextId i).2).reverse
      (delete_subtree_go w w.nextId i).1
    refine ⟨?_, ?_, ?_⟩
    · intro j
      rw [R4 j]
      by_cases hjL : j ∈ subtree_ids w w.nextId i
      · rw [if_pos ((hkeymem j).mpr hjL)]
        exact (hallsc j hjL).symm
      · rw [if_neg (fun h => hjL ((hkeymem j).mp h)), D5 j, if_neg hjL]
    · intro m
      rw [R5 m]
      by_cases hmS : m ∈ (subtree_ids w w.nextId i).filterMap
          (fun j => (w.form j).link_line)
      · rw [if_pos ((hlinkmem m).mpr hmS)]
        obtain ⟨b, hb, hbl⟩ := List.mem_filterMap.mp hmS
        exact ((hlinks b hb m hbl).2).symm
      · rw [if_neg (fun h => hmS ((hlinkmem m).mp h)), D6 m, if_neg hmS]
    · intro j hj
      by_cases hjL : j ∈ subtree_ids w w.nextId i
      · have htmem : (j, (w.form j).pos, (w.form j).link_line)
            ∈ ((delete_subtree_go w w.nextId i).2).reverse := by
          rw [List.mem_reverse, D4]
          exact List.mem_map.mpr ⟨j, hjL, rfl⟩
        have hform2 : (((delete_subtree_go w w.nextId i).2).reverse.foldl
            restore_step (delete_subtree_go w w.nextId i).1).form j
            = match (w.form j).link_line with
              | some ln => { (delete_subtree_go w w.nextId i).1.form j with
                  pos := (w.form j).pos, link_line := some ln }
              | none => { (delete_subtree_go w w.nextId i).1.form j with
                  pos := (w.form j).pos } := R6 hndkeys _ htmem
        rw [D1] at hform2
        refine FormSim_of_eq _ _ ?_
        rcases hll : (w.form j).link_line with _ | ln
        · rw [hll] at hform2
          rw [hform2]
        · rw [hll] at hform2
          rw [hform2]
          show { w.form j with pos := (w.form j).pos, link_line := some ln }
            = w.form j
          rw [← hll]
      · refine FormSim_of_eq _ _ ?_
        rw [R3 j (fun h => hjL ((hkeymem j).mp h)), D1]
  · have hpn : p < w.nextId := (hparc p hpar).1
    have hpmem : i ∈ (w.form p).child_forms := (hparc p hpar).2
    have hpi : p < i := (hwf1 p hpn i hpmem).1
    have hpnotL : p ∉ subtree_ids w w.nextId i :=
      fun hm => absurd (hLfacts.2 p hm).1 (by omega)
    have hex : (DeleteFormCommand.mk' w i).execute w
        = (({ form := i, parent_form := some p,
              deleted_subtree := (delete_subtree_go w w.nextId i).2 } :
               DeleteFormCommand),
           (delete_subtree_go w w.nextId i).1.updForm p
             (fun f => { f with child_forms := f.child_forms.erase i })) := by
      show (({ form := i, parent_form := (w.form i).parent_form,
               deleted_subtree := (delete_subtree_go w w.nextId i).2 } :
               DeleteFormCommand),
            match (w.form i).parent_form with
            | some p2 =>
                if i ∈ ((delete_subtree_go w w.nextId i).1.form p2).child_forms
                then (delete_subtree_go w w.nextId i).1.updForm p2
                  (fun f => { f with child_forms := f.child_forms.erase i })
                else (delete_subtree_go w w.nextId i).1
            | none => (delete_subtree_go w w.nextId i).1) = _
      rw [hpar]
      show (({ form := i, parent_form := some p,
               deleted_subtree := (delete_subtree_go w w.nextId i).2 } :
               DeleteFormCommand),
            if i ∈ ((delete_subtree_go w w.nextId i).1.form p).child_forms
            then (delete_subtree_go w w.nextId i).1.updForm p
              (fun f => { f with child_forms := f.child_forms.erase i })
            else (delete_subtree_go w w.nextId i).1) = _
      rw [if_pos (by rw [D1]; exact hpmem)]
    rw [hex]
    have hun : ((({ form := i, parent_form := some p,
                    deleted_subtree := (delete_subtree_go w w.nextId i).2 } :
          DeleteFormCommand)).undo
        ((delete_subtree_go w w.nextId i).1.updForm p
          (fun f => { f with child_forms := f.child_forms.erase i }))).2
        = (((delete_subtree_go w w.nextId i).2).reverse.foldl restore_step
            ((delete_subtree_go w w.nextId i).1.updForm p
              (fun f => { f with child_forms :=
                f.child_forms.erase i }))).updForm p
            (fun f => { f with child_forms := f.child_forms ++ [i] }) := rfl
    rw [hun]
    obtain ⟨R1, R2, R3, R4, R5, R6⟩ := restore_go_spec
      ((delete_subtree_go w w.nextId i).2).reverse
      ((delete_subtree_go w w.nextId i).1.updForm p
        (fun f => { f with child_forms := f.child_forms.erase i }))
    refine ⟨?_, ?_, ?_⟩
    · intro j
      rw [World.updForm_inScene, R4 j]
      by_cases hjL : j ∈ subtree_ids w w.nextId i
      · rw [if_pos ((hkeymem j).mpr hjL)]
        exact (hallsc j hjL).symm
      · rw [if_neg (fun h => hjL ((hkeymem j).mp h)), World.updForm_inScene,
          D5 j, if_neg hjL]
    · intro m
      rw [World.updForm_linkInScene, R5 m]
      by_cases hmS : m ∈ (subtree_ids w w.nextId i).filterMap
          (fun j => (w.form j).link_line)
      · rw [if_pos ((hlinkmem m).mpr hmS)]
        obtain ⟨b, hb, hbl⟩ := List.mem_filterMap.mp hmS
        exact ((hlinks b hb m hbl).2).symm
      · rw [if_neg (fun h => hmS ((hlinkmem m).mp h)),
          World.updForm_linkInScene, D6 m, if_neg hmS]
    · intro j hj
      rw [World.updForm_form]
      by_cases hjp : j = p
      · rw [if_pos hjp]
        have hpk : p ∉ ((delete_subtree_go w w.nextId i).2).reverse.map
            (fun t => t.1) := fun h => hpnotL ((hkeymem p).mp h)
        rw [R3 p hpk, World.updForm_form, if_pos rfl, D1, hjp]
        show FormSim (w.form p) { w.form p with
          child_forms := ((w.form p).child_forms.erase i) ++ [i] }
        exact FormSim_perm_children _ _
          ((List.perm_append_singleton i _).trans
            (List.perm_cons_erase hpmem).symm)
      · rw [if_neg hjp]
        by_cases hjL : j ∈ subtree_ids w w.nextId i
        · have htmem : (j, (w.form j).pos, (w.form j).link_line)
              ∈ ((delete_subtree_go w w.nextId i).2).reverse := by
            rw [List.mem_reverse, D4]
            exact List.mem_map.mpr ⟨j, hjL, rfl⟩
          have hform2 : ((((delete_subtree_go w w.nextId i).2).reverse.foldl
              restore_step
              ((delete_subtree_go w w.nextId i).1.updForm p
                (fun f => { f with child_forms :=
                  f.child_forms.erase i }))).form j)
              = match (w.form j).link_line with
                | some ln =>
                    { ((delete_subtree_go w w.nextId i).1.updForm p
                        (fun f => { f with child_forms :=
                          f.child_forms.erase i })).form j with
                      pos := (w.form j).pos, link_line := some ln }
                | none =>
                    { ((delete_subtree_go w w.nextId i).1.updForm p
                        (fun f => { f with child_forms :=
                          f.child_forms.erase i })).form j with
                      pos := (w.form j).pos } := R6 hndkeys _ htmem
          rw [World.updForm_form, if_neg hjp, D1] at hform2
          refine FormSim_of_eq _ _ ?_
          rcases hll : (w.form j).link_line with _ | ln
          · rw [hll] at hform2
            rw [hform2]
          · rw [hll] at hform2
            rw [hform2]
            show { w.form j with pos := (w.form j).pos, link_line := some ln }
              = w.form j
            rw [← hll]
        · refine FormSim_of_eq _ _ ?_
          rw [R3 j (fun h => hjL ((hkeymem j).mp h)), World.updForm_form,
            if_neg hjp, D1]

/-- Creating a node and undoing the creation restores the canvas exactly
(on the pre-existing ids; the abandoned widget keeps its junk id). -/
theorem create_roundtrip (w : World) (parent : Option Nat)
    (position : Option Pos) (model : String)
    (hwf : WFsmall w)
    (hv : ValidCmd w (CmdSpec.create parent position model)) :
    Wsim w.nextId w
      (((mkCmd (CmdSpec.create parent position model) w).execute w).1.undo
        ((mkCmd (CmdSpec.create parent position model) w).execute w).2).2 := by
  obtain ⟨hwf1, hwf2, hwf3⟩ := hwf
  rcases parent with _ | pid
  · rcases position with _ | pp
    · refine ⟨?_, ?_, ?_⟩
      · intro j
        by_cases hj : j = w.nextId
        · subst hj
          rw [hwf2 w.nextId (le_refl _)]
          simp [mkCmd, CmdInst.execute, CmdInst.undo, CreateFormCommand.mk',
            CreateFormCommand.execute, CreateFormCommand.undo]
        · simp [mkCmd, CmdInst.execute, CmdInst.undo, CreateFormCommand.mk',
            CreateFormCommand.execute, CreateFormCommand.undo, hj]
      · intro m
        simp [mkCmd, CmdInst.execute, CmdInst.undo, CreateFormCommand.mk',
          CreateFormCommand.execute, CreateFormCommand.undo]
      · intro j hj
        refine FormSim_of_eq _ _ ?_
        simp [mkCmd, CmdInst.execute, CmdInst.undo, CreateFormCommand.mk',
          CreateFormCommand.execute, CreateFormCommand.undo,
          show j ≠ w.nextId by omega]
    · refine ⟨?_, ?_, ?_⟩
      · intro j
        by_cases hj : j = w.nextId
        · subst hj
          rw [hwf2 w.nextId (le_refl _)]
          simp [mkCmd, CmdInst.execute, CmdInst.undo, CreateFormCommand.mk',
            CreateFormCommand.execute, CreateFormCommand.undo]
        · simp [mkCmd, CmdInst.execute, CmdInst.undo, CreateFormCommand.mk',
            CreateFormCommand.execute, CreateFormCommand.undo, hj]
      · intro m
        simp [mkCmd, CmdInst.execute, CmdInst.undo, CreateFormCommand.mk',
          CreateFormCommand.execute, CreateFormCommand.undo]
      · intro j hj
        refine FormSim_of_eq _ _ ?_
        simp [mkCmd, CmdInst.execute, CmdInst.undo, CreateFormCommand.mk',
          CreateFormCommand.execute, CreateFormCommand.undo,
          show j ≠ w.nextId by omega]
  · have hpidn : pid < w.nextId := hv pid rfl
    have hknot : w.nextId ∉ (w.form pid).child_forms :=
      fun hmem => absurd (hwf1 pid hpidn _ hmem).2 (by omega)
    have herase : ((w.form pid).child_forms ++ [w.nextId]).erase w.nextId
        = (w.form pid).child_forms := by
      rw [List.erase_append_right _ hknot, List.erase_cons_head,
        List.append_nil]
    rcases position with _ | pp
    · refine ⟨?_, ?_, ?_⟩
      · intro j
        by_cases hj : j = w.nextId
        · subst hj
          rw [hwf2 w.nextId (le_refl _)]
          simp [mkCmd, CmdInst.execute, CmdInst.undo, CreateFormCommand.mk',
            CreateFormCommand.execute, CreateFormCommand.undo,
            show pid ≠ w.nextId by omega]
        · simp [mkCmd, CmdInst.execute, CmdInst.undo, CreateFormCommand.mk',
            CreateFormCommand.execute, CreateFormCommand.undo, hj,
            show pid ≠ w.nextId by omega]
      · intro m
        by_cases hm : m = w.nextLink
        · subst hm
          rw [hwf3 w.nextLink (le_refl _)]
          simp [mkCmd, CmdInst.execute, CmdInst.undo, CreateFormCommand.mk',
            CreateFormCommand.execute, CreateFormCommand.undo,
            show pid ≠ w.nextId by omega]
        · simp [mkCmd, CmdInst.execute, CmdInst.undo, CreateFormCommand.mk',
            CreateFormCommand.execute, CreateFormCommand.undo, hm,
            show pid ≠ w.nextId by omega]
      · intro j hj
        refine FormSim_of_eq _ _ ?_
        by_cases hjp : j = pid
        · subst hjp
          simp [mkCmd, CmdInst.execute, CmdInst.undo, CreateFormCommand.mk',
            CreateFormCommand.execute, CreateFormCommand.undo,
            show j ≠ w.nextId by omega, herase]
        · simp [mkCmd, CmdInst.execute, CmdInst.undo, CreateFormCommand.mk',
            CreateFormCommand.execute, CreateFormCommand.undo, hjp,
            show j ≠ w.nextId by omega, show pid ≠ w.nextId by omega]
    · refine ⟨?_, ?_, ?_⟩
      · intro j
        by_cases hj : j = w.nextId
        · subst hj
          rw [hwf2 w.nextId (le_refl _)]
          simp [mkCmd, CmdInst.execute, CmdInst.undo, CreateFormCommand.mk',
            CreateFormCommand.execute, CreateFormCommand.undo,
            show pid ≠ w.nextId by omega]
        · simp [mkCmd, CmdInst.execute, CmdInst.undo, CreateFormCommand.mk',
            CreateFormCommand.execute, CreateFormCommand.undo, hj,
            show pid ≠ w.nextId by omega]
      · intro m
        by_cases hm : m = w.nextLink
        · subst hm
          rw [hwf3 w.nextLink (le_refl _)]
          simp [mkCmd, CmdInst.execute, CmdInst.undo, CreateFormCommand.mk',
            CreateFormCommand.execute, CreateFormCommand.undo,
            show pid ≠ w.nextId by omega]
        · simp [mkCmd, CmdInst.execute, CmdInst.undo, CreateFormCommand.mk',
            CreateFormCommand.execute, CreateFormCommand.undo, hm,
            show pid ≠ w.nextId by omega]
      · intro j hj
        refine FormSim_of_eq _ _ ?_
        by_cases hjp : j = pid
        · subst hjp
          simp [mkCmd, CmdInst.execute, CmdInst.undo, CreateFormCommand.mk',
            CreateFormCommand.execute, CreateFormCommand.undo,
            show j ≠ w.nextId by omega, herase]
        · simp [mkCmd, CmdInst.execute, CmdInst.undo, CreateFormCommand.mk',
            CreateFormCommand.execute, CreateFormCommand.undo, hjp,
            show j ≠ w.nextId by omega, show pid ≠ w.nextId by omega]

/-- The scene-removal loop of `CloneBranchCommand.undo`
(src/app.py:508-513): every listed clone and its link line leave the
scene; nothing else changes. -/
theorem clone_undo_fold_spec :
    ∀ (C : List Nat) (V : World),
      ((C.foldl (fun v i => condLinkRemove (condSceneRemove v i) i) V).form
        = V.form) ∧
      ((C.foldl (fun v i => condLinkRemove (condSceneRemove v i) i) V).nextId
        = V.nextId) ∧
      ((C.foldl (fun v i => condLinkRemove (condSceneRemove v i) i) V).nextLink
        = V.nextLink) ∧
      (∀ j, (C.foldl (fun v i =>
          condLinkRemove (condSceneRemove v i) i) V).inScene j
        = if j ∈ C then false else V.inScene j) ∧
      (∀ m, (C.foldl (fun v i =>
          condLinkRemove (condSceneRemove v i) i) V).linkInScene m
        = if m ∈ C.filterMap (fun c => (V.form c).link_line) then false
          else V.linkInScene m) := by
  intro C
  induction C with
  | nil =>
      intro V
      exact ⟨rfl, rfl, rfl, fun j => by simp, fun m => by simp⟩
  | cons i rest ih =>
      intro V
      have hstep : (i :: rest).foldl (fun v i2 =>
          condLinkRemove (condSceneRemove v i2) i2) V
        = rest.foldl (fun v i2 => condLinkRemove (condSceneRemove v i2) i2)
            (condLinkRemove (condSceneRemove V i) i) := rfl
      obtain ⟨I1, I2, I3, I4, I5⟩ := ih (condLinkRemove (condSceneRemove V i) i)
      have hVf : (condLinkRemove (condSceneRemove V i) i).form = V.form := by
        rw [condLinkRemove_form, condSceneRemove_form]
      rw [hstep]
      simp only [hVf] at I5
      refine ⟨I1.trans hVf, ?_, ?_, ?_, ?_⟩
      · rw [I2, condLinkRemove_nextId, condSceneRemove_nextId]
      · rw [I3, condLinkRemove_nextLink, condSceneRemove_nextLink]
      · intro j
        rw [I4 j, condLinkRemove_inScene, condSceneRemove_inScene]
        by_cases h1 : j ∈ rest <;> by_cases h2 : j = i <;>
          simp [h1, h2, List.mem_cons]
      · intro m
        rw [I5 m, condLinkRemove_linkInScene, condSceneRemove_linkInScene,
          condSceneRemove_form]
        rcases hli : (V.form i).link_line with _ | ln
        · rw [@List.filterMap_cons_none _ _
            (fun c => (V.form c).link_line) i rest hli]
          rw [if_neg (show ¬((none : Option Nat) = some m) by simp)]
        · rw [@List.filterMap_cons_some _ _
            (fun c => (V.form c).link_line) i rest ln hli]
          by_cases h2 : ln = m
          · subst h2
            rw [if_pos rfl]
            simp [List.mem_cons]
          · rw [if_neg (fun hh => h2 (Option.some.inj hh))]
            by_cases h1 : m ∈ rest.filterMap (fun c => (V.form c).link_line)
            · rw [if_pos h1, if_pos (List.mem_cons_of_mem _ h1)]
            · rw [if_neg h1, if_neg (fun hh => by
                rcases List.mem_cons.mp hh with hh | hh
                · exact h2 hh.symm
                · exact h1 hh)]

/-- Cloning a branch and undoing the clone restores the canvas exactly:
the clones and their link lines leave the scene, and the source's parent
gets the clone filtered back out of its child list (which, the clones
being fresh ids, restores the original list). -/
theorem clone_roundtrip (w : World) (src : Nat)
    (hwf : WFsmall w) (hv : ValidCmd w (CmdSpec.cloneBranch src)) :
    Wsim w.nextId w
      (((mkCmd (CmdSpec.cloneBranch src) w).execute w).1.undo
        ((mkCmd (CmdSpec.cloneBranch src) w).execute w).2).2 := by
  obtain ⟨hwf1, hwf2, hwf3⟩ := hwf
  obtain ⟨hsrc, hpp⟩ := hv
  have hred : (((mkCmd (CmdSpec.cloneBranch src) w).execute w).1.undo
      ((mkCmd (CmdSpec.cloneBranch src) w).execute w).2).2
      = ((((CloneBranchCommand.mk' src).execute w).1).undo
          (((CloneBranchCommand.mk' src).execute w).2)).2 := rfl
  rw [hred]
  have hex : (CloneBranchCommand.mk' src).execute w
      = (({ source_form := src,
            cloned_forms := (clone_branch_go w w.nextId src
              ((w.form src).parent_form)
              ((w.form src).pos + ((200 : Int), (600 : Int)))).2,
            parent_form := (w.form src).parent_form } : CloneBranchCommand),
         (clone_branch_go w w.nextId src ((w.form src).parent_form)
           ((w.form src).pos + ((200 : Int), (600 : Int)))).1) := rfl
  rw [hex]
  rcases hpar : (w.form src).parent_form with _ | p
  · obtain ⟨G1, G2, G3, G4, G5, G6, G7, G8, G9, G10, G11, G12, G13, G14, G15,
        G16, G17, G18⟩ :=
      clone_go_spec w.nextId w src none
        ((w.form src).pos + ((200 : Int), (600 : Int))) w.nextId hsrc
        (le_refl _) (fun j _ hj2 => hwf1 j hj2) (by omega)
        (fun p0 h0 => by cases h0) (fun p0 h0 => by cases h0)
    obtain ⟨U1, U2, U3, U4, U5⟩ := clone_undo_fold_spec
      ((clone_branch_go w w.nextId src none
        ((w.form src).pos + ((200 : Int), (600 : Int)))).2)
      ((clone_branch_go w w.nextId src none
        ((w.form src).pos + ((200 : Int), (600 : Int)))).1)
    have hun : ((({ source_form := src,
                    cloned_forms := (clone_branch_go w w.nextId src none
                      ((w.form src).pos + ((200 : Int), (600 : Int)))).2,
                    parent_form := none } : CloneBranchCommand)).undo
        ((clone_branch_go w w.nextId src none
          ((w.form src).pos + ((200 : Int), (600 : Int)))).1)).2
        = ((clone_branch_go w w.nextId src none
            ((w.form src).pos + ((200 : Int), (600 : Int)))).2).foldl
            (fun v i => condLinkRemove (condSceneRemove v i) i)
            ((clone_branch_go w w.nextId src none
              ((w.form src).pos + ((200 : Int), (600 : Int)))).1) := rfl
    rw [hun]
    refine ⟨?_, ?_, ?_⟩
    · intro j
      rw [U4 j]
      by_cases hjC : j ∈ (clone_branch_go w w.nextId src none
          ((w.form src).pos + ((200 : Int), (600 : Int)))).2
      · rw [if_pos hjC]
        exact (hwf2 j (G5 j hjC).1).symm
      · rw [if_neg hjC, G9 j]
        intro ⟨hj1, hj2⟩
        exact hjC (G17 j hj1 hj2)
    · intro m
      rw [U5 m]
      by_cases hmS : m ∈ ((clone_branch_go w w.nextId src none
          ((w.form src).pos + ((200 : Int), (600 : Int)))).2).filterMap
          (fun c => ((clone_branch_go w w.nextId src none
            ((w.form src).pos + ((200 : Int), (600 : Int)))).1.form
              c).link_line)
      · rw [if_pos hmS]
        obtain ⟨c2, hc2, hcl⟩ := List.mem_filterMap.mp hmS
        exact (hwf3 m (G14 c2 hc2 m hcl).1).symm
      · rw [if_neg hmS]
        by_cases hmr : w.nextLink ≤ m ∧ m < (clone_branch_go w w.nextId src
            none ((w.form src).pos + ((200 : Int), (600 : Int)))).1.nextLink
        · rcases hb : (clone_branch_go w w.nextId src none
              ((w.form src).pos + ((200 : Int), (600 : Int)))).1.linkInScene m
            with _ | _
          · rw [(hwf3 m hmr.1)]
          · obtain ⟨c2, hc2, hcl⟩ := G16 m hmr.1 hmr.2 hb
            exact absurd (List.mem_filterMap.mpr ⟨c2, hc2, hcl⟩) hmS
        · exact G13 m hmr
    · intro j hj
      refine FormSim_of_eq _ _ ?_
      rw [U1, G6 j hj (fun p0 h0 => by cases h0)]
  · have hps : p < src := hpp p hpar
    have hpn : p < w.nextId := by omega
    obtain ⟨G1, G2, G3, G4, G5, G6, G7, G8, G9, G10, G11, G12, G13, G14, G15,
        G16, G17, G18⟩ :=
      clone_go_spec w.nextId w src (some p)
        ((w.form src).pos + ((200 : Int), (600 : Int))) w.nextId hsrc
        (le_refl _) (fun j _ hj2 => hwf1 j hj2) (by omega)
        (fun p0 h0 => by
          injection h0 with h5
          subst h5
          exact Or.inl hps)
        (fun p0 h0 => by
          injection h0 with h5
          subst h5
          exact hpn)
    obtain ⟨U1, U2, U3, U4, U5⟩ := clone_undo_fold_spec
      ((clone_branch_go w w.nextId src (some p)
        ((w.form src).pos + ((200 : Int), (600 : Int)))).2)
      ((clone_branch_go w w.nextId src (some p)
        ((w.form src).pos + ((200 : Int), (600 : Int)))).1)
    have hwN : w.nextId ∈ (clone_branch_go w w.nextId src (some p)
        ((w.form src).pos + ((200 : Int), (600 : Int)))).2 := by
      rcases hh : (clone_branch_go w w.nextId src (some p)
          ((w.form src).pos + ((200 : Int), (600 : Int)))).2 with _ | ⟨a, l⟩
      · rw [hh] at G3
        exact absurd G3 (by simp)
      · rw [hh] at G3
        have ha : a = w.nextId := by
          injection G3
        rw [ha]
        exact List.mem_cons_self _ _
    have hun : ((({ source_form := src,
                    cloned_forms := (clone_branch_go w w.nextId src (some p)
                      ((w.form src).pos + ((200 : Int), (600 : Int)))).2,
                    parent_form := some p } : CloneBranchCommand)).undo
        ((clone_branch_go w w.nextId src (some p)
          ((w.form src).pos + ((200 : Int), (600 : Int)))).1)).2
        = (((clone_branch_go w w.nextId src (some p)
            ((w.form src).pos + ((200 : Int), (600 : Int)))).2).foldl
            (fun v i => condLinkRemove (condSceneRemove v i) i)
            ((clone_branch_go w w.nextId src (some p)
              ((w.form src).pos + ((200 : Int),
                (600 : Int)))).1)).updForm p
            (fun f => { f with
              child_forms := f.child_forms.filter
                (fun x => !((clone_branch_go w w.nextId src (some p)
                  ((w.form src).pos
                    + ((200 : Int), (600 : Int)))).2).contains x) }) := rfl
    rw [hun]
    refine ⟨?_, ?_, ?_⟩
    · intro j
      rw [World.updForm_inScene, U4 j]
      by_cases hjC : j ∈ (clone_branch_go w w.nextId src (some p)
          ((w.form src).pos + ((200 : Int), (600 : Int)))).2
      · rw [if_pos hjC]
        exact (hwf2 j (G5 j hjC).1).symm
      · rw [if_neg hjC, G9 j]
        intro ⟨hj1, hj2⟩
        exact hjC (G17 j hj1 hj2)
    · intro m
      rw [World.updForm_linkInScene, U5 m]
      by_cases hmS : m ∈ ((clone_branch_go w w.nextId src (some p)
          ((w.form src).pos + ((200 : Int), (600 : Int)))).2).filterMap
          (fun c => ((clone_branch_go w w.nextId src (some p)
            ((w.form src).pos + ((200 : Int), (600 : Int)))).1.form
              c).link_line)
      · rw [if_pos hmS]
        obtain ⟨c2, hc2, hcl⟩ := List.mem_filterMap.mp hmS
        exact (hwf3 m (G14 c2 hc2 m hcl).1).symm
      · rw [if_neg hmS]
        by_cases hmr : w.nextLink ≤ m ∧ m < (clone_branch_go w w.nextId src
            (some p) ((w.form src).pos + ((200 : Int), (600 : Int)))).1.nextLink
        · rcases hb : (clone_branch_go w w.nextId src (some p)
              ((w.form src).pos + ((200 : Int), (600 : Int)))).1.linkInScene m
            with _ | _
          · rw [(hwf3 m hmr.1)]
          · obtain ⟨c2, hc2, hcl⟩ := G16 m hmr.1 hmr.2 hb
            exact absurd (List.mem_filterMap.mpr ⟨c2, hc2, hcl⟩) hmS
        · exact G13 m hmr
    · intro j hj
      rw [World.updForm_form]
      by_cases hjp : j = p
      · rw [if_pos hjp, U1, G7 p rfl]
        have hfil : ((w.form p).child_forms ++ [w.nextId]).filter
            (fun x => !((clone_branch_go w w.nextId src (some p)
              ((w.form src).pos
                + ((200 : Int), (600 : Int)))).2).contains x)
            = (w.form p).child_forms := by
          rw [List.filter_append]
          have h1 : ((w.form p).child_forms).filter
              (fun x => !((clone_branch_go w w.nextId src (some p)
                ((w.form src).pos
                  + ((200 : Int), (600 : Int)))).2).contains x)
              = (w.form p).child_forms := by
            apply List.filter_eq_self.mpr
            intro b hb
            have hbn : b < w.nextId := (hwf1 p hpn b hb).2
            simp
            intro hbC
            exact absurd (G5 b hbC).1 (by omega)
          have h2 : ([w.nextId] : List Nat).filter
              (fun x => !((clone_branch_go w w.nextId src (some p)
                ((w.form src).pos
                  + ((200 : Int), (600 : Int)))).2).contains x)
              = [] := by
            rw [List.filter_singleton]
            have hc : (!((clone_branch_go w w.nextId src (some p)
                ((w.form src).pos
                  + ((200 : Int), (600 : Int)))).2).contains w.nextId)
                = false := by
              simp [hwN]
            rw [hc]
            rfl
          rw [h1, h2, List.append_nil]
        rw [hjp]
        show FormSim (w.form p) { w.form p with
          child_forms := ((w.form p).child_forms ++ [w.nextId]).filter
            (fun x => !((clone_branch_go w w.nextId src (some p)
              ((w.form src).pos
                + ((200 : Int), (600 : Int)))).2).contains x) }
        rw [hfil]
        exact FormSim_of_eq _ _ rfl
      · rw [if_neg hjp]
        refine FormSim_of_eq _ _ ?_
        rw [U1, G6 j hj (fun p0 h0 => by
          injection h0 with h5
          subst h5
          exact hjp)]

/-! ## Undo is a congruence for structural similarity -/

theorem FormSim_set_pos (f g : Form) (P : Pos) (h : FormSim f g) :
    FormSim { f with pos := P } { g with pos := P } := by
  obtain ⟨a1, a2, a3, a4, a5, a6, a7, a8, a9, a10, a11⟩ := h
  exact ⟨a1, a2, a3, rfl, a5, a6, a7, a8, a9, a10, a11⟩

theorem FormSim_set_pos_link (f g : Form) (P : Pos) (ln : Nat)
    (h : FormSim f g) :
    FormSim { f with pos := P, link_line := some ln }
      { g with pos := P, link_line := some ln } := by
  obtain ⟨a1, a2, a3, a4, a5, a6, a7, a8, a9, a10, a11⟩ := h
  exact ⟨a1, a2, rfl, rfl, a5, a6, a7, a8, a9, a10, a11⟩

theorem FormSim_erase_child (f g : Form) (k : Nat) (h : FormSim f g) :
    FormSim { f with child_forms := f.child_forms.erase k }
      { g with child_forms := g.child_forms.erase k } := by
  obtain ⟨a1, a2, a3, a4, a5, a6, a7, a8, a9, a10, a11⟩ := h
  exact ⟨a1, a2.erase k, a3, a4, a5, a6, a7, a8, a9, a10, a11⟩

theorem FormSim_append_child (f g : Form) (k : Nat) (h : FormSim f g) :
    FormSim { f with child_forms := f.child_forms ++ [k] }
      { g with child_forms := g.child_forms ++ [k] } := by
  obtain ⟨a1, a2, a3, a4, a5, a6, a7, a8, a9, a10, a11⟩ := h
  exact ⟨a1, a2.append_right [k], a3, a4, a5, a6, a7, a8, a9, a10, a11⟩

theorem FormSim_filter_child (f g : Form) (q : Nat → Bool) (h : FormSim f g) :
    FormSim { f with child_forms := f.child_forms.filter q }
      { g with child_forms := g.child_forms.filter q } := by
  obtain ⟨a1, a2, a3, a4, a5, a6, a7, a8, a9, a10, a11⟩ := h
  exact ⟨a1, a2.filter q, a3, a4, a5, a6, a7, a8, a9, a10, a11⟩

theorem condSceneRemove_inScene_char (v : World) (i j : Nat) :
    (condSceneRemove v i).inScene j
      = if j = i then false else v.inScene j := condSceneRemove_inScene v i j

theorem condEraseChild_nextId (v : World) (po : Option Nat) (k : Nat) :
    (condEraseChild v po k).nextId = v.nextId := by
  rcases po with _ | pid
  · rfl
  · have hh : condEraseChild v (some pid) k
        = if k ∈ (v.form pid).child_forms then
            v.updForm pid (fun f =>
              { f with child_forms := f.child_forms.erase k })
          else v := rfl
    rw [hh]
    split <;> rfl

theorem condEraseChild_nextLink (v : World) (po : Option Nat) (k : Nat) :
    (condEraseChild v po k).nextLink = v.nextLink := by
  rcases po with _ | pid
  · rfl
  · have hh : condEraseChild v (some pid) k
        = if k ∈ (v.form pid).child_forms then
            v.updForm pid (fun f =>
              { f with child_forms := f.child_forms.erase k })
          else v := rfl
    rw [hh]
    split <;> rfl

theorem condEraseChild_inScene (v : World) (po : Option Nat) (k : Nat) :
    (condEraseChild v po k).inScene = v.inScene := by
  rcases po with _ | pid
  · rfl
  · have hh : condEraseChild v (some pid) k
        = if k ∈ (v.form pid).child_forms then
            v.updForm pid (fun f =>
              { f with child_forms := f.child_forms.erase k })
          else v := rfl
    rw [hh]
    split <;> rfl

theorem condEraseChild_linkInScene (v : World) (po : Option Nat) (k : Nat) :
    (condEraseChild v po k).linkInScene = v.linkInScene := by
  rcases po with _ | pid
  · rfl
  · have hh : condEraseChild v (some pid) k
        = if k ∈ (v.form pid).child_forms then
            v.updForm pid (fun f =>
              { f with child_forms := f.child_forms.erase k })
          else v := rfl
    rw [hh]
    split <;> rfl

theorem condEraseChild_form_other (v : World) (po : Option Nat) (k j : Nat)
    (h : ∀ pid, po = some pid → j ≠ pid) :
    (condEraseChild v po k).form j = v.form j := by
  rcases po with _ | pid
  · rfl
  · have hh : condEraseChild v (some pid) k
        = if k ∈ (v.form pid).child_forms then
            v.updForm pid (fun f =>
              { f with child_forms := f.child_forms.erase k })
          else v := rfl
    rw [hh]
    split
    · rw [World.updForm_form, if_neg (h pid rfl)]
    · rfl

theorem condEraseChild_form_parent (v : World) (pid k : Nat) :
    (condEraseChild v (some pid) k).form pid
      = { v.form pid with
          child_forms := (v.form pid).child_forms.erase k } := by
  have hh : condEraseChild v (some pid) k
      = if k ∈ (v.form pid).child_forms then
          v.updForm pid (fun f =>
            { f with child_forms := f.child_forms.erase k })
        else v := rfl
  rw [hh]
  split
  · rw [World.updForm_form, if_pos rfl]
  · rename_i hnot
    rw [List.erase_of_not_mem hnot]

theorem condLinkRemoveId_nextId (v : World) (lo : Option Nat) :
    (condLinkRemoveId v lo).nextId = v.nextId := by
  rcases lo with _ | ln
  · rfl
  · have hh : condLinkRemoveId v (some ln)
        = if v.linkInScene ln then v.removeLinkScene ln else v := rfl
    rw [hh]
    split <;> rfl

theorem condLinkRemoveId_nextLink (v : World) (lo : Option Nat) :
    (condLinkRemoveId v lo).nextLink = v.nextLink := by
  rcases lo with _ | ln
  · rfl
  · have hh : condLinkRemoveId v (some ln)
        = if v.linkInScene ln then v.removeLinkScene ln else v := rfl
    rw [hh]
    split <;> rfl

theorem condLinkRemoveId_inScene (v : World) (lo : Option Nat) :
    (condLinkRemoveId v lo).inScene = v.inScene := by
  rcases lo with _ | ln
  · rfl
  · have hh : condLinkRemoveId v (some ln)
        = if v.linkInScene ln then v.removeLinkScene ln else v := rfl
    rw [hh]
    split <;> rfl

theorem condLinkRemoveId_form (v : World) (lo : Option Nat) :
    (condLinkRemoveId v lo).form = v.form := by
  rcases lo with _ | ln
  · rfl
  · have hh : condLinkRemoveId v (some ln)
        = if v.linkInScene ln then v.removeLinkScene ln else v := rfl
    rw [hh]
    split <;> rfl

theorem condLinkRemoveId_linkInScene (v : World) (lo : Option Nat) (m : Nat) :
    (condLinkRemoveId v lo).linkInScene m
      = if lo = some m then false else v.linkInScene m := by
  rcases lo with _ | ln
  · rw [if_neg (by simp)]
    rfl
  · have hh : condLinkRemoveId v (some ln)
        = if v.linkInScene ln then v.removeLinkScene ln else v := rfl
    rw [hh]
    by_cases hml : m = ln
    · subst hml
      rw [if_pos rfl]
      split
      · rw [World.removeLinkScene_linkInScene, if_pos rfl]
      · rename_i hsc
        exact (Bool.not_eq_true _).mp hsc
    · rw [if_neg (fun hh => hml (Option.some.inj hh).symm)]
      split
      · rw [World.removeLinkScene_linkInScene, if_neg hml]
      · rfl

/-- `CreateFormCommand.undo` is the composition of the three guarded
removals. -/
theorem create_undo_eq (parent : Option Nat) (position : Option Pos)
    (model : String) (k : Nat) (link : Option Nat) (V : World) :
    ((({ parent_form := parent, position := position, model := model,
         created_form := some k, link_line := link } :
          CreateFormCommand)).undo V).2
      = condLinkRemoveId (condEraseChild (condSceneRemove V k) parent k)
          link := rfl

/-- The restore loop preserves structural similarity of the worlds it
runs on (it writes the same captured values into related widgets). -/
theorem restore_fold_congr (n : Nat) :
    ∀ (items : List (Nat × Pos × Option Nat)) (V V' : World),
      (∀ j, j < n → FormSim (V.form j) (V'.form j)) →
      ∀ j, j < n → FormSim ((items.foldl restore_step V).form j)
        ((items.foldl restore_step V').form j) := by
  intro items
  induction items with
  | nil =>
      intro V V' h j hj
      exact h j hj
  | cons t rest ih =>
      intro V V' h j hj
      rcases t with ⟨a, P, K⟩
      have hstep : ∀ (W : World), ((a, P, K) :: rest).foldl restore_step W
          = rest.foldl restore_step (restore_step W (a, P, K)) :=
        fun W => rfl
      rw [hstep V, hstep V']
      refine ih (restore_step V (a, P, K)) (restore_step V' (a, P, K)) ?_ j hj
      intro j2 hj2
      by_cases hjt : j2 = a
      · subst hjt
        rcases K with _ | ln
        · have e1 : (restore_step V (j2, P, none)).form j2
              = { V.form j2 with pos := P } := restore_step_form_self V _
          have e2 : (restore_step V' (j2, P, none)).form j2
              = { V'.form j2 with pos := P } := restore_step_form_self V' _
          rw [e1, e2]
          exact FormSim_set_pos _ _ P (h j2 hj2)
        · have e1 : (restore_step V (j2, P, some ln)).form j2
              = { V.form j2 with pos := P, link_line := some ln } :=
            restore_step_form_self V _
          have e2 : (restore_step V' (j2, P, some ln)).form j2
              = { V'.form j2 with pos := P, link_line := some ln } :=
            restore_step_form_self V' _
          rw [e1, e2]
          exact FormSim_set_pos_link _ _ P ln (h j2 hj2)
      · rw [restore_step_form_other V _ j2 hjt,
          restore_step_form_other V' _ j2 hjt]
        exact h j2 hj2

/-- Undoing a fixed command object maps structurally similar worlds to
structurally similar worlds (every id the undo touches lies below the
similarity threshold). -/
theorem undo_congr (n : Nat) (c : CmdInst) (hb : InstBound n c)
    (w1 w1' : World) (hsim : Wsim n w1 w1') :
    Wsim n (c.undo w1).2 (c.undo w1').2 := by
  obtain ⟨S, L, F⟩ := hsim
  cases c with
  | move mc =>
      refine ⟨fun j => S j, fun m => L m, ?_⟩
      intro j hj
      show FormSim ((mc.undo w1).2.form j) ((mc.undo w1').2.form j)
      show FormSim ((w1.updForm mc.form (fun f =>
          { f with pos := mc.old_pos })).form j)
        ((w1'.updForm mc.form (fun f => { f with pos := mc.old_pos })).form j)
      rw [World.updForm_form, World.updForm_form]
      by_cases hjm : j = mc.form
      · rw [if_pos hjm, if_pos hjm]
        exact FormSim_set_pos _ _ _ (F mc.form hb)
      · rw [if_neg hjm, if_neg hjm]
        exact F j hj
  | create cc =>
      rcases cc with ⟨parent, position, model, created, link⟩
      rcases created with _ | k
      · exact ⟨S, L, F⟩
      · obtain ⟨hkb, hpidb⟩ := hb
        have e1 : ((CmdInst.create
            { parent_form := parent, position := position, model := model,
              created_form := some k, link_line := link }).undo w1).2
            = condLinkRemoveId (condEraseChild (condSceneRemove w1 k)
                parent k) link := rfl
        have e1' : ((CmdInst.create
            { parent_form := parent, position := position, model := model,
              created_form := some k, link_line := link }).undo w1').2
            = condLinkRemoveId (condEraseChild (condSceneRemove w1' k)
                parent k) link := rfl
        refine ⟨?_, ?_, ?_⟩
        · intro j
          rw [e1, e1']
          simp only [condLinkRemoveId_inScene, condEraseChild_inScene]
          rw [condSceneRemove_inScene, condSceneRemove_inScene, S j]
        · intro m
          rw [e1, e1']
          rw [condLinkRemoveId_linkInScene, condLinkRemoveId_linkInScene]
          simp only [condEraseChild_linkInScene, condSceneRemove_linkInScene]
          rw [L m]
        · intro j hj
          rw [e1, e1']
          simp only [condLinkRemoveId_form]
          rcases parent with _ | pid
          · show FormSim ((condSceneRemove w1 k).form j)
              ((condSceneRemove w1' k).form j)
            rw [condSceneRemove_form, condSceneRemove_form]
            exact F j hj
          · by_cases hjp : j = pid
            · subst hjp
              rw [condEraseChild_form_parent, condEraseChild_form_parent,
                condSceneRemove_form, condSceneRemove_form]
              exact FormSim_erase_child _ _ k (F j hj)
            · rw [condEraseChild_form_other _ _ _ _ (fun p2 h2 => by
                  injection h2 with h5
                  subst h5
                  exact hjp),
                condEraseChild_form_other _ _ _ _ (fun p2 h2 => by
                  injection h2 with h5
                  subst h5
                  exact hjp),
                condSceneRemove_form, condSceneRemove_form]
              exact F j hj
  | delete dc =>
      rcases dc with ⟨i, parent, caps⟩
      obtain ⟨hcapb, hpb⟩ := hb
      obtain ⟨Ra1, Ra2, Ra3, Ra4, Ra5, Ra6⟩ := restore_go_spec caps.reverse w1
      obtain ⟨Rb1, Rb2, Rb3, Rb4, Rb5, Rb6⟩ := restore_go_spec caps.reverse w1'
      have hforms := restore_fold_congr n caps.reverse w1 w1' F
      rcases parent with _ | p
      · have e1 : ((CmdInst.delete
            { form := i, parent_form := none,
              deleted_subtree := caps }).undo w1).2
            = caps.reverse.foldl restore_step w1 := rfl
        have e1' : ((CmdInst.delete
            { form := i, parent_form := none,
              deleted_subtree := caps }).undo w1').2
            = caps.reverse.foldl restore_step w1' := rfl
        rw [e1, e1']
        refine ⟨?_, ?_, ?_⟩
        · intro j
          rw [Ra4 j, Rb4 j, S j]
        · intro m
          rw [Ra5 m, Rb5 m, L m]
        · exact hforms
      · have e1 : ((CmdInst.delete
            { form := i, parent_form := some p,
              deleted_subtree := caps }).undo w1).2
            = (caps.reverse.foldl restore_step w1).updForm p (fun f =>
                { f with child_forms := f.child_forms ++ [i] }) := rfl
        have e1' : ((CmdInst.delete
            { form := i, parent_form := some p,
              deleted_subtree := caps }).undo w1').2
            = (caps.reverse.foldl restore_step w1').updForm p (fun f =>
                { f with child_forms := f.child_forms ++ [i] }) := rfl
        rw [e1, e1']
        refine ⟨?_, ?_, ?_⟩
        · intro j
          rw [World.updForm_inScene, World.updForm_inScene, Ra4 j, Rb4 j, S j]
        · intro m
          rw [World.updForm_linkInScene, World.updForm_linkInScene, Ra5 m,
            Rb5 m, L m]
        · intro j hj
          rw [World.updForm_form, World.updForm_form]
          by_cases hjp : j = p
          · rw [if_pos hjp, if_pos hjp]
            exact FormSim_append_child _ _ i (hforms p (hjp ▸ hj))
          · rw [if_neg hjp, if_neg hjp]
            exact hforms j hj
  | cloneBranch cc =>
      rcases cc with ⟨src, C, parent⟩
      obtain ⟨hCb, hpb⟩ := hb
      obtain ⟨Ua1, Ua2, Ua3, Ua4, Ua5⟩ := clone_undo_fold_spec C w1
      obtain ⟨Ub1, Ub2, Ub3, Ub4, Ub5⟩ := clone_undo_fold_spec C w1'
      have hsets : C.filterMap (fun c => (w1'.form c).link_line)
          = C.filterMap (fun c => (w1.form c).link_line) :=
        List.filterMap_congr (fun x hx => ((F x (hCb x hx)).2.2.1))
      rcases parent with _ | p
      · have e1 : ((CmdInst.cloneBranch
            { source_form := src, cloned_forms := C,
              parent_form := none }).undo w1).2
            = C.foldl (fun v i => condLinkRemove (condSceneRemove v i) i)
                w1 := rfl
        have e1' : ((CmdInst.cloneBranch
            { source_form := src, cloned_forms := C,
              parent_form := none }).undo w1').2
            = C.foldl (fun v i => condLinkRemove (condSceneRemove v i) i)
                w1' := rfl
        rw [e1, e1']
        refine ⟨?_, ?_, ?_⟩
        · intro j
          rw [Ua4 j, Ub4 j, S j]
        · intro m
          rw [Ua5 m, Ub5 m, hsets, L m]
        · intro j hj
          have r1 := congrFun Ua1 j
          have r2 := congrFun Ub1 j
          rw [r1, r2]
          exact F j hj
      · have e1 : ((CmdInst.cloneBranch
            { source_form := src, cloned_forms := C,
              parent_form := some p }).undo w1).2
            = (C.foldl (fun v i => condLinkRemove (condSceneRemove v i) i)
                w1).updForm p (fun f => { f with
                  child_forms := f.child_forms.filter
                    (fun x => !C.contains x) }) := rfl
        have e1' : ((CmdInst.cloneBranch
            { source_form := src, cloned_forms := C,
              parent_form := some p }).undo w1').2
            = (C.foldl (fun v i => condLinkRemove (condSceneRemove v i) i)
                w1').updForm p (fun f => { f with
                  child_forms := f.child_forms.filter
                    (fun x => !C.contains x) }) := rfl
        rw [e1, e1']
        refine ⟨?_, ?_, ?_⟩
        · intro j
          rw [World.updForm_inScene, World.updForm_inScene, Ua4 j, Ub4 j, S j]
        · intro m
          rw [World.updForm_linkInScene, World.updForm_linkInScene, Ua5 m,
            Ub5 m, hsets, L m]
        · intro j hj
          rw [World.updForm_form, World.updForm_form]
          by_cases hjp : j = p
          · rw [if_pos hjp, if_pos hjp]
            have r1 := congrFun Ua1 p
            have r2 := congrFun Ub1 p
            rw [r1, r2]
            exact FormSim_filter_child _ _ _ (F p (hjp ▸ hj))
          · rw [if_neg hjp, if_neg hjp]
            have r1 := congrFun Ua1 j
            have r2 := congrFun Ub1 j
            rw [r1, r2]
            exact F j hj

/-- The command object a valid execution produces only captures ids below
the post-execution allocation bound. -/
theorem exec_InstBound (w : World) (s : CmdSpec) (hwf : WFsmall w)
    (hv : ValidCmd w s) :
    InstBound ((mkCmd s w).execute w).2.nextId ((mkCmd s w).execute w).1 := by
  obtain ⟨hwf1, hwf2, hwf3⟩ := hwf
  cases s with
  | move a b c => exact hv.elim
  | create parent position model =>
      have hbase : ∀ (par : Option Nat) (pos0 : Option Pos),
          ((mkCmd (CmdSpec.create par pos0 model) w).execute w).2.nextId
            = w.nextId + 1 := by
        intro par pos0
        rcases par with _ | pid <;> rcases pos0 with _ | pp <;> rfl
      rw [hbase parent position]
      rcases parent with _ | pid
      · refine ⟨fun k hk => ?_, fun pid2 hp => ?_⟩
        · have hk2 : some w.nextId = some k := hk
          injection hk2 with h5
          omega
        · have hp2 : (none : Option Nat) = some pid2 := hp
          cases hp2
      · refine ⟨fun k hk => ?_, fun pid2 hp => ?_⟩
        · have hk2 : some w.nextId = some k := hk
          injection hk2 with h5
          omega
        · have hp2 : (some pid : Option Nat) = some pid2 := hp
          injection hp2 with h5
          subst h5
          have := hv pid rfl
          omega
  | delete i =>
      obtain ⟨hi, hsc, hnd, hallsc, hlinks, hparc⟩ := hv
      obtain ⟨D1, D2, D3, D4, D5, D6⟩ := delete_go_spec w.nextId w i
      have hLfacts := subtree_mem_facts w
        (fun a ha b hb => (hwf1 a ha b hb).1)
        (fun a ha b hb => (hwf1 a ha b hb).2) w.nextId i hi (by omega)
      have hnid : ((mkCmd (CmdSpec.delete i) w).execute w).2.nextId
          = w.nextId := by
        show (match (w.form i).parent_form with
          | some p2 =>
              if i ∈ ((delete_subtree_go w w.nextId i).1.form p2).child_forms
              then (delete_subtree_go w w.nextId i).1.updForm p2
                (fun f => { f with child_forms := f.child_forms.erase i })
              else (delete_subtree_go w w.nextId i).1
          | none => (delete_subtree_go w w.nextId i).1).nextId = w.nextId
        rcases (w.form i).parent_form with _ | p
        · exact D2
        · show (if i ∈ ((delete_subtree_go w w.nextId i).1.form
              p).child_forms
            then (delete_subtree_go w w.nextId i).1.updForm p
              (fun f => { f with child_forms := f.child_forms.erase i })
            else (delete_subtree_go w w.nextId i).1).nextId = w.nextId
          split
          · rw [World.updForm_nextId]
            exact D2
          · exact D2
      have hinst : ((mkCmd (CmdSpec.delete i) w).execute w).1
          = CmdInst.delete
              { form := i, parent_form := (w.form i).parent_form,
                deleted_subtree := (delete_subtree_go w w.nextId i).2 } := rfl
      rw [hinst, hnid]
      refine ⟨?_, ?_⟩
      · intro t ht
        rw [D4] at ht
        obtain ⟨j, hj, hjt⟩ := List.mem_map.mp ht
        have := (hLfacts.2 j hj).2
        rw [← hjt]
        exact this
      · intro p hp
        exact (hparc p hp).1
  | cloneBranch src =>
      obtain ⟨hsrc, hpp⟩ := hv
      obtain ⟨G1, G2, G3, G4, G5, G6, G7, G8, G9, G10, G11, G12, G13, G14,
          G15, G16, G17, G18⟩ :=
        clone_go_spec w.nextId w src ((w.form src).parent_form)
          ((w.form src).pos + ((200 : Int), (600 : Int))) w.nextId hsrc
          (le_refl _) (fun j _ hj2 => hwf1 j hj2) (by omega)
          (fun p0 h0 => Or.inl (hpp p0 h0))
          (fun p0 h0 => by have := hpp p0 h0; omega)
      have hinst : ((mkCmd (CmdSpec.cloneBranch src) w).execute w).1
          = CmdInst.cloneBranch
              { source_form := src,
                cloned_forms := (clone_branch_go w w.nextId src
                  ((w.form src).parent_form)
                  ((w.form src).pos + ((200 : Int), (600 : Int)))).2,
                parent_form := (w.form src).parent_form } := rfl
      have hnid : ((mkCmd (CmdSpec.cloneBranch src) w).execute w).2.nextId
          = (clone_branch_go w w.nextId src ((w.form src).parent_form)
              ((w.form src).pos + ((200 : Int), (600 : Int)))).1.nextId := rfl
      rw [hinst, hnid]
      refine ⟨?_, ?_⟩
      · intro x hx
        exact (G5 x hx).2
      · intro p hp
        have := hpp p hp
        rw [G1]
        omega

/-- Executing a gesture never lowers the allocation bound. -/
theorem exec_nextId_mono (w : World) (s : CmdSpec) (hwf : WFsmall w)
    (hv : ValidCmd w s) :
    w.nextId ≤ ((mkCmd s w).execute w).2.nextId := by
  obtain ⟨hwf1, hwf2, hwf3⟩ := hwf
  cases s with
  | move a b c => exact hv.elim
  | create parent position model =>
      have hbase : ∀ (par : Option Nat) (pos0 : Option Pos),
          ((mkCmd (CmdSpec.create par pos0 model) w).execute w).2.nextId
            = w.nextId + 1 := by
        intro par pos0
        rcases par with _ | pid <;> rcases pos0 with _ | pp <;> rfl
      rw [hbase parent position]
      omega
  | delete i =>
      obtain ⟨hi, hsc, hnd, hallsc, hlinks, hparc⟩ := hv
      obtain ⟨D1, D2, D3, D4, D5, D6⟩ := delete_go_spec w.nextId w i
      have hnid : ((mkCmd (CmdSpec.delete i) w).execute w).2.nextId
          = w.nextId := by
        show (match (w.form i).parent_form with
          | some p2 =>
              if i ∈ ((delete_subtree_go w w.nextId i).1.form p2).child_forms
              then (delete_subtree_go w w.nextId i).1.updForm p2
                (fun f => { f with child_forms := f.child_forms.erase i })
              else (delete_subtree_go w w.nextId i).1
          | none => (delete_subtree_go w w.nextId i).1).nextId = w.nextId
        rcases (w.form i).parent_form with _ | p
        · exact D2
        · show (if i ∈ ((delete_subtree_go w w.nextId i).1.form
              p).child_forms
            then (delete_subtree_go w w.nextId i).1.updForm p
              (fun f => { f with child_forms := f.child_forms.erase i })
            else (delete_subtree_go w w.nextId i).1).nextId = w.nextId
          split
          · rw [World.updForm_nextId]
            exact D2
          · exact D2
      omega
  | cloneBranch src =>
      obtain ⟨hsrc, hpp⟩ := hv
      obtain ⟨G1, G2, G3, G4, G5, G6, G7, G8, G9, G10, G11, G12, G13, G14,
          G15, G16, G17, G18⟩ :=
        clone_go_spec w.nextId w src ((w.form src).parent_form)
          ((w.form src).pos + ((200 : Int), (600 : Int))) w.nextId hsrc
          (le_refl _) (fun j _ hj2 => hwf1 j hj2) (by omega)
          (fun p0 h0 => Or.inl (hpp p0 h0))
          (fun p0 h0 => by have := hpp p0 h0; omega)
      have hnid : ((mkCmd (CmdSpec.cloneBranch src) w).execute w).2.nextId
          = (clone_branch_go w w.nextId src ((w.form src).parent_form)
              ((w.form src).pos + ((200 : Int), (600 : Int)))).1.nextId := rfl
      rw [hnid, G1]
      omega

/-- Executing a valid gesture preserves the allocation invariants. -/
theorem exec_WFsmall (w : World) (s : CmdSpec) (hwf : WFsmall w)
    (hv : ValidCmd w s) : WFsmall ((mkCmd s w).execute w).2 := by
  obtain ⟨hwf1, hwf2, hwf3⟩ := hwf
  cases s with
  | move a b c => exact hv.elim
  | create parent position model =>
      have hbase : ∀ (par : Option Nat) (pos0 : Option Pos),
          ((mkCmd (CmdSpec.create par pos0 model) w).execute w).2.nextId
            = w.nextId + 1 := by
        intro par pos0
        rcases par with _ | pid <;> rcases pos0 with _ | pp <;> rfl
      rcases parent with _ | pid
      · refine ⟨?_, ?_, ?_⟩
        · intro a ha b hb
          rw [hbase none position] at ha ⊢
          by_cases hak : a = w.nextId
          · rcases position with _ | pp <;>
              simp [mkCmd, CmdInst.execute, CreateFormCommand.mk',
                CreateFormCommand.execute, newFormWidget, hak] at hb
          · rcases position with _ | pp <;>
              simp [mkCmd, CmdInst.execute, CreateFormCommand.mk',
                CreateFormCommand.execute, newFormWidget, hak] at hb <;>
              · have := hwf1 a (by omega) b hb
                omega
        · intro j hj
          rw [hbase none position] at hj
          rcases position with _ | pp <;>
            · simp [mkCmd, CmdInst.execute, CreateFormCommand.mk',
                CreateFormCommand.execute, show j ≠ w.nextId by omega]
              exact hwf2 j (by omega)
        · intro m hm
          have hlink : ((mkCmd (CmdSpec.create none position model)
              w).execute w).2.nextLink = w.nextLink := by
            rcases position with _ | pp <;> rfl
          rw [hlink] at hm
          rcases position with _ | pp <;>
            · simp [mkCmd, CmdInst.execute, CreateFormCommand.mk',
                CreateFormCommand.execute]
              exact hwf3 m (by omega)
      · have hpidn : pid < w.nextId := hv pid rfl
        refine ⟨?_, ?_, ?_⟩
        · intro a ha b hb
          rw [hbase (some pid) position] at ha ⊢
          by_cases hak : a = w.nextId
          · have hformk : ∀ pos0 : Option Pos,
                (((mkCmd (CmdSpec.create (some pid) pos0 model) w).execute
                  w).2.form w.nextId).child_forms = [] := by
              intro pos0
              rcases pos0 with _ | pp <;>
                simp [mkCmd, CmdInst.execute, CreateFormCommand.mk',
                  CreateFormCommand.execute, newFormWidget,
                  show ¬(w.nextId = pid) from fun h => absurd h.symm
                    (by omega)]
            rw [hak, hformk position] at hb
            exact absurd hb (List.not_mem_nil b)
          · by_cases hap : a = pid
            · rcases position with _ | pp <;>
                · simp [mkCmd, CmdInst.execute, CreateFormCommand.mk',
                    CreateFormCommand.execute, newFormWidget, hak, hap,
                    show pid ≠ w.nextId by omega] at hb
                  rcases hb with hb | hb
                  · have := hwf1 pid hpidn b hb
                    omega
                  · omega
            · rcases position with _ | pp <;>
                · simp [mkCmd, CmdInst.execute, CreateFormCommand.mk',
                    CreateFormCommand.execute, newFormWidget, hak, hap] at hb
                  have := hwf1 a (by omega) b hb
                  omega
        · intro j hj
          rw [hbase (some pid) position] at hj
          rcases position with _ | pp <;>
            · simp [mkCmd, CmdInst.execute, CreateFormCommand.mk',
                CreateFormCommand.execute, show j ≠ w.nextId by omega]
              exact hwf2 j (by omega)
        · intro m hm
          have hlink : ((mkCmd (CmdSpec.create (some pid) position model)
              w).execute w).2.nextLink = w.nextLink + 1 := by
            rcases position with _ | pp <;> rfl
          rw [hlink] at hm
          rcases position with _ | pp <;>
            · simp [mkCmd, CmdInst.execute, CreateFormCommand.mk',
                CreateFormCommand.execute, show m ≠ w.nextLink by omega]
              exact hwf3 m (by omega)
  | delete i =>
      obtain ⟨hi, hsc, hnd, hallsc, hlinks, hparc⟩ := hv
      obtain ⟨D1, D2, D3, D4, D5, D6⟩ := delete_go_spec w.nextId w i
      rcases hpar : (w.form i).parent_form with _ | p
      · have hex : ((mkCmd (CmdSpec.delete i) w).execute w).2
            = (delete_subtree_go w w.nextId i).1 := by
          show (match (w.form i).parent_form with
            | some p2 =>
                if i ∈ ((delete_subtree_go w w.nextId i).1.form
                  p2).child_forms
                then (delete_subtree_go w w.nextId i).1.updForm p2
                  (fun f => { f with child_forms := f.child_forms.erase i })
                else (delete_subtree_go w w.nextId i).1
            | none => (delete_subtree_go w w.nextId i).1) = _
          rw [hpar]
        rw [hex]
        refine ⟨?_, ?_, ?_⟩
        · intro a ha b hb
          rw [D2] at ha ⊢
          rw [congrFun D1 a] at hb
          exact hwf1 a ha b hb
        · intro j hj
          rw [D2] at hj
          rw [D5 j]
          split
          · rfl
          · exact hwf2 j hj
        · intro m hm
          rw [D3] at hm
          rw [D6 m]
          split
          · rfl
          · exact hwf3 m hm
      · have hpmem : i ∈ (w.form p).child_forms := (hparc p hpar).2
        have hex : ((mkCmd (CmdSpec.delete i) w).execute w).2
            = (delete_subtree_go w w.nextId i).1.updForm p
                (fun f => { f with
                  child_forms := f.child_forms.erase i }) := by
          show (match (w.form i).parent_form with
            | some p2 =>
                if i ∈ ((delete_subtree_go w w.nextId i).1.form
                  p2).child_forms
                then (delete_subtree_go w w.nextId i).1.updForm p2
                  (fun f => { f with child_forms := f.child_forms.erase i })
                else (delete_subtree_go w w.nextId i).1
            | none => (delete_subtree_go w w.nextId i).1) = _
          rw [hpar]
          show (if i ∈ ((delete_subtree_go w w.nextId i).1.form
              p).child_forms
            then (delete_subtree_go w w.nextId i).1.updForm p
              (fun f => { f with child_forms := f.child_forms.erase i })
            else (delete_subtree_go w w.nextId i).1) = _
          rw [if_pos (by rw [congrFun D1 p]; exact hpmem)]
        rw [hex]
        refine ⟨?_, ?_, ?_⟩
        · intro a ha b hb
          rw [World.updForm_nextId, D2] at ha ⊢
          rw [World.updForm_form] at hb
          by_cases hap : a = p
          · rw [if_pos hap] at hb
            have hb2 : b ∈ (((delete_subtree_go w
                w.nextId i).1.form p).child_forms).erase i := hb
            have hb3 := List.mem_of_mem_erase hb2
            rw [congrFun D1 p] at hb3
            rw [hap]
            exact hwf1 p (hparc p hpar).1 b hb3
          · rw [if_neg hap, congrFun D1 a] at hb
            exact hwf1 a ha b hb
        · intro j hj
          rw [World.updForm_nextId, D2] at hj
          rw [World.updForm_inScene, D5 j]
          split
          · rfl
          · exact hwf2 j hj
        · intro m hm
          rw [World.updForm_nextLink, D3] at hm
          rw [World.updForm_linkInScene, D6 m]
          split
          · rfl
          · exact hwf3 m hm
  | cloneBranch src =>
      obtain ⟨hsrc, hpp⟩ := hv
      obtain ⟨G1, G2, G3, G4, G5, G6, G7, G8, G9, G10, G11, G12, G13, G14,
          G15, G16, G17, G18⟩ :=
        clone_go_spec w.nextId w src ((w.form src).parent_form)
          ((w.form src).pos + ((200 : Int), (600 : Int))) w.nextId hsrc
          (le_refl _) (fun j _ hj2 => hwf1 j hj2) (by omega)
          (fun p0 h0 => Or.inl (hpp p0 h0))
          (fun p0 h0 => by have := hpp p0 h0; omega)
      have hex : ((mkCmd (CmdSpec.cloneBranch src) w).execute w).2
          = (clone_branch_go w w.nextId src ((w.form src).parent_form)
              ((w.form src).pos + ((200 : Int), (600 : Int)))).1 := rfl
      rw [hex]
      refine ⟨?_, ?_, ?_⟩
      · intro a ha b hb
        by_cases haw : a < w.nextId
        · rcases hpar : (w.form src).parent_form with _ | p
          all_goals simp only [hpar] at G1 G2 G4 G5 G6 G7 G9 G11 G13
          all_goals rw [hpar] at ha hb
          · rw [G6 a haw (fun p0 h0 => by cases h0)] at hb
            have := hwf1 a haw b hb
            rw [G1] at ha ⊢
            omega
          · by_cases hap : a = p
            · rw [hap, G7 p rfl] at hb
              have hb2 : b ∈ (w.form p).child_forms ++ [w.nextId] := hb
              rcases List.mem_append.mp hb2 with hb3 | hb3
              · have hpn : p < w.nextId := by
                  have := hpp p hpar
                  omega
                have := hwf1 p hpn b hb3
                rw [G1] at ha ⊢
                omega
              · have hb4 : b = w.nextId := List.mem_singleton.mp hb3
                have hpn : p < w.nextId := by
                  have := hpp p hpar
                  omega
                rw [G1] at ha ⊢
                omega
            · rw [G6 a haw (fun p0 h0 => by
                  injection h0 with h5
                  subst h5
                  exact hap)] at hb
              have := hwf1 a haw b hb
              rw [G1] at ha ⊢
              omega
        · exact G11 a (by omega) ha b hb
      · intro j hj
        rw [G9 j (by omega)]
        rw [G1] at hj
        exact hwf2 j (by omega)
      · intro m hm
        rw [G13 m (by omega)]
        exact hwf3 m (by omega)

/-- Round trip of a single valid gesture: execute it, undo the resulting
command object. -/
theorem cmd_roundtrip (w : World) (s : CmdSpec) (hwf : WFsmall w)
    (hv : ValidCmd w s) :
    Wsim w.nextId w
      (((mkCmd s w).execute w).1.undo ((mkCmd s w).execute w).2).2 := by
  cases s with
  | create parent position model =>
      exact create_roundtrip w parent position model hwf hv
  | delete i => exact delete_roundtrip w i hwf hv
  | move a b c => exact hv.elim
  | cloneBranch src => exact clone_roundtrip w src hwf hv

/-- C1: for any valid sequence of create/delete-subtree/clone-branch
gestures executed in order and then undone in reverse order, the canvas is
restored: scene membership, link visibility, and every widget's parent,
position, size, texts, model and files return to their initial values, and
every child list returns as a permutation of its initial value.  (The
original claim's stronger demand that each child list return in its exact
original order is false: `DeleteFormCommand.undo` re-appends the deleted
node at the end of its parent's child list, see the counterexample.) -/
theorem undo_sequence_restores_structure (w : World) (gs : List CmdSpec)
    (hwf : WFsmall w) (hv : ValidSeq w gs) :
    Wsim w.nextId w (undoList (execList gs w).1 (execList gs w).2) := by
  induction gs generalizing w with
  | nil => exact Wsim_refl w.nextId w
  | cons s rest ih =>
      cases hv with
      | cons _ _ _ hc hrest =>
          have hwf2 : WFsmall ((mkCmd s w).execute w).2 :=
            exec_WFsmall w s hwf hc
          have hIH := ih ((mkCmd s w).execute w).2 hwf2 hrest
          have hB : InstBound ((mkCmd s w).execute w).2.nextId
              ((mkCmd s w).execute w).1 := exec_InstBound w s hwf hc
          have hcong := undo_congr ((mkCmd s w).execute w).2.nextId
              ((mkCmd s w).execute w).1 hB ((mkCmd s w).execute w).2
              (undoList (execList rest ((mkCmd s w).execute w).2).1
                (execList rest ((mkCmd s w).execute w).2).2) hIH
          have hround := cmd_roundtrip w s hwf hc
          have hmono := Wsim_mono ((mkCmd s w).execute w).2.nextId w.nextId
              ((((mkCmd s w).execute w).1.undo ((mkCmd s w).execute w).2).2)
              ((((mkCmd s w).execute w).1.undo
                (undoList (execList rest ((mkCmd s w).execute w).2).1
                  (execList rest ((mkCmd s w).execute w).2).2)).2)
              (exec_nextId_mono w s hwf hc) hcong
          exact Wsim_trans w.nextId w
            ((((mkCmd s w).execute w).1.undo ((mkCmd s w).execute w).2).2)
            ((((mkCmd s w).execute w).1.undo
              (undoList (execList rest ((mkCmd s w).execute w).2).1
                (execList rest ((mkCmd s w).execute w).2).2)).2)
            hround hmono

/-- Counterexample to C1 as originally stated: on the three-node canvas
(root 0 with children `[1, 2]`), deleting node 1 and undoing restores the
canvas but re-appends node 1 at the END of the root's child list, so the
child order changes from `[1, 2]` to `[2, 1]`. -/
theorem undo_sequence_reorders_children :
    (ctrW.form 0).child_forms = [1, 2] ∧
    ((undoList (execList [CmdSpec.delete 1] ctrW).1
        (execList [CmdSpec.delete 1] ctrW).2).form 0).child_forms
      = [2, 1] := by decide

/-- Witness for the C1 theorem: the delete-then-undo sequence on the
three-node canvas is valid and the amended round-trip conclusion holds on
it. -/
theorem undo_sequence_restores_structure_witness :
    WFsmall ctrW ∧ ValidSeq ctrW [CmdSpec.delete 1] ∧
    Wsim ctrW.nextId ctrW
      (undoList (execList [CmdSpec.delete 1] ctrW).1
        (execList [CmdSpec.delete 1] ctrW).2) := by
  have hwf : WFsmall ctrW := by
    refine ⟨by decide, ?_, ?_⟩
    · intro j hj
      have hj' : 3 ≤ j := hj
      show decide (j < 3) = false
      exact decide_eq_false (by omega)
    · intro m hm
      rfl
  have hc : ValidCmd ctrW (CmdSpec.delete 1) := by
    refine ⟨by decide, by decide, by decide, by decide, ?_, ?_⟩
    · intro b hb ln hln
      have hb' : b ∈ ([1] : List Nat) := hb
      have hb1 : b = 1 := by simpa using hb'
      subst hb1
      exact absurd (show (none : Option Nat) = some ln from hln) (by simp)
    · intro p hp
      have hp' : (some 0 : Option Nat) = some p := hp
      injection hp' with h
      exact h ▸ ⟨by decide, by decide⟩
  have hv : ValidSeq ctrW [CmdSpec.delete 1] :=
    ValidSeq.cons ctrW (CmdSpec.delete 1) [] hc (ValidSeq.nil _)
  exact ⟨hwf, hv,
    undo_sequence_restores_structure ctrW [CmdSpec.delete 1] hwf hv⟩

/-- Witness for the C8 theorem: cloning node 1 of the concrete chain
(descendants 2 and 3, parent 0) creates the three clones 4, 5, 6 attached
under node 0. -/
theorem cloneBranch_contract_witness :
    ((∀ a, a < chainWorld.nextId →
        ∀ b ∈ (chainWorld.form a).child_forms,
          a < b ∧ b < chainWorld.nextId) ∧
      1 < chainWorld.nextId ∧
      (chainWorld.form 1).parent_form = some 0 ∧
      0 < 1) ∧
    ((((CloneBranchCommand.mk' 1).execute chainWorld).1.cloned_forms).length
        = (subtree_ids chainWorld chainWorld.nextId 1).length ∧
    ((CloneBranchCommand.mk' 1).execute chainWorld).2.nextId
        = chainWorld.nextId
          + (((CloneBranchCommand.mk' 1).execute
              chainWorld).1.cloned_forms).length ∧
    (∀ c ∈ ((CloneBranchCommand.mk' 1).execute chainWorld).1.cloned_forms,
      chainWorld.nextId ≤ c) ∧
    ((CloneBranchCommand.mk' 1).execute chainWorld).1.cloned_forms.head?
        = some chainWorld.nextId ∧
    ((((CloneBranchCommand.mk' 1).execute
        chainWorld).2.form chainWorld.nextId).parent_form = some 0) ∧
    ((((CloneBranchCommand.mk' 1).execute chainWorld).2.form 0).child_forms
        = (chainWorld.form 0).child_forms ++ [chainWorld.nextId]) ∧
    (∀ j, j < chainWorld.nextId → j ≠ 0 →
      ((CloneBranchCommand.mk' 1).execute chainWorld).2.form j
        = chainWorld.form j) ∧
    (∀ fuel2,
      formTree ((CloneBranchCommand.mk' 1).execute chainWorld).2 fuel2
          chainWorld.nextId
        = CTree.shift ((200 : Int), (600 : Int))
            (formTree chainWorld fuel2 1))) :=
  ⟨⟨by decide, by decide, by decide, by decide⟩,
   cloneBranch_contract chainWorld 1 0
    (by decide) (by decide) (by decide) (by decide)⟩

/-! ## The scene forest and the redo claim -/

theorem sceneForest_congr (w1 w2 : World)
    (hn : w2.nextId = w1.nextId)
    (hs : ∀ j, w2.inScene j = w1.inScene j)
    (hf : ∀ j, w2.form j = w1.form j) :
    ∀ fuel, sceneForest fuel w2 = sceneForest fuel w1 := by
  intro fuel
  show ((List.range w2.nextId).filter
      (fun j => w2.inScene j && ((w2.form j).parent_form).isNone)).map
      (formTree w2 fuel)
    = ((List.range w1.nextId).filter
      (fun j => w1.inScene j && ((w1.form j).parent_form).isNone)).map
      (formTree w1 fuel)
  rw [hn]
  have hfil : (List.range w1.nextId).filter
      (fun j => w2.inScene j && ((w2.form j).parent_form).isNone)
    = (List.range w1.nextId).filter
      (fun j => w1.inScene j && ((w1.form j).parent_form).isNone) :=
    List.filter_congr (fun j _ => by rw [hs j, hf j])
  rw [hfil]
  exact List.map_congr_left (fun j _ =>
    formTree_congr_on w1 w2 (fun _ => True) (fun j _ => hf j)
      (fun _ _ _ _ => trivial) fuel j trivial)

theorem formTree_leaf (w : World) (k : Nat)
    (hch : (w.form k).child_forms = []) :
    ∀ fuel, formTree w fuel k
      = CTree.node (w.form k).pos (w.form k).input_text (w.form k).conv_text
          (w.form k).model [] := by
  intro fuel
  cases fuel with
  | zero => rfl
  | succ f =>
      show CTree.node (w.form k).pos (w.form k).input_text (w.form k).conv_text
          (w.form k).model ((w.form k).child_forms.map (formTree w f)) = _
      rw [hch]
      rfl

/-- Payload trees agree between two worlds that differ only in one
parent's freshly appended last child (`ka` on one side, `kb` on the
other) when the two fresh subtrees render equal payload trees. -/
theorem formTree_one_new_child (wa wb : World) (pid ka kb : Nat) (g : Form)
    (L : List Nat) (S : Nat → Prop)
    (hpa : wa.form pid = { g with child_forms := L ++ [ka] })
    (hpb : wb.form pid = { g with child_forms := L ++ [kb] })
    (hagree : ∀ j, S j → j ≠ pid → wa.form j = wb.form j)
    (hclosed : ∀ j, S j → j ≠ pid → ∀ b ∈ (wb.form j).child_forms, S b)
    (hLS : ∀ c ∈ L, S c)
    (hk : ∀ fuel, formTree wa fuel ka = formTree wb fuel kb) :
    ∀ fuel j, S j → formTree wa fuel j = formTree wb fuel j := by
  intro fuel
  induction fuel with
  | zero =>
      intro j hS
      by_cases hj : j = pid
      · show CTree.node (wa.form j).pos (wa.form j).input_text
            (wa.form j).conv_text (wa.form j).model []
          = CTree.node (wb.form j).pos (wb.form j).input_text
            (wb.form j).conv_text (wb.form j).model []
        rw [hj, hpa, hpb]
      · show CTree.node (wa.form j).pos (wa.form j).input_text
            (wa.form j).conv_text (wa.form j).model []
          = CTree.node (wb.form j).pos (wb.form j).input_text
            (wb.form j).conv_text (wb.form j).model []
        rw [hagree j hS hj]
  | succ f ih =>
      intro j hS
      by_cases hj : j = pid
      · show CTree.node (wa.form j).pos (wa.form j).input_text
            (wa.form j).conv_text (wa.form j).model
            ((wa.form j).child_forms.map (formTree wa f))
          = CTree.node (wb.form j).pos (wb.form j).input_text
            (wb.form j).conv_text (wb.form j).model
            ((wb.form j).child_forms.map (formTree wb f))
        rw [hj, hpa, hpb]
        show CTree.node g.pos g.input_text g.conv_text g.model
            ((L ++ [ka]).map (formTree wa f))
          = CTree.node g.pos g.input_text g.conv_text g.model
            ((L ++ [kb]).map (formTree wb f))
        rw [List.map_append, List.map_append, List.map_singleton,
          List.map_singleton, hk f,
          List.map_congr_left (fun c hc => ih c (hLS c hc))]
      · show CTree.node (wa.form j).pos (wa.form j).input_text
            (wa.form j).conv_text (wa.form j).model
            ((wa.form j).child_forms.map (formTree wa f))
          = CTree.node (wb.form j).pos (wb.form j).input_text
            (wb.form j).conv_text (wb.form j).model
            ((wb.form j).child_forms.map (formTree wb f))
        rw [hagree j hS hj]
        congr 1
        exact List.map_congr_left (fun b hb => ih b (hclosed j hS hj b hb))

theorem filter_range_split (n d : Nat) (q : Nat → Bool) :
    (List.range (n + d)).filter q
      = (List.range n).filter q
        ++ (((List.range d).map (fun t => n + t)).filter q) := by
  rw [List.range_add, List.filter_append]

theorem filter_shifted_range_nil (n d : Nat) (q : Nat → Bool)
    (h : ∀ t, t < d → q (n + t) = false) :
    ((List.range d).map (fun t => n + t)).filter q = [] := by
  rw [List.filter_eq_nil_iff]
  intro a ha
  obtain ⟨t, ht, rfl⟩ := List.mem_map.mp ha
  rw [h t (List.mem_range.mp ht)]
  exact Bool.false_ne_true

theorem filter_shifted_range_head (n d : Nat) (q : Nat → Bool) (hd : 1 ≤ d)
    (h0 : q n = true) (h1 : ∀ t, 1 ≤ t → t < d → q (n + t) = false) :
    ((List.range d).map (fun t => n + t)).filter q = [n] := by
  rcases d with _ | d2
  · omega
  · rw [List.range_succ_eq_map, List.map_cons, List.map_map,
      List.filter_cons]
    have hnn : n + 0 = n := rfl
    rw [hnn, h0]
    show n :: ((List.range d2).map ((fun t => n + t) ∘ Nat.succ)).filter q = [n]
    have hnil : ((List.range d2).map ((fun t => n + t) ∘ Nat.succ)).filter q
        = [] := by
      rw [List.filter_eq_nil_iff]
      intro a ha
      obtain ⟨t, ht, rfl⟩ := List.mem_map.mp ha
      have ht2 : t < d2 := List.mem_range.mp ht
      show q (n + (t + 1)) ≠ true
      rw [h1 (t + 1) (by omega) (by omega)]
      exact Bool.false_ne_true
    rw [hnil]

/-- Redo of a move recreates exactly the executed world: the re-applied
`setPos(new_pos)` overwrites the undone `setPos(old_pos)`. -/
theorem move_redo_eq (w : World) (i : Nat) (op np : Pos) :
    ∀ fuel, sceneForest fuel (afterRedo (CmdSpec.move i op np) w)
      = sceneForest fuel (afterExec (CmdSpec.move i op np) w) := by
  intro fuel
  refine sceneForest_congr (afterExec (CmdSpec.move i op np) w)
    (afterRedo (CmdSpec.move i op np) w) rfl (fun j => rfl) ?_ fuel
  intro j
  show (((w.updForm i (fun f => { f with pos := np })).updForm i
      (fun f => { f with pos := op })).updForm i
      (fun f => { f with pos := np })).form j
    = (w.updForm i (fun f => { f with pos := np })).form j
  by_cases hj : j = i
  · simp [World.updForm, World.setForm, hj]
  · simp [World.updForm, World.setForm, hj]

/-- Exact characterization of `DeleteFormCommand.execute`: the subtree's
scene and link flags drop, the parent loses the node, everything else is
untouched. -/
theorem delete_exec_exact (w : World) (i : Nat)
    (hmem : ∀ p, (w.form i).parent_form = some p →
      i ∈ (w.form p).child_forms) :
    (afterExec (CmdSpec.delete i) w).nextId = w.nextId ∧
    (afterExec (CmdSpec.delete i) w).nextLink = w.nextLink ∧
    (∀ j, (afterExec (CmdSpec.delete i) w).inScene j
      = if j ∈ subtree_ids w w.nextId i then false else w.inScene j) ∧
    (∀ m, (afterExec (CmdSpec.delete i) w).linkInScene m
      = if m ∈ (subtree_ids w w.nextId i).filterMap
            (fun j => (w.form j).link_line)
        then false else w.linkInScene m) ∧
    (∀ j, (∀ p, (w.form i).parent_form = some p → j ≠ p) →
      (afterExec (CmdSpec.delete i) w).form j = w.form j) ∧
    (∀ p, (w.form i).parent_form = some p →
      (afterExec (CmdSpec.delete i) w).form p
        = { w.form p with
            child_forms := (w.form p).child_forms.erase i }) := by
  obtain ⟨D1, D2, D3, D4, D5, D6⟩ := delete_go_spec w.nextId w i
  have hred : afterExec (CmdSpec.delete i) w
      = ((DeleteFormCommand.mk' w i).execute w).2 := rfl
  rcases hpar : (w.form i).parent_form with _ | p
  · have hex : ((DeleteFormCommand.mk' w i).execute w).2
        = (delete_subtree_go w w.nextId i).1 := by
      show (match (w.form i).parent_form with
            | some p2 =>
                if i ∈ ((delete_subtree_go w w.nextId i).1.form p2).child_forms
                then (delete_subtree_go w w.nextId i).1.updForm p2
                  (fun f => { f with child_forms := f.child_forms.erase i })
                else (delete_subtree_go w w.nextId i).1
            | none => (delete_subtree_go w w.nextId i).1) = _
      rw [hpar]
    rw [hred, hex]
    refine ⟨D2, D3, D5, D6, ?_, ?_⟩
    · intro j _
      rw [D1]
    · intro p hp
      cases hp
  · have hpm : i ∈ (w.form p).child_forms := hmem p hpar
    have hex : ((DeleteFormCommand.mk' w i).execute w).2
        = (delete_subtree_go w w.nextId i).1.updForm p
            (fun f => { f with child_forms := f.child_forms.erase i }) := by
      show (match (w.form i).parent_form with
            | some p2 =>
                if i ∈ ((delete_subtree_go w w.nextId i).1.form p2).child_forms
                then (delete_subtree_go w w.nextId i).1.updForm p2
                  (fun f => { f with child_forms := f.child_forms.erase i })
                else (delete_subtree_go w w.nextId i).1
            | none => (delete_subtree_go w w.nextId i).1) = _
      rw [hpar]
      show (if i ∈ ((delete_subtree_go w w.nextId i).1.form p).child_forms
            then (delete_subtree_go w w.nextId i).1.updForm p
              (fun f => { f with child_forms := f.child_forms.erase i })
            else (delete_subtree_go w w.nextId i).1) = _
      rw [if_pos (by rw [D1]; exact hpm)]
    rw [hred, hex]
    refine ⟨?_, ?_, ?_, ?_, ?_, ?_⟩
    · rw [World.updForm_nextId, D2]
    · rw [World.updForm_nextLink, D3]
    · intro j
      rw [World.updForm_inScene, D5]
    · intro m
      rw [World.updForm_linkInScene, D6]
    · intro j hj
      have hjp : j ≠ p := hj p rfl
      rw [World.updForm_form, if_neg hjp, D1]
    · intro p2 hp2
      injection hp2 with hp3
      subst hp3
      rw [World.updForm_form, if_pos rfl]
      rw [D1]

/-- Exact characterization of the world after `execute; undo` of a
delete: scene, links and every widget are restored, except that the
parent's child list has the deleted node re-appended at the end. -/
theorem delete_undo_exact (w : World) (i : Nat) (hwf : WFsmall w)
    (hv : ValidCmd w (CmdSpec.delete i)) :
    (afterUndo (CmdSpec.delete i) w).2.nextId = w.nextId ∧
    (afterUndo (CmdSpec.delete i) w).2.nextLink = w.nextLink ∧
    (∀ j, (afterUndo (CmdSpec.delete i) w).2.inScene j = w.inScene j) ∧
    (∀ m, (afterUndo (CmdSpec.delete i) w).2.linkInScene m
      = w.linkInScene m) ∧
    (∀ j, (∀ p, (w.form i).parent_form = some p → j ≠ p) →
      (afterUndo (CmdSpec.delete i) w).2.form j = w.form j) ∧
    (∀ p, (w.form i).parent_form = some p →
      (afterUndo (CmdSpec.delete i) w).2.form p
        = { w.form p with child_forms :=
            ((w.form p).child_forms.erase i) ++ [i] }) := by
  obtain ⟨hwf1, hwf2, hwf3⟩ := hwf
  obtain ⟨hi, hsc, hnd, hallsc, hlinks, hparc⟩ := hv
  obtain ⟨D1, D2, D3, D4, D5, D6⟩ := delete_go_spec w.nextId w i
  have hLfacts := subtree_mem_facts w
    (fun a ha b hb => (hwf1 a ha b hb).1)
    (fun a ha b hb => (hwf1 a ha b hb).2) w.nextId i hi (by omega)
  have hco : ((fun t : Nat × Pos × Option Nat => t.1)
      ∘ (fun j => (j, (w.form j).pos, (w.form j).link_line)))
      = fun j : Nat => j := rfl
  have hkeys : ((delete_subtree_go w w.nextId i).2).map (fun t => t.1)
      = subtree_ids w w.nextId i := by
    rw [D4, List.map_map, hco]
    exact List.map_id _
  have hlinkset : ((delete_subtree_go w w.nextId i).2).filterMap
      (fun t => t.2.2)
      = (subtree_ids w w.nextId i).filterMap
          (fun j => (w.form j).link_line) := by
    rw [D4, List.filterMap_map]
    rfl
  have hkeymem : ∀ j, (j ∈ ((delete_subtree_go w w.nextId i).2).reverse.map
      (fun t => t.1)) ↔ j ∈ subtree_ids w w.nextId i := by
    intro j
    rw [List.map_reverse, List.mem_reverse, hkeys]
  have hlinkmem : ∀ m,
      (m ∈ ((delete_subtree_go w w.nextId i).2).reverse.filterMap
        (fun t => t.2.2))
      ↔ m ∈ (subtree_ids w w.nextId i).filterMap
          (fun j => (w.form j).link_line) := by
    intro m
    rw [List.filterMap_reverse, List.mem_reverse, hlinkset]
  have hndkeys : (((delete_subtree_go w w.nextId i).2).reverse.map
      (fun t => t.1)).Nodup := by
    rw [List.map_reverse, List.nodup_reverse, hkeys]
    exact hnd
  have hred : (afterUndo (CmdSpec.delete i) w).2
      = (((DeleteFormCommand.mk' w i).execute w).1.undo
          ((DeleteFormCommand.mk' w i).execute w).2).2 := rfl
  rw [hred]
  rcases hpar : (w.form i).parent_form with _ | p
  · have hex : (DeleteFormCommand.mk' w i).execute w
        = (({ form := i, parent_form := none,
              deleted_subtree := (delete_subtree_go w w.nextId i).2 } :
               DeleteFormCommand),
           (delete_subtree_go w w.nextId i).1) := by
      show (({ form := i, parent_form := (w.form i).parent_form,
               deleted_subtree := (delete_subtree_go w w.nextId i).2 } :
               DeleteFormCommand),
            match (w.form i).parent_form with
            | some p2 =>
                if i ∈ ((delete_subtree_go w w.nextId i).1.form p2).child_forms
                then (delete_subtree_go w w.nextId i).1.updForm p2
                  (fun f => { f with child_forms := f.child_forms.erase i })
                else (delete_subtree_go w w.nextId i).1
            | none => (delete_subtree_go w w.nextId i).1) = _
      rw [hpar]
    rw [hex]
    have hun : ((({ form := i, parent_form := none,
                    deleted_subtree := (delete_subtree_go w w.nextId i).2 } :
          DeleteFormCommand)).undo (delete_subtree_go w w.nextId i).1).2
        = ((delete_subtree_go w w.nextId i).2).reverse.foldl restore_step
            (delete_subtree_go w w.nextId i).1 := rfl
    rw [hun]
    obtain ⟨R1, R2, R3, R4, R5, R6⟩ := restore_go_spec
      ((delete_subtree_go w w.nextId i).2).reverse
      (delete_subtree_go w w.nextId i).1
    refine ⟨R1.trans D2, R2.trans D3, ?_, ?_, ?_, ?_⟩
    · intro j
      rw [R4 j]
      by_cases hjL : j ∈ subtree_ids w w.nextId i
      · rw [if_pos ((hkeymem j).mpr hjL)]
        exact (hallsc j hjL).symm
      · rw [if_neg (fun h => hjL ((hkeymem j).mp h)), D5 j, if_neg hjL]
    · intro m
      rw [R5 m]
      by_cases hmS : m ∈ (subtree_ids w w.nextId i).filterMap
          (fun j => (w.form j).link_line)
      · rw [if_pos ((hlinkmem m).mpr hmS)]
        obtain ⟨b, hb, hbl⟩ := List.mem_filterMap.mp hmS
        exact ((hlinks b hb m hbl).2).symm
      · rw [if_neg (fun h => hmS ((hlinkmem m).mp h)), D6 m, if_neg hmS]
    · intro j _
      by_cases hjL : j ∈ subtree_ids w w.nextId i
      · have htmem : (j, (w.form j).pos, (w.form j).link_line)
            ∈ ((delete_subtree_go w w.nextId i).2).reverse := by
          rw [List.mem_reverse, D4]
          exact List.mem_map.mpr ⟨j, hjL, rfl⟩
        have hform2 : (((delete_subtree_go w w.nextId i).2).reverse.foldl
            restore_step (delete_subtree_go w w.nextId i).1).form j
            = match (w.form j).link_line with
              | some ln => { (delete_subtree_go w w.nextId i).1.form j with
                  pos := (w.form j).pos, link_line := some ln }
              | none => { (delete_subtree_go w w.nextId i).1.form j with
                  pos := (w.form j).pos } := R6 hndkeys _ htmem
        rw [D1] at hform2
        rcases hll : (w.form j).link_line with _ | ln
        · rw [hll] at hform2
          rw [hform2]
        · rw [hll] at hform2
          rw [hform2]
          show { w.form j with pos := (w.form j).pos, link_line := some ln }
            = w.form j
          rw [← hll]
      · rw [R3 j (fun h => hjL ((hkeymem j).mp h)), D1]
    · intro p hp
      cases hp
  · have hpn : p < w.nextId := (hparc p hpar).1
    have hpmem : i ∈ (w.form p).child_forms := (hparc p hpar).2
    have hpi : p < i := (hwf1 p hpn i hpmem).1
    have hpnotL : p ∉ subtree_ids w w.nextId i :=
      fun hm => absurd (hLfacts.2 p hm).1 (by omega)
    have hex : (DeleteFormCommand.mk' w i).execute w
        = (({ form := i, parent_form := some p,
              deleted_subtree := (delete_subtree_go w w.nextId i).2 } :
               DeleteFormCommand),
           (delete_subtree_go w w.nextId i).1.updForm p
             (fun f => { f with child_forms := f.child_forms.erase i })) := by
      show (({ form := i, parent_form := (w.form i).parent_form,
               deleted_subtree := (delete_subtree_go w w.nextId i).2 } :
               DeleteFormCommand),
            match (w.form i).parent_form with
            | some p2 =>
                if i ∈ ((delete_subtree_go w w.nextId i).1.form p2).child_forms
                then (delete_subtree_go w w.nextId i).1.updForm p2
                  (fun f => { f with child_forms := f.child_forms.erase i })
                else (delete_subtree_go w w.nextId i).1
            | none => (delete_subtree_go w w.nextId i).1) = _
      rw [hpar]
      show (({ form := i, parent_form := some p,
               deleted_subtree := (delete_subtree_go w w.nextId i).2 } :
               DeleteFormCommand),
            if i ∈ ((delete_subtree_go w w.nextId i).1.form p).child_forms
            then (delete_subtree_go w w.nextId i).1.updForm p
              (fun f => { f with child_forms := f.child_forms.erase i })
            else (delete_subtree_go w w.nextId i).1) = _
      rw [if_pos (by rw [D1]; exact hpmem)]
    rw [hex]
    have hun : ((({ form := i, parent_form := some p,
                    deleted_subtree := (delete_subtree_go w w.nextId i).2 } :
          DeleteFormCommand)).undo
        ((delete_subtree_go w w.nextId i).1.updForm p
          (fun f => { f with child_forms := f.child_forms.erase i }))).2
        = (((delete_subtree_go w w.nextId i).2).reverse.foldl restore_step
            ((delete_subtree_go w w.nextId i).1.updForm p
              (fun f => { f with child_forms :=
                f.child_forms.erase i }))).updForm p
            (fun f => { f with child_forms := f.child_forms ++ [i] }) := rfl
    rw [hun]
    obtain ⟨R1, R2, R3, R4, R5, R6⟩ := restore_go_spec
      ((delete_subtree_go w w.nextId i).2).reverse
      ((delete_subtree_go w w.nextId i).1.updForm p
        (fun f => { f with child_forms := f.child_forms.erase i }))
    refine ⟨?_, ?_, ?_, ?_, ?_, ?_⟩
    · rw [World.updForm_nextId, R1, World.updForm_nextId, D2]
    · rw [World.updForm_nextLink, R2, World.updForm_nextLink, D3]
    · intro j
      rw [World.updForm_inScene, R4 j]
      by_cases hjL : j ∈ subtree_ids w w.nextId i
      · rw [if_pos ((hkeymem j).mpr hjL)]
        exact (hallsc j hjL).symm
      · rw [if_neg (fun h => hjL ((hkeymem j).mp h)), World.updForm_inScene,
          D5 j, if_neg hjL]
    · intro m
      rw [World.updForm_linkInScene, R5 m]
      by_cases hmS : m ∈ (subtree_ids w w.nextId i).filterMap
          (fun j => (w.form j).link_line)
      · rw [if_pos ((hlinkmem m).mpr hmS)]
        obtain ⟨b, hb, hbl⟩ := List.mem_filterMap.mp hmS
        exact ((hlinks b hb m hbl).2).symm
      · rw [if_neg (fun h => hmS ((hlinkmem m).mp h)),
          World.updForm_linkInScene, D6 m, if_neg hmS]
    · intro j hj
      have hjp : j ≠ p := hj p rfl
      rw [World.updForm_form, if_neg hjp]
      by_cases hjL : j ∈ subtree_ids w w.nextId i
      · have htmem : (j, (w.form j).pos, (w.form j).link_line)
            ∈ ((delete_subtree_go w w.nextId i).2).reverse := by
          rw [List.mem_reverse, D4]
          exact List.mem_map.mpr ⟨j, hjL, rfl⟩
        have hform2 := R6 hndkeys _ htmem
        have hbase : ((delete_subtree_go w w.nextId i).1.updForm p
            (fun f => { f with child_forms := f.child_forms.erase i })).form j
            = w.form j := by
          rw [World.updForm_form, if_neg hjp, D1]
        rw [hbase] at hform2
        rcases hll : (w.form j).link_line with _ | ln
        · rw [hll] at hform2
          rw [hform2]
        · rw [hll] at hform2
          rw [hform2]
          show { w.form j with pos := (w.form j).pos, link_line := some ln }
            = w.form j
          rw [← hll]
      · rw [R3 j (fun h => hjL ((hkeymem j).mp h)), World.updForm_form,
          if_neg hjp, D1]
    · intro p2 hp2
      injection hp2 with hp3
      subst hp3
      rw [World.updForm_form, if_pos rfl]
      have hbase : (((delete_subtree_go w w.nextId i).2).reverse.foldl
          restore_step ((delete_subtree_go w w.nextId i).1.updForm p
            (fun f => { f with child_forms := f.child_forms.erase i }))).form p
          = { w.form p with
              child_forms := (w.form p).child_forms.erase i } := by
        rw [R3 p (fun h => hpnotL ((hkeymem p).mp h)), World.updForm_form,
          if_pos rfl, D1]
      rw [hbase]

theorem delete_undo_fst_eq (c : DeleteFormCommand) (W : World) :
    (c.undo W).1 = c := by
  show (match c.parent_form with
        | some p => (c, (restore_subtree W c.deleted_subtree).updForm p
            (fun f => { f with child_forms := f.child_forms ++ [c.form] }))
        | none => (c, restore_subtree W c.deleted_subtree)).1 = c
  rcases c.parent_form with _ | p <;> rfl

theorem delete_exec_world (c1 c2 : DeleteFormCommand) (W : World)
    (h1 : c1.form = c2.form) (h2 : c1.parent_form = c2.parent_form) :
    (c1.execute W).2 = (c2.execute W).2 := by
  show (match c1.parent_form with
        | some p =>
            if c1.form ∈ ((delete_subtree_go W W.nextId
                c1.form).1.form p).child_forms
            then (delete_subtree_go W W.nextId c1.form).1.updForm p
              (fun f => { f with child_forms := f.child_forms.erase c1.form })
            else (delete_subtree_go W W.nextId c1.form).1
        | none => (delete_subtree_go W W.nextId c1.form).1)
    = (match c2.parent_form with
        | some p =>
            if c2.form ∈ ((delete_subtree_go W W.nextId
                c2.form).1.form p).child_forms
            then (delete_subtree_go W W.nextId c2.form).1.updForm p
              (fun f => { f with child_forms := f.child_forms.erase c2.form })
            else (delete_subtree_go W W.nextId c2.form).1
        | none => (delete_subtree_go W W.nextId c2.form).1)
  rw [h1, h2]

/-- Redo of a delete recreates exactly the executed world: the undo has
restored the whole subtree (with the node moved to the end of the
parent's child list), and re-deleting detaches exactly the same forms
and links again. -/
theorem delete_redo_eq (w : World) (i : Nat) (hwf : WFsmall w)
    (hv : RedoValid w (CmdSpec.delete i)) :
    ∀ fuel, sceneForest fuel (afterRedo (CmdSpec.delete i) w)
      = sceneForest fuel (afterExec (CmdSpec.delete i) w) := by
  obtain ⟨hvc, hcount⟩ := hv
  obtain ⟨hwf1, hwf2, hwf3⟩ := hwf
  obtain ⟨hi, hsc, hnd, hallsc, hlinks, hparc⟩ := hvc
  have hine : ∀ p, (w.form i).parent_form = some p → i ≠ p := by
    intro p hp hip
    have hpn := (hparc p hp).1
    have hpmem := (hparc p hp).2
    have hpi : p < i := (hwf1 p hpn i hpmem).1
    omega
  obtain ⟨U2, U3, U4, U5, U6, U7⟩ :=
    delete_undo_exact w i ⟨hwf1, hwf2, hwf3⟩
      ⟨hi, hsc, hnd, hallsc, hlinks, hparc⟩
  have hUi : (afterUndo (CmdSpec.delete i) w).2.form i = w.form i :=
    U6 i hine
  have hinst : (afterUndo (CmdSpec.delete i) w).1
      = CmdInst.delete
          ({ form := i,
             parent_form := (w.form i).parent_form,
             deleted_subtree := (delete_subtree_go w w.nextId i).2 }) := by
    show CmdInst.delete
        ((({ form := i,
             parent_form := (w.form i).parent_form,
             deleted_subtree := (delete_subtree_go w w.nextId i).2 } :
          DeleteFormCommand).undo
          ((mkCmd (CmdSpec.delete i) w).execute w).2).1) = _
    rw [delete_undo_fst_eq]
  have hru : afterRedo (CmdSpec.delete i) w
      = afterExec (CmdSpec.delete i) (afterUndo (CmdSpec.delete i) w).2 := by
    show ((afterUndo (CmdSpec.delete i) w).1.execute
        (afterUndo (CmdSpec.delete i) w).2).2 = _
    rw [hinst]
    show (({ form := i,
             parent_form := (w.form i).parent_form,
             deleted_subtree := (delete_subtree_go w w.nextId i).2 } :
          DeleteFormCommand).execute
        (afterUndo (CmdSpec.delete i) w).2).2 = _
    have hmain := delete_exec_world
      ({ form := i,
         parent_form := (w.form i).parent_form,
         deleted_subtree := (delete_subtree_go w w.nextId i).2 })
      (DeleteFormCommand.mk' (afterUndo (CmdSpec.delete i) w).2 i)
      (afterUndo (CmdSpec.delete i) w).2 rfl
      (by show (w.form i).parent_form
            = ((afterUndo (CmdSpec.delete i) w).2.form i).parent_form
          rw [hUi])
    rw [hmain]
    rfl
  intro fuel
  rw [hru]
  have hmem : ∀ p, (w.form i).parent_form = some p →
      i ∈ (w.form p).child_forms := fun p hp => (hparc p hp).2
  have hmemU : ∀ p,
      ((afterUndo (CmdSpec.delete i) w).2.form i).parent_form = some p →
      i ∈ ((afterUndo (CmdSpec.delete i) w).2.form p).child_forms := by
    intro p hp
    rw [hUi] at hp
    rw [U7 p hp]
    show i ∈ ((w.form p).child_forms.erase i) ++ [i]
    exact List.mem_append.mpr (Or.inr (List.mem_singleton.mpr rfl))
  obtain ⟨E1, E2, E3, E4, E5, E6⟩ := delete_exec_exact w i hmem
  obtain ⟨F1, F2, F3, F4, F5, F6⟩ :=
    delete_exec_exact (afterUndo (CmdSpec.delete i) w).2 i hmemU
  have hsubU : subtree_ids (afterUndo (CmdSpec.delete i) w).2
      (afterUndo (CmdSpec.delete i) w).2.nextId i
      = subtree_ids w w.nextId i := by
    rw [U2]
    exact subtree_ids_congr_on w (afterUndo (CmdSpec.delete i) w).2
      (fun j => i ≤ j ∧ j < w.nextId)
      (fun j hj => U6 j (fun p hp => by
        have hpn := (hparc p hp).1
        have hpi : p < i := (hwf1 p hpn i (hparc p hp).2).1
        omega))
      (fun j hj b hb => by
        have := hwf1 j hj.2 b hb
        omega)
      w.nextId i ⟨le_refl i, hi⟩
  refine sceneForest_congr (afterExec (CmdSpec.delete i) w)
    (afterExec (CmdSpec.delete i) (afterUndo (CmdSpec.delete i) w).2)
    (by rw [F1, U2, E1]) ?_ ?_ fuel
  · intro j
    rw [F3 j, E3 j, hsubU, U4 j]
  · intro j
    rcases hpar : (w.form i).parent_form with _ | p
    · have hfr : ∀ p2,
          ((afterUndo (CmdSpec.delete i) w).2.form i).parent_form = some p2 →
          j ≠ p2 := by
        intro p2 hp2
        rw [hUi, hpar] at hp2
        cases hp2
      rw [F5 j hfr, U6 j (fun p2 hp2 => by rw [hpar] at hp2; cases hp2),
        E5 j (fun p2 hp2 => by rw [hpar] at hp2; cases hp2)]
    · by_cases hjp : j = p
      · subst hjp
        have hpU : ((afterUndo (CmdSpec.delete i) w).2.form i).parent_form
            = some j := by rw [hUi, hpar]
        rw [F6 j hpU, U7 j hpar, E6 j hpar]
        show { { w.form j with child_forms :=
            ((w.form j).child_forms.erase i) ++ [i] } with child_forms :=
            (((w.form j).child_forms.erase i) ++ [i]).erase i }
          = { w.form j with
              child_forms := (w.form j).child_forms.erase i }
        have hcnt : List.count i ((w.form j).child_forms.erase i) = 0 := by
          have h1 := List.count_erase_self i (w.form j).child_forms
          have h2 := hcount j hpar
          omega
        have hnm : i ∉ (w.form j).child_forms.erase i :=
          List.count_eq_zero.mp hcnt
        rw [List.erase_append_right _ hnm, List.erase_cons_head,
          List.append_nil]
      · have hfr : ∀ p2,
            ((afterUndo (CmdSpec.delete i) w).2.form i).parent_form
              = some p2 → j ≠ p2 := by
          intro p2 hp2
          rw [hUi, hpar] at hp2
          injection hp2 with hp3
          subst hp3
          exact hjp
        rw [F5 j hfr, U6 j (fun p2 hp2 => by
            rw [hpar] at hp2
            injection hp2 with hp3
            subst hp3
            exact hjp),
          E5 j (fun p2 hp2 => by
            rw [hpar] at hp2
            injection hp2 with hp3
            subst hp3
            exact hjp)]

theorem sceneForest_eq (fuel : Nat) (X : World) :
    sceneForest fuel X
      = ((List.range X.nextId).filter
          (fun j => X.inScene j && ((X.form j).parent_form).isNone)).map
          (formTree X fuel) := rfl

theorem filter_pair_second (n : Nat) (q : Nat → Bool)
    (h0 : q n = false) (h1 : q (n + 1) = true) :
    ((List.range 2).map (fun t => n + t)).filter q = [n + 1] := by
  have e : ((List.range 2).map (fun t => n + t)) = [n, n + 1] := rfl
  rw [e]
  simp [List.filter_cons, h0, h1]

/-- Exact characterization of `CreateFormCommand.execute`: one fresh
widget enters the scene with the requested parent, position and model;
the parent gains it as last child; nothing else changes. -/
theorem create_exec_exact (w : World) (parent : Option Nat)
    (position : Option Pos) (model : String)
    (hpn : ∀ pid, parent = some pid → pid ≠ w.nextId) :
    (afterExec (CmdSpec.create parent position model) w).nextId
        = w.nextId + 1 ∧
    (∀ j, (afterExec (CmdSpec.create parent position model) w).inScene j
      = if j = w.nextId then true else w.inScene j) ∧
    (∀ j, j ≠ w.nextId → (∀ pid, parent = some pid → j ≠ pid) →
      (afterExec (CmdSpec.create parent position model) w).form j
        = w.form j) ∧
    (∀ pid, parent = some pid → pid ≠ w.nextId →
      (afterExec (CmdSpec.create parent position model) w).form pid
        = { w.form pid with child_forms :=
            (w.form pid).child_forms ++ [w.nextId] }) ∧
    (((afterExec (CmdSpec.create parent position model) w).form
        w.nextId).parent_form = parent ∧
     ((afterExec (CmdSpec.create parent position model) w).form
        w.nextId).child_forms = [] ∧
     ((afterExec (CmdSpec.create parent position model) w).form
        w.nextId).pos
        = (match position with | some pp => pp | none => ((0 : Int), (0 : Int))) ∧
     ((afterExec (CmdSpec.create parent position model) w).form
        w.nextId).input_text = "" ∧
     ((afterExec (CmdSpec.create parent position model) w).form
        w.nextId).conv_text = "" ∧
     ((afterExec (CmdSpec.create parent position model) w).form
        w.nextId).model = model) := by
  refine ⟨?_, ?_, ?_, ?_, ?_⟩
  · rcases parent with _ | pid <;> rcases position with _ | pp <;> rfl
  · intro j
    rcases parent with _ | pid <;> rcases position with _ | pp <;> rfl
  · intro j hj hjp
    rcases parent with _ | pid
    · rcases position with _ | pp <;>
        simp [afterExec, mkCmd, CmdInst.execute, CreateFormCommand.mk',
          CreateFormCommand.execute, hj]
    · have hjpid : j ≠ pid := hjp pid rfl
      rcases position with _ | pp <;>
        simp [afterExec, mkCmd, CmdInst.execute, CreateFormCommand.mk',
          CreateFormCommand.execute, hj, hjpid]
  · intro pid hp hne
    subst hp
    rcases position with _ | pp <;>
      simp [afterExec, mkCmd, CmdInst.execute, CreateFormCommand.mk',
        CreateFormCommand.execute, hne, Ne.symm hne]
  · rcases parent with _ | pid
    · refine ⟨?_, ?_, ?_, ?_, ?_, ?_⟩ <;> rcases position with _ | pp <;>
        simp [afterExec, mkCmd, CmdInst.execute, CreateFormCommand.mk',
          CreateFormCommand.execute, newFormWidget]
    · have h1 : pid ≠ w.nextId := hpn pid rfl
      refine ⟨?_, ?_, ?_, ?_, ?_, ?_⟩ <;> rcases position with _ | pp <;>
        simp [afterExec, mkCmd, CmdInst.execute, CreateFormCommand.mk',
          CreateFormCommand.execute, newFormWidget, h1, Ne.symm h1]

/-- Exact characterization of `execute; undo` of a create: the popped
command object is the pristine constructor capture again, and the canvas
is restored exactly on every pre-existing id (the abandoned widget keeps
its junk id off-scene). -/
theorem create_undo_exact (w : World) (parent : Option Nat)
    (position : Option Pos) (model : String) (hwf : WFsmall w)
    (hpid : ∀ pid, parent = some pid → pid < w.nextId) :
    (afterUndo (CmdSpec.create parent position model) w).1
      = CmdInst.create (CreateFormCommand.mk' parent position model) ∧
    (afterUndo (CmdSpec.create parent position model) w).2.nextId
      = w.nextId + 1 ∧
    (∀ j, (afterUndo (CmdSpec.create parent position model) w).2.inScene j
      = w.inScene j) ∧
    (∀ j, j ≠ w.nextId →
      (afterUndo (CmdSpec.create parent position model) w).2.form j
        = w.form j) := by
  obtain ⟨hwf1, hwf2, hwf3⟩ := hwf
  refine ⟨?_, ?_, ?_, ?_⟩
  · rcases parent with _ | pid <;> rcases position with _ | pp <;> rfl
  · rcases parent with _ | pid
    · rcases position with _ | pp <;>
        simp [afterUndo, mkCmd, CmdInst.execute, CmdInst.undo,
          CreateFormCommand.mk', CreateFormCommand.execute,
          CreateFormCommand.undo]
    · have hpidn : pid < w.nextId := hpid pid rfl
      rcases position with _ | pp <;>
        simp [afterUndo, mkCmd, CmdInst.execute, CmdInst.undo,
          CreateFormCommand.mk', CreateFormCommand.execute,
          CreateFormCommand.undo, show pid ≠ w.nextId by omega]
  · intro j
    rcases parent with _ | pid
    · by_cases hj : j = w.nextId
      · subst hj
        rw [hwf2 w.nextId (le_refl _)]
        rcases position with _ | pp <;>
          simp [afterUndo, mkCmd, CmdInst.execute, CmdInst.undo,
            CreateFormCommand.mk', CreateFormCommand.execute,
            CreateFormCommand.undo]
      · rcases position with _ | pp <;>
          simp [afterUndo, mkCmd, CmdInst.execute, CmdInst.undo,
            CreateFormCommand.mk', CreateFormCommand.execute,
            CreateFormCommand.undo, hj]
    · have hpidn : pid < w.nextId := hpid pid rfl
      by_cases hj : j = w.nextId
      · subst hj
        rw [hwf2 w.nextId (le_refl _)]
        rcases position with _ | pp <;>
          simp [afterUndo, mkCmd, CmdInst.execute, CmdInst.undo,
            CreateFormCommand.mk', CreateFormCommand.execute,
            CreateFormCommand.undo, show pid ≠ w.nextId by omega]
      · rcases position with _ | pp <;>
          simp [afterUndo, mkCmd, CmdInst.execute, CmdInst.undo,
            CreateFormCommand.mk', CreateFormCommand.execute,
            CreateFormCommand.undo, hj, show pid ≠ w.nextId by omega]
  · intro j hj
    rcases parent with _ | pid
    · rcases position with _ | pp <;>
        simp [afterUndo, mkCmd, CmdInst.execute, CmdInst.undo,
          CreateFormCommand.mk', CreateFormCommand.execute,
          CreateFormCommand.undo, hj]
    · have hpidn : pid < w.nextId := hpid pid rfl
      have hknot : w.nextId ∉ (w.form pid).child_forms :=
        fun hmem => absurd (hwf1 pid hpidn _ hmem).2 (by omega)
      have herase : ((w.form pid).child_forms ++ [w.nextId]).erase w.nextId
          = (w.form pid).child_forms := by
        rw [List.erase_append_right _ hknot, List.erase_cons_head,
          List.append_nil]
      by_cases hjp : j = pid
      · subst hjp
        rcases position with _ | pp <;>
          simp [afterUndo, mkCmd, CmdInst.execute, CmdInst.undo,
            CreateFormCommand.mk', CreateFormCommand.execute,
            CreateFormCommand.undo, show j ≠ w.nextId from hj, herase]
      · rcases position with _ | pp <;>
          simp [afterUndo, mkCmd, CmdInst.execute, CmdInst.undo,
            CreateFormCommand.mk', CreateFormCommand.execute,
            CreateFormCommand.undo, hj, hjp,
            show pid ≠ w.nextId by omega]

/-- Executing the same create against two canvases that agree on all
pre-existing ids yields the same payload forest: the fresh widget's id
differs but its payload and attachment are identical. -/
theorem create_exec_forest (w1 w2 : World) (parent : Option Nat)
    (position : Option Pos) (model : String)
    (hn : w2.nextId = w1.nextId + 1)
    (hwf1 : ∀ a, a < w1.nextId → ∀ b ∈ (w1.form a).child_forms,
      a < b ∧ b < w1.nextId)
    (hwfs : ∀ j, w1.nextId ≤ j → w1.inScene j = false)
    (hs : ∀ j, w2.inScene j = w1.inScene j)
    (hf : ∀ j, j ≠ w1.nextId → w2.form j = w1.form j)
    (hpid : ∀ pid, parent = some pid → pid < w1.nextId) :
    ∀ fuel,
      sceneForest fuel (afterExec (CmdSpec.create parent position model) w2)
        = sceneForest fuel
            (afterExec (CmdSpec.create parent position model) w1) := by
  obtain ⟨E1, E2, E3, E4, E5⟩ := create_exec_exact w1 parent position model
    (fun pid hp => by have := hpid pid hp; omega)
  obtain ⟨E5p, E5c, E5pos, E5in, E5cv, E5m⟩ := E5
  obtain ⟨F1, F2, F3, F4, F5⟩ := create_exec_exact w2 parent position model
    (fun pid hp => by have := hpid pid hp; omega)
  obtain ⟨F5p, F5c, F5pos, F5in, F5cv, F5m⟩ := F5
  have hk2 : w1.nextId + 1 = w2.nextId := hn.symm
  have hAfr : ∀ j, j < w1.nextId →
      (∀ pid, parent = some pid → j ≠ pid) →
      (afterExec (CmdSpec.create parent position model) w2).form j
        = w1.form j := by
    intro j hj hjp
    rw [F3 j (by omega) hjp, hf j (by omega)]
  have hBfr : ∀ j, j < w1.nextId →
      (∀ pid, parent = some pid → j ≠ pid) →
      (afterExec (CmdSpec.create parent position model) w1).form j
        = w1.form j := by
    intro j hj hjp
    rw [E3 j (by omega) hjp]
  have hAsc : ∀ j, j < w1.nextId →
      (afterExec (CmdSpec.create parent position model) w2).inScene j
        = w1.inScene j := by
    intro j hj
    rw [F2 j, if_neg (by omega), hs j]
  have hBsc : ∀ j, j < w1.nextId →
      (afterExec (CmdSpec.create parent position model) w1).inScene j
        = w1.inScene j := by
    intro j hj
    rw [E2 j, if_neg (by omega)]
  have hApar : ∀ j, j < w1.nextId →
      ((afterExec (CmdSpec.create parent position model) w2).form
        j).parent_form = (w1.form j).parent_form := by
    intro j hj
    rcases parent with _ | pid
    · rw [hAfr j hj (fun p hp => by cases hp)]
    · by_cases hjp : j = pid
      · subst hjp
        rw [F4 j rfl (by have := hpid j rfl; omega)]
        show (w2.form j).parent_form = _
        rw [hf j (by omega)]
      · rw [hAfr j hj (fun p hp => by
          injection hp with h5
          subst h5
          exact hjp)]
  have hBpar : ∀ j, j < w1.nextId →
      ((afterExec (CmdSpec.create parent position model) w1).form
        j).parent_form = (w1.form j).parent_form := by
    intro j hj
    rcases parent with _ | pid
    · rw [hBfr j hj (fun p hp => by cases hp)]
    · by_cases hjp : j = pid
      · subst hjp
        rw [E4 j rfl (by have := hpid j rfl; omega)]
      · rw [hBfr j hj (fun p hp => by
          injection hp with h5
          subst h5
          exact hjp)]
  have hleaf : ∀ fuel2,
      formTree (afterExec (CmdSpec.create parent position model) w2)
        fuel2 w2.nextId
      = formTree (afterExec (CmdSpec.create parent position model) w1)
        fuel2 w1.nextId := by
    intro fuel2
    rw [formTree_leaf _ _ F5c fuel2, formTree_leaf _ _ E5c fuel2,
      F5pos, E5pos, F5in, E5in, F5cv, E5cv, F5m, E5m]
  have htrees : ∀ fuel2 j, j < w1.nextId →
      formTree (afterExec (CmdSpec.create parent position model) w2)
        fuel2 j
      = formTree (afterExec (CmdSpec.create parent position model) w1)
        fuel2 j := by
    rcases parent with _ | pid
    · intro fuel2 j hj
      exact formTree_congr_on
        (afterExec (CmdSpec.create none position model) w1)
        (afterExec (CmdSpec.create none position model) w2)
        (fun j2 => j2 < w1.nextId)
        (fun j2 hj2 => by
          rw [hAfr j2 hj2 (fun p hp => by cases hp),
            hBfr j2 hj2 (fun p hp => by cases hp)])
        (fun j2 hj2 b hb => by
          rw [hBfr j2 hj2 (fun p hp => by cases hp)] at hb
          exact (hwf1 j2 hj2 b hb).2)
        fuel2 j hj
    · have hpidn : pid < w1.nextId := hpid pid rfl
      intro fuel2 j hj
      refine formTree_one_new_child
        (afterExec (CmdSpec.create (some pid) position model) w2)
        (afterExec (CmdSpec.create (some pid) position model) w1)
        pid w2.nextId w1.nextId (w1.form pid)
        ((w1.form pid).child_forms) (fun j2 => j2 < w1.nextId)
        ?_ ?_ ?_ ?_ ?_ ?_ fuel2 j hj
      · rw [F4 pid rfl (by omega), hf pid (by omega)]
      · rw [E4 pid rfl (by omega)]
      · intro j2 hj2 hj2p
        rw [hAfr j2 hj2 (fun p hp => by
            injection hp with h5
            subst h5
            exact hj2p),
          hBfr j2 hj2 (fun p hp => by
            injection hp with h5
            subst h5
            exact hj2p)]
      · intro j2 hj2 hj2p b hb
        rw [hBfr j2 hj2 (fun p hp => by
            injection hp with h5
            subst h5
            exact hj2p)] at hb
        exact (hwf1 j2 hj2 b hb).2
      · intro c hc
        exact (hwf1 pid hpidn c hc).2
      · exact hleaf
  intro fuel
  rw [sceneForest_eq, sceneForest_eq, E1, F1, hn,
    filter_range_split w1.nextId 2, filter_range_split w1.nextId 1,
    List.map_append, List.map_append]
  have hO : (List.range w1.nextId).filter
      (fun j => (afterExec (CmdSpec.create parent position model)
          w2).inScene j
        && (((afterExec (CmdSpec.create parent position model)
          w2).form j).parent_form).isNone)
    = (List.range w1.nextId).filter
      (fun j => (afterExec (CmdSpec.create parent position model)
          w1).inScene j
        && (((afterExec (CmdSpec.create parent position model)
          w1).form j).parent_form).isNone) := by
    refine List.filter_congr ?_
    intro j hj
    have hjn : j < w1.nextId := List.mem_range.mp hj
    rw [hAsc j hjn, hBsc j hjn, hApar j hjn, hBpar j hjn]
  rw [hO]
  have hOmap : ((List.range w1.nextId).filter
      (fun j => (afterExec (CmdSpec.create parent position model)
          w1).inScene j
        && (((afterExec (CmdSpec.create parent position model)
          w1).form j).parent_form).isNone)).map
      (formTree (afterExec (CmdSpec.create parent position model) w2) fuel)
    = ((List.range w1.nextId).filter
      (fun j => (afterExec (CmdSpec.create parent position model)
          w1).inScene j
        && (((afterExec (CmdSpec.create parent position model)
          w1).form j).parent_form).isNone)).map
      (formTree (afterExec (CmdSpec.create parent position model) w1)
        fuel) := by
    refine List.map_congr_left ?_
    intro j hj
    have hjn : j < w1.nextId :=
      List.mem_range.mp (List.mem_of_mem_filter hj)
    exact htrees fuel j hjn
  rw [hOmap]
  congr 1
  rcases parent with _ | pid
  · have hta : (((List.range 2).map (fun t => w1.nextId + t)).filter
        (fun j => (afterExec (CmdSpec.create none position model)
            w2).inScene j
          && (((afterExec (CmdSpec.create none position model)
            w2).form j).parent_form).isNone))
        = [w1.nextId + 1] := by
      refine filter_pair_second w1.nextId _ ?_ ?_
      · rw [F2 w1.nextId, if_neg (by omega), hs w1.nextId,
          hwfs w1.nextId (le_refl _)]
        rfl
      · rw [hk2, F2 w2.nextId, if_pos rfl, F5p]
        rfl
    have htb : (((List.range 1).map (fun t => w1.nextId + t)).filter
        (fun j => (afterExec (CmdSpec.create none position model)
            w1).inScene j
          && (((afterExec (CmdSpec.create none position model)
            w1).form j).parent_form).isNone))
        = [w1.nextId] := by
      refine filter_shifted_range_head w1.nextId 1 _ (le_refl _) ?_ ?_
      · rw [E2 w1.nextId, if_pos rfl, E5p]
        rfl
      · intro t h1 h2
        omega
    rw [hta, htb, List.map_singleton, List.map_singleton, hk2,
      hleaf fuel]
  · have hta : (((List.range 2).map (fun t => w1.nextId + t)).filter
        (fun j => (afterExec (CmdSpec.create (some pid) position model)
            w2).inScene j
          && (((afterExec (CmdSpec.create (some pid) position model)
            w2).form j).parent_form).isNone))
        = [] := by
      refine filter_shifted_range_nil w1.nextId 2 _ ?_
      intro t ht
      rcases t with _ | t2
      · show ((afterExec (CmdSpec.create (some pid) position model)
            w2).inScene (w1.nextId + 0)
          && (((afterExec (CmdSpec.create (some pid) position model)
            w2).form (w1.nextId + 0)).parent_form).isNone) = false
        have h0 : w1.nextId + 0 = w1.nextId := rfl
        rw [h0, F2 w1.nextId, if_neg (by omega), hs w1.nextId,
          hwfs w1.nextId (le_refl _)]
        rfl
      · have ht2 : t2 = 0 := by omega
        subst ht2
        show ((afterExec (CmdSpec.create (some pid) position model)
            w2).inScene (w1.nextId + 1)
          && (((afterExec (CmdSpec.create (some pid) position model)
            w2).form (w1.nextId + 1)).parent_form).isNone) = false
        rw [hk2, F5p]
        simp
    have htb : (((List.range 1).map (fun t => w1.nextId + t)).filter
        (fun j => (afterExec (CmdSpec.create (some pid) position model)
            w1).inScene j
          && (((afterExec (CmdSpec.create (some pid) position model)
            w1).form j).parent_form).isNone))
        = [] := by
      refine filter_shifted_range_nil w1.nextId 1 _ ?_
      intro t ht
      have ht0 : t = 0 := by omega
      subst ht0
      show ((afterExec (CmdSpec.create (some pid) position model)
          w1).inScene (w1.nextId + 0)
        && (((afterExec (CmdSpec.create (some pid) position model)
          w1).form (w1.nextId + 0)).parent_form).isNone) = false
      have h0 : w1.nextId + 0 = w1.nextId := rfl
      rw [h0, E5p]
      simp
    rw [hta, htb]
    rfl

/-- Redo of a create recreates an identical payload forest: the fresh
widget gets a different internal id but the same parent attachment,
position, empty texts and model. -/
theorem create_redo_eq (w : World) (parent : Option Nat)
    (position : Option Pos) (model : String) (hwf : WFsmall w)
    (hpid : ∀ pid, parent = some pid → pid < w.nextId) :
    ∀ fuel,
      sceneForest fuel (afterRedo (CmdSpec.create parent position model) w)
        = sceneForest fuel
            (afterExec (CmdSpec.create parent position model) w) := by
  obtain ⟨U0, U1, U2, U3⟩ := create_undo_exact w parent position model hwf hpid
  have hru : afterRedo (CmdSpec.create parent position model) w
      = afterExec (CmdSpec.create parent position model)
          (afterUndo (CmdSpec.create parent position model) w).2 := by
    show ((afterUndo (CmdSpec.create parent position model) w).1.execute
        (afterUndo (CmdSpec.create parent position model) w).2).2 = _
    rw [U0]
    rfl
  intro fuel
  rw [hru]
  exact create_exec_forest w
    (afterUndo (CmdSpec.create parent position model) w).2
    parent position model U1 (fun a ha b hb => hwf.1 a ha b hb)
    hwf.2.1 U2 U3 hpid fuel

theorem clone_undo_fst_eq (c : CloneBranchCommand) (W : World) :
    (c.undo W).1 = c := by
  show (match c.parent_form with
        | some p =>
            (c, (c.cloned_forms.foldl
              (fun v i => condLinkRemove (condSceneRemove v i) i)
              W).updForm p (fun f =>
                { f with
                  child_forms := f.child_forms.filter
                      (fun x => !c.cloned_forms.contains x) }))
        | none => (c, c.cloned_forms.foldl
            (fun v i => condLinkRemove (condSceneRemove v i) i) W)).1 = c
  rcases c.parent_form with _ | p <;> rfl

/-- Exact characterization of `execute; undo` of a clone: the popped
command object still records the clones, and the canvas is restored
exactly on every pre-existing id (the clones survive off-scene at their
junk ids). -/
theorem clone_undo_exact (w : World) (src : Nat) (hwf : WFsmall w)
    (hv : src < w.nextId ∧
      (∀ p, (w.form src).parent_form = some p → p < src)) :
    (afterUndo (CmdSpec.cloneBranch src) w).1
      = CmdInst.cloneBranch
          ({ source_form := src,
             cloned_forms := (clone_branch_go w w.nextId src
               ((w.form src).parent_form)
               ((w.form src).pos + ((200 : Int), (600 : Int)))).2,
             parent_form := (w.form src).parent_form }) ∧
    (afterUndo (CmdSpec.cloneBranch src) w).2.nextId
      = (clone_branch_go w w.nextId src ((w.form src).parent_form)
          ((w.form src).pos + ((200 : Int), (600 : Int)))).1.nextId ∧
    (∀ j, (afterUndo (CmdSpec.cloneBranch src) w).2.inScene j
      = w.inScene j) ∧
    (∀ j, j < w.nextId →
      (afterUndo (CmdSpec.cloneBranch src) w).2.form j = w.form j) := by
  obtain ⟨hwf1, hwf2, hwf3⟩ := hwf
  obtain ⟨hsrc, hpp⟩ := hv
  have hinst : (afterUndo (CmdSpec.cloneBranch src) w).1
      = CmdInst.cloneBranch
          ({ source_form := src,
             cloned_forms := (clone_branch_go w w.nextId src
               ((w.form src).parent_form)
               ((w.form src).pos + ((200 : Int), (600 : Int)))).2,
             parent_form := (w.form src).parent_form }) := by
    show CmdInst.cloneBranch
        ((({ source_form := src,
             cloned_forms := (clone_branch_go w w.nextId src
               ((w.form src).parent_form)
               ((w.form src).pos + ((200 : Int), (600 : Int)))).2,
             parent_form := (w.form src).parent_form } :
            CloneBranchCommand).undo
          ((mkCmd (CmdSpec.cloneBranch src) w).execute w).2).1) = _
    rw [clone_undo_fst_eq]
  refine ⟨hinst, ?_, ?_, ?_⟩
  all_goals
    have hred : (afterUndo (CmdSpec.cloneBranch src) w).2
        = ((((CloneBranchCommand.mk' src).execute w).1).undo
            (((CloneBranchCommand.mk' src).execute w).2)).2 := rfl
  all_goals rw [hred]
  all_goals
    have hex : (CloneBranchCommand.mk' src).execute w
        = (({ source_form := src,
              cloned_forms := (clone_branch_go w w.nextId src
                ((w.form src).parent_form)
                ((w.form src).pos + ((200 : Int), (600 : Int)))).2,
              parent_form := (w.form src).parent_form } :
              CloneBranchCommand),
           (clone_branch_go w w.nextId src ((w.form src).parent_form)
             ((w.form src).pos + ((200 : Int), (600 : Int)))).1) := rfl
  all_goals rw [hex]
  all_goals rcases hpar : (w.form src).parent_form with _ | p
  -- six goals now: nextId none/some, scene none/some, form none/some
  case _ =>
      -- nextId, parent none
      have hun : ((({ source_form := src,
                      cloned_forms := (clone_branch_go w w.nextId src none
                        ((w.form src).pos + ((200 : Int), (600 : Int)))).2,
                      parent_form := none } : CloneBranchCommand)).undo
          ((clone_branch_go w w.nextId src none
            ((w.form src).pos + ((200 : Int), (600 : Int)))).1)).2
          = ((clone_branch_go w w.nextId src none
              ((w.form src).pos + ((200 : Int), (600 : Int)))).2).foldl
              (fun v i => condLinkRemove (condSceneRemove v i) i)
              ((clone_branch_go w w.nextId src none
                ((w.form src).pos + ((200 : Int), (600 : Int)))).1) := rfl
      rw [hun]
      exact (clone_undo_fold_spec _ _).2.1
  case _ =>
      -- nextId, parent some
      have hun : ((({ source_form := src,
                      cloned_forms := (clone_branch_go w w.nextId src (some p)
                        ((w.form src).pos + ((200 : Int), (600 : Int)))).2,
                      parent_form := some p } : CloneBranchCommand)).undo
          ((clone_branch_go w w.nextId src (some p)
            ((w.form src).pos + ((200 : Int), (600 : Int)))).1)).2
          = (((clone_branch_go w w.nextId src (some p)
              ((w.form src).pos + ((200 : Int), (600 : Int)))).2).foldl
              (fun v i => condLinkRemove (condSceneRemove v i) i)
              ((clone_branch_go w w.nextId src (some p)
                ((w.form src).pos + ((200 : Int),
                  (600 : Int)))).1)).updForm p
              (fun f => { f with
                child_forms := f.child_forms.filter
                  (fun x => !((clone_branch_go w w.nextId src (some p)
                    ((w.form src).pos
                      + ((200 : Int), (600 : Int)))).2).contains x) }) := rfl
      rw [hun, World.updForm_nextId]
      exact (clone_undo_fold_spec _ _).2.1
  case _ =>
      -- scene, parent none
      intro j
      obtain ⟨G1, G2, G3, G4, G5, G6, G7, G8, G9, G10, G11, G12, G13, G14,
          G15, G16, G17, G18⟩ :=
        clone_go_spec w.nextId w src none
          ((w.form src).pos + ((200 : Int), (600 : Int))) w.nextId hsrc
          (le_refl _) (fun j2 _ hj2 => hwf1 j2 hj2) (by omega)
          (fun p0 h0 => by cases h0) (fun p0 h0 => by cases h0)
      obtain ⟨U1, U2, U3, U4, U5⟩ := clone_undo_fold_spec
        ((clone_branch_go w w.nextId src none
          ((w.form src).pos + ((200 : Int), (600 : Int)))).2)
        ((clone_branch_go w w.nextId src none
          ((w.form src).pos + ((200 : Int), (600 : Int)))).1)
      have hun : ((({ source_form := src,
                      cloned_forms := (clone_branch_go w w.nextId src none
                        ((w.form src).pos + ((200 : Int), (600 : Int)))).2,
                      parent_form := none } : CloneBranchCommand)).undo
          ((clone_branch_go w w.nextId src none
            ((w.form src).pos + ((200 : Int), (600 : Int)))).1)).2
          = ((clone_branch_go w w.nextId src none
              ((w.form src).pos + ((200 : Int), (600 : Int)))).2).foldl
              (fun v i => condLinkRemove (condSceneRemove v i) i)
              ((clone_branch_go w w.nextId src none
                ((w.form src).pos + ((200 : Int), (600 : Int)))).1) := rfl
      rw [hun, U4 j]
      by_cases hjC : j ∈ (clone_branch_go w w.nextId src none
          ((w.form src).pos + ((200 : Int), (600 : Int)))).2
      · rw [if_pos hjC]
        exact (hwf2 j (G5 j hjC).1).symm
      · rw [if_neg hjC, G9 j]
        intro ⟨hj1, hj2⟩
        exact hjC (G17 j hj1 hj2)
  case _ =>
      -- scene, parent some
      intro j
      have hps : p < src := hpp p hpar
      have hpn : p < w.nextId := by omega
      obtain ⟨G1, G2, G3, G4, G5, G6, G7, G8, G9, G10, G11, G12, G13, G14,
          G15, G16, G17, G18⟩ :=
        clone_go_spec w.nextId w src (some p)
          ((w.form src).pos + ((200 : Int), (600 : Int))) w.nextId hsrc
          (le_refl _) (fun j2 _ hj2 => hwf1 j2 hj2) (by omega)
          (fun p0 h0 => by
            injection h0 with h5
            subst h5
            exact Or.inl hps)
          (fun p0 h0 => by
            injection h0 with h5
            subst h5
            exact hpn)
      obtain ⟨U1, U2, U3, U4, U5⟩ := clone_undo_fold_spec
        ((clone_branch_go w w.nextId src (some p)
          ((w.form src).pos + ((200 : Int), (600 : Int)))).2)
        ((clone_branch_go w w.nextId src (some p)
          ((w.form src).pos + ((200 : Int), (600 : Int)))).1)
      have hun : ((({ source_form := src,
                      cloned_forms := (clone_branch_go w w.nextId src (some p)
                        ((w.form src).pos + ((200 : Int), (600 : Int)))).2,
                      parent_form := some p } : CloneBranchCommand)).undo
          ((clone_branch_go w w.nextId src (some p)
            ((w.form src).pos + ((200 : Int), (600 : Int)))).1)).2
          = (((clone_branch_go w w.nextId src (some p)
              ((w.form src).pos + ((200 : Int), (600 : Int)))).2).foldl
              (fun v i => condLinkRemove (condSceneRemove v i) i)
              ((clone_branch_go w w.nextId src (some p)
                ((w.form src).pos + ((200 : Int),
                  (600 : Int)))).1)).updForm p
              (fun f => { f with
                child_forms := f.child_forms.filter
                  (fun x => !((clone_branch_go w w.nextId src (some p)
                    ((w.form src).pos
                      + ((200 : Int), (600 : Int)))).2).contains x) }) := rfl
      rw [hun, World.updForm_inScene, U4 j]
      by_cases hjC : j ∈ (clone_branch_go w w.nextId src (some p)
          ((w.form src).pos + ((200 : Int), (600 : Int)))).2
      · rw [if_pos hjC]
        exact (hwf2 j (G5 j hjC).1).symm
      · rw [if_neg hjC, G9 j]
        intro ⟨hj1, hj2⟩
        exact hjC (G17 j hj1 hj2)
  case _ =>
      -- forms, parent none
      intro j hj
      obtain ⟨G1, G2, G3, G4, G5, G6, G7, G8, G9, G10, G11, G12, G13, G14,
          G15, G16, G17, G18⟩ :=
        clone_go_spec w.nextId w src none
          ((w.form src).pos + ((200 : Int), (600 : Int))) w.nextId hsrc
          (le_refl _) (fun j2 _ hj2 => hwf1 j2 hj2) (by omega)
          (fun p0 h0 => by cases h0) (fun p0 h0 => by cases h0)
      obtain ⟨U1, U2, U3, U4, U5⟩ := clone_undo_fold_spec
        ((clone_branch_go w w.nextId src none
          ((w.form src).pos + ((200 : Int), (600 : Int)))).2)
        ((clone_branch_go w w.nextId src none
          ((w.form src).pos + ((200 : Int), (600 : Int)))).1)
      have hun : ((({ source_form := src,
                      cloned_forms := (clone_branch_go w w.nextId src none
                        ((w.form src).pos + ((200 : Int), (600 : Int)))).2,
                      parent_form := none } : CloneBranchCommand)).undo
          ((clone_branch_go w w.nextId src none
            ((w.form src).pos + ((200 : Int), (600 : Int)))).1)).2
          = ((clone_branch_go w w.nextId src none
              ((w.form src).pos + ((200 : Int), (600 : Int)))).2).foldl
              (fun v i => condLinkRemove (condSceneRemove v i) i)
              ((clone_branch_go w w.nextId src none
                ((w.form src).pos + ((200 : Int), (600 : Int)))).1) := rfl
      rw [hun, U1, G6 j hj (fun p0 h0 => by cases h0)]
  case _ =>
      -- forms, parent some
      intro j hj
      have hps : p < src := hpp p hpar
      have hpn : p < w.nextId := by omega
      obtain ⟨G1, G2, G3, G4, G5, G6, G7, G8, G9, G10, G11, G12, G13, G14,
          G15, G16, G17, G18⟩ :=
        clone_go_spec w.nextId w src (some p)
          ((w.form src).pos + ((200 : Int), (600 : Int))) w.nextId hsrc
          (le_refl _) (fun j2 _ hj2 => hwf1 j2 hj2) (by omega)
          (fun p0 h0 => by
            injection h0 with h5
            subst h5
            exact Or.inl hps)
          (fun p0 h0 => by
            injection h0 with h5
            subst h5
            exact hpn)
      obtain ⟨U1, U2, U3, U4, U5⟩ := clone_undo_fold_spec
        ((clone_branch_go w w.nextId src (some p)
          ((w.form src).pos + ((200 : Int), (600 : Int)))).2)
        ((clone_branch_go w w.nextId src (some p)
          ((w.form src).pos + ((200 : Int), (600 : Int)))).1)
      have hun : ((({ source_form := src,
                      cloned_forms := (clone_branch_go w w.nextId src (some p)
                        ((w.form src).pos + ((200 : Int), (600 : Int)))).2,
                      parent_form := some p } : CloneBranchCommand)).undo
          ((clone_branch_go w w.nextId src (some p)
            ((w.form src).pos + ((200 : Int), (600 : Int)))).1)).2
          = (((clone_branch_go w w.nextId src (some p)
              ((w.form src).pos + ((200 : Int), (600 : Int)))).2).foldl
              (fun v i => condLinkRemove (condSceneRemove v i) i)
              ((clone_branch_go w w.nextId src (some p)
                ((w.form src).pos + ((200 : Int),
                  (600 : Int)))).1)).updForm p
              (fun f => { f with
                child_forms := f.child_forms.filter
                  (fun x => !((clone_branch_go w w.nextId src (some p)
                    ((w.form src).pos
                      + ((200 : Int), (600 : Int)))).2).contains x) }) := rfl
      rw [hun, World.updForm_form]
      by_cases hjp : j = p
      · rw [if_pos hjp, U1, G7 p rfl]
        have hfil : ((w.form p).child_forms ++ [w.nextId]).filter
            (fun x => !((clone_branch_go w w.nextId src (some p)
              ((w.form src).pos
                + ((200 : Int), (600 : Int)))).2).contains x)
            = (w.form p).child_forms := by
          rw [List.filter_append]
          have h1 : ((w.form p).child_forms).filter
              (fun x => !((clone_branch_go w w.nextId src (some p)
                ((w.form src).pos
                  + ((200 : Int), (600 : Int)))).2).contains x)
              = (w.form p).child_forms := by
            apply List.filter_eq_self.mpr
            intro b hb
            have hbn : b < w.nextId := (hwf1 p hpn b hb).2
            simp
            intro hbC
            exact absurd (G5 b hbC).1 (by omega)
          have hwN : w.nextId ∈ (clone_branch_go w w.nextId src (some p)
              ((w.form src).pos + ((200 : Int), (600 : Int)))).2 := by
            rcases hh : (clone_branch_go w w.nextId src (some p)
                ((w.form src).pos + ((200 : Int), (600 : Int)))).2
              with _ | ⟨a, l⟩
            · rw [hh] at G3
              exact absurd G3 (by simp)
            · rw [hh] at G3
              have ha : a = w.nextId := by
                injection G3
              rw [ha]
              exact List.mem_cons_self _ _
          have h2 : ([w.nextId] : List Nat).filter
              (fun x => !((clone_branch_go w w.nextId src (some p)
                ((w.form src).pos
                  + ((200 : Int), (600 : Int)))).2).contains x)
              = [] := by
            rw [List.filter_singleton]
            have hc : (!((clone_branch_go w w.nextId src (some p)
                ((w.form src).pos
                  + ((200 : Int), (600 : Int)))).2).contains w.nextId)
                = false := by
              simp [hwN]
            rw [hc]
            rfl
          rw [h1, h2, List.append_nil]
        rw [hjp]
        show ({ w.form p with
          child_forms := ((w.form p).child_forms ++ [w.nextId]).filter
            (fun x => !((clone_branch_go w w.nextId src (some p)
              ((w.form src).pos
                + ((200 : Int), (600 : Int)))).2).contains x) } : Form)
          = w.form p
        rw [hfil]
      · rw [if_neg hjp, U1, G6 j hj (fun p0 h0 => by
          injection h0 with h5
          subst h5
          exact hjp)]

theorem filter_shifted_range_single (n d t0 : Nat) (q : Nat → Bool)
    (ht0 : t0 < d) (h0 : q (n + t0) = true)
    (h1 : ∀ t, t < d → t ≠ t0 → q (n + t) = false) :
    ((List.range d).map (fun t => n + t)).filter q = [n + t0] := by
  have hd : d = t0 + (d - t0) := by omega
  rw [hd, List.range_add, List.map_append, List.map_map,
    List.filter_append]
  have hfirst : ((List.range t0).map (fun t => n + t)).filter q = [] := by
    rw [List.filter_eq_nil_iff]
    intro a ha
    obtain ⟨t, ht, rfl⟩ := List.mem_map.mp ha
    have ht2 : t < t0 := List.mem_range.mp ht
    rw [h1 t (by omega) (by omega)]
    exact Bool.false_ne_true
  have hcomp : ((fun t => n + t) ∘ (fun t => t0 + t))
      = fun t : Nat => (n + t0) + t := by
    funext t
    show n + (t0 + t) = (n + t0) + t
    omega
  rw [hcomp]
  have hsecond : ((List.range (d - t0)).map
      (fun t => (n + t0) + t)).filter q = [n + t0] := by
    refine filter_shifted_range_head (n + t0) (d - t0) q (by omega) h0 ?_
    intro t hta htb
    have he : (n + t0) + t = n + (t0 + t) := by omega
    rw [he, h1 (t0 + t) (by omega) (by omega)]
  rw [hfirst, hsecond, List.nil_append]

/-- Executing the same branch clone against two canvases that agree on
all pre-existing ids yields the same payload forest: the clones' ids
differ but their payload trees and attachment are identical. -/
theorem clone_exec_forest (w1 w2 : World) (src : Nat)
    (hwfc : ∀ a, a < w1.nextId → ∀ b ∈ (w1.form a).child_forms,
      a < b ∧ b < w1.nextId)
    (hwfs : ∀ j, w1.nextId ≤ j → w1.inScene j = false)
    (hn : w1.nextId ≤ w2.nextId)
    (hs : ∀ j, w2.inScene j = w1.inScene j)
    (hf : ∀ j, j < w1.nextId → w2.form j = w1.form j)
    (hsrc : src < w1.nextId)
    (hpp : ∀ p, (w1.form src).parent_form = some p → p < src) :
    ∀ fuel, sceneForest fuel (afterExec (CmdSpec.cloneBranch src) w2)
      = sceneForest fuel (afterExec (CmdSpec.cloneBranch src) w1) := by
  have hq2src : w2.form src = w1.form src := hf src hsrc
  have hexec1 : afterExec (CmdSpec.cloneBranch src) w1
      = (clone_branch_go w1 w1.nextId src ((w1.form src).parent_form)
          ((w1.form src).pos + ((200 : Int), (600 : Int)))).1 := rfl
  have hexec2 : afterExec (CmdSpec.cloneBranch src) w2
      = (clone_branch_go w2 w2.nextId src ((w1.form src).parent_form)
          ((w1.form src).pos + ((200 : Int), (600 : Int)))).1 := by
    show (clone_branch_go w2 w2.nextId src ((w2.form src).parent_form)
        ((w2.form src).pos + ((200 : Int), (600 : Int)))).1 = _
    rw [hq2src]
  have hsrcTree2 : ∀ f2, formTree w2 f2 src = formTree w1 f2 src := fun f2 =>
    formTree_congr_on w1 w2 (fun j => src ≤ j ∧ j < w1.nextId)
      (fun j hj => hf j hj.2)
      (fun j hj b hb => by
        have := hwfc j hj.2 b hb
        omega)
      f2 src ⟨le_refl _, hsrc⟩
  intro fuel
  rw [hexec1, hexec2]
  rcases hpar : (w1.form src).parent_form with _ | p
  · obtain ⟨G1, G2, G3, G4, G5, G6, G7, G8, G9, G10, G11, G12, G13, G14,
        G15, G16, G17, G18⟩ :=
      clone_go_spec w1.nextId w1 src none
        ((w1.form src).pos + ((200 : Int), (600 : Int))) w1.nextId hsrc
        (le_refl _) (fun j _ hj2 => hwfc j hj2) (by omega)
        (fun p0 h0 => by cases h0) (fun p0 h0 => by cases h0)
    obtain ⟨H1, H2, H3, H4, H5, H6, H7, H8, H9, H10, H11, H12, H13, H14,
        H15, H16, H17, H18⟩ :=
      clone_go_spec w2.nextId w2 src none
        ((w1.form src).pos + ((200 : Int), (600 : Int))) w1.nextId hsrc
        hn (fun j _ hj2 => by rw [hf j hj2]; exact hwfc j hj2) (by omega)
        (fun p0 h0 => by cases h0) (fun p0 h0 => by cases h0)
    set A : World := (clone_branch_go w2 w2.nextId src none
      ((w1.form src).pos + ((200 : Int), (600 : Int)))).1 with hA
    set CA : List Nat := (clone_branch_go w2 w2.nextId src none
      ((w1.form src).pos + ((200 : Int), (600 : Int)))).2 with hCA
    set B : World := (clone_branch_go w1 w1.nextId src none
      ((w1.form src).pos + ((200 : Int), (600 : Int)))).1 with hB
    set CB : List Nat := (clone_branch_go w1 w1.nextId src none
      ((w1.form src).pos + ((200 : Int), (600 : Int)))).2 with hCB
    have hAn2 : A.nextId = w1.nextId + (w2.nextId - w1.nextId + CA.length) := by
      rw [H1]
      omega
    have hAfr : ∀ j, j < w1.nextId → A.form j = w1.form j := by
      intro j hj
      rw [H6 j (by omega) (fun p0 h0 => by cases h0), hf j hj]
    have hBfr : ∀ j, j < w1.nextId → B.form j = w1.form j := by
      intro j hj
      rw [G6 j hj (fun p0 h0 => by cases h0)]
    have hAsc : ∀ j, j < w1.nextId → A.inScene j = w1.inScene j := by
      intro j hj
      rw [H9 j (by
        intro hh
        have := hh.1
        omega), hs j]
    have hBsc : ∀ j, j < w1.nextId → B.inScene j = w1.inScene j := by
      intro j hj
      rw [G9 j (by
        intro hh
        have := hh.1
        omega)]
    have hk : ∀ f2, formTree A f2 w2.nextId = formTree B f2 w1.nextId := by
      intro f2
      have hA15 := H15 A (fun j _ _ => rfl) f2
      have hB15 := G15 B (fun j _ _ => rfl) f2
      rw [hA15, hB15, hq2src, pos_add_sub_cancel_left, hsrcTree2 f2]
    have htreesO : ∀ j, j < w1.nextId →
        formTree A fuel j = formTree B fuel j := by
      intro j hj
      exact formTree_congr_on B A (fun j2 => j2 < w1.nextId)
        (fun j2 hj2 => by rw [hAfr j2 hj2, hBfr j2 hj2])
        (fun j2 hj2 b hb => by
          rw [hBfr j2 hj2] at hb
          exact (hwfc j2 hj2 b hb).2)
        fuel j hj
    rw [sceneForest_eq, sceneForest_eq, G1, hAn2,
      filter_range_split w1.nextId (w2.nextId - w1.nextId + CA.length),
      filter_range_split w1.nextId CB.length,
      List.map_append, List.map_append]
    have hO : (List.range w1.nextId).filter
        (fun j => A.inScene j && ((A.form j).parent_form).isNone)
      = (List.range w1.nextId).filter
        (fun j => B.inScene j && ((B.form j).parent_form).isNone) := by
      refine List.filter_congr ?_
      intro j hj
      have hjn : j < w1.nextId := List.mem_range.mp hj
      rw [hAsc j hjn, hBsc j hjn, hAfr j hjn, hBfr j hjn]
    have htailA : ((List.range (w2.nextId - w1.nextId + CA.length)).map
        (fun t => w1.nextId + t)).filter
        (fun j => A.inScene j && ((A.form j).parent_form).isNone)
        = [w2.nextId] := by
      have he : w1.nextId + (w2.nextId - w1.nextId) = w2.nextId := by omega
      have hsingle := filter_shifted_range_single w1.nextId
        (w2.nextId - w1.nextId + CA.length) (w2.nextId - w1.nextId)
        (fun j => A.inScene j && ((A.form j).parent_form).isNone)
        (by have := H2; omega) ?_ ?_
      · rw [hsingle, he]
      · rw [he]
        show (A.inScene w2.nextId
          && ((A.form w2.nextId).parent_form).isNone) = true
        rw [H10 w2.nextId (le_refl _) (by rw [H1]; have := H2; omega), H8]
        rfl
      · intro t ht htne
        show (A.inScene (w1.nextId + t)
          && ((A.form (w1.nextId + t)).parent_form).isNone) = false
        by_cases hlow : t < w2.nextId - w1.nextId
        · rw [H9 (w1.nextId + t) (by
            intro hh
            have := hh.1
            omega), hs, hwfs (w1.nextId + t) (by omega)]
          rfl
        · have hge : w2.nextId ≤ w1.nextId + t := by omega
          have hlt : w1.nextId + t < A.nextId := by
            rw [hAn2]
            omega
          have hmem := H17 (w1.nextId + t) hge hlt
          have hne2 : w1.nextId + t ≠ w2.nextId := by omega
          obtain ⟨q, hq1, hq2, hq3⟩ := H18 (w1.nextId + t) hmem hne2
          rw [hq1]
          simp
    have htailB : ((List.range CB.length).map
        (fun t => w1.nextId + t)).filter
        (fun j => B.inScene j && ((B.form j).parent_form).isNone)
        = [w1.nextId] := by
      refine filter_shifted_range_head w1.nextId CB.length _ G2 ?_ ?_
      · show (B.inScene w1.nextId
          && ((B.form w1.nextId).parent_form).isNone) = true
        rw [G10 w1.nextId (le_refl _) (by rw [G1]; have := G2; omega), G8]
        rfl
      · intro t h1t h2t
        show (B.inScene (w1.nextId + t)
          && ((B.form (w1.nextId + t)).parent_form).isNone) = false
        have hge : w1.nextId ≤ w1.nextId + t := by omega
        have hlt : w1.nextId + t < B.nextId := by
          rw [G1]
          omega
        have hmem := G17 (w1.nextId + t) hge hlt
        obtain ⟨q, hq1, hq2, hq3⟩ := G18 (w1.nextId + t) hmem (by omega)
        rw [hq1]
        simp
    rw [htailA, htailB, hO, List.map_singleton, List.map_singleton,
      hk fuel]
    have hmapO : ((List.range w1.nextId).filter
        (fun j => B.inScene j && ((B.form j).parent_form).isNone)).map
        (formTree A fuel)
      = ((List.range w1.nextId).filter
        (fun j => B.inScene j && ((B.form j).parent_form).isNone)).map
        (formTree B fuel) := by
      refine List.map_congr_left ?_
      intro j hj
      exact htreesO j (List.mem_range.mp (List.mem_of_mem_filter hj))
    rw [hmapO]
  · have hps : p < src := hpp p hpar
    have hplt : p < w1.nextId := by omega
    obtain ⟨G1, G2, G3, G4, G5, G6, G7, G8, G9, G10, G11, G12, G13, G14,
        G15, G16, G17, G18⟩ :=
      clone_go_spec w1.nextId w1 src (some p)
        ((w1.form src).pos + ((200 : Int), (600 : Int))) w1.nextId hsrc
        (le_refl _) (fun j _ hj2 => hwfc j hj2) (by omega)
        (fun p0 h0 => by
          injection h0 with h5
          subst h5
          exact Or.inl hps)
        (fun p0 h0 => by
          injection h0 with h5
          subst h5
          omega)
    obtain ⟨H1, H2, H3, H4, H5, H6, H7, H8, H9, H10, H11, H12, H13, H14,
        H15, H16, H17, H18⟩ :=
      clone_go_spec w2.nextId w2 src (some p)
        ((w1.form src).pos + ((200 : Int), (600 : Int))) w1.nextId hsrc
        hn (fun j _ hj2 => by rw [hf j hj2]; exact hwfc j hj2) (by omega)
        (fun p0 h0 => by
          injection h0 with h5
          subst h5
          exact Or.inl hps)
        (fun p0 h0 => by
          injection h0 with h5
          subst h5
          omega)
    set A : World := (clone_branch_go w2 w2.nextId src (some p)
      ((w1.form src).pos + ((200 : Int), (600 : Int)))).1 with hA
    set CA : List Nat := (clone_branch_go w2 w2.nextId src (some p)
      ((w1.form src).pos + ((200 : Int), (600 : Int)))).2 with hCA
    set B : World := (clone_branch_go w1 w1.nextId src (some p)
      ((w1.form src).pos + ((200 : Int), (600 : Int)))).1 with hB
    set CB : List Nat := (clone_branch_go w1 w1.nextId src (some p)
      ((w1.form src).pos + ((200 : Int), (600 : Int)))).2 with hCB
    have hAn2 : A.nextId = w1.nextId + (w2.nextId - w1.nextId + CA.length) := by
      rw [H1]
      omega
    have hAfr : ∀ j, j < w1.nextId → j ≠ p → A.form j = w1.form j := by
      intro j hj hjp
      rw [H6 j (by omega) (fun p0 h0 => by
        injection h0 with h5
        subst h5
        exact hjp), hf j hj]
    have hBfr : ∀ j, j < w1.nextId → j ≠ p → B.form j = w1.form j := by
      intro j hj hjp
      rw [G6 j hj (fun p0 h0 => by
        injection h0 with h5
        subst h5
        exact hjp)]
    have hApf : A.form p = { w1.form p with
        child_forms := (w1.form p).child_forms ++ [w2.nextId] } := by
      rw [H7 p rfl, hf p hplt]
    have hBpf : B.form p = { w1.form p with
        child_forms := (w1.form p).child_forms ++ [w1.nextId] } := by
      rw [G7 p rfl]
    have hAsc : ∀ j, j < w1.nextId → A.inScene j = w1.inScene j := by
      intro j hj
      rw [H9 j (by
        intro hh
        have := hh.1
        omega), hs j]
    have hBsc : ∀ j, j < w1.nextId → B.inScene j = w1.inScene j := by
      intro j hj
      rw [G9 j (by
        intro hh
        have := hh.1
        omega)]
    have hk : ∀ f2, formTree A f2 w2.nextId = formTree B f2 w1.nextId := by
      intro f2
      have hA15 := H15 A (fun j _ _ => rfl) f2
      have hB15 := G15 B (fun j _ _ => rfl) f2
      rw [hA15, hB15, hq2src, pos_add_sub_cancel_left, hsrcTree2 f2]
    have htreesO : ∀ j, j < w1.nextId →
        formTree A fuel j = formTree B fuel j := by
      intro j hj
      refine formTree_one_new_child A B p w2.nextId w1.nextId (w1.form p)
        ((w1.form p).child_forms) (fun j2 => j2 < w1.nextId)
        hApf hBpf ?_ ?_ ?_ hk fuel j hj
      · intro j2 hj2 hj2p
        rw [hAfr j2 hj2 hj2p, hBfr j2 hj2 hj2p]
      · intro j2 hj2 hj2p b hb
        rw [hBfr j2 hj2 hj2p] at hb
        exact (hwfc j2 hj2 b hb).2
      · intro c hc
        exact (hwfc p hplt c hc).2
    rw [sceneForest_eq, sceneForest_eq, G1, hAn2,
      filter_range_split w1.nextId (w2.nextId - w1.nextId + CA.length),
      filter_range_split w1.nextId CB.length,
      List.map_append, List.map_append]
    have hO : (List.range w1.nextId).filter
        (fun j => A.inScene j && ((A.form j).parent_form).isNone)
      = (List.range w1.nextId).filter
        (fun j => B.inScene j && ((B.form j).parent_form).isNone) := by
      refine List.filter_congr ?_
      intro j hj
      have hjn : j < w1.nextId := List.mem_range.mp hj
      rw [hAsc j hjn, hBsc j hjn]
      by_cases hjp : j = p
      · subst hjp
        rw [hApf, hBpf]
      · rw [hAfr j hjn hjp, hBfr j hjn hjp]
    have htailA : ((List.range (w2.nextId - w1.nextId + CA.length)).map
        (fun t => w1.nextId + t)).filter
        (fun j => A.inScene j && ((A.form j).parent_form).isNone)
        = [] := by
      refine filter_shifted_range_nil w1.nextId
        (w2.nextId - w1.nextId + CA.length) _ ?_
      intro t ht
      show (A.inScene (w1.nextId + t)
        && ((A.form (w1.nextId + t)).parent_form).isNone) = false
      by_cases hlow : t < w2.nextId - w1.nextId
      · rw [H9 (w1.nextId + t) (by
          intro hh
          have := hh.1
          omega), hs, hwfs (w1.nextId + t) (by omega)]
        rfl
      · have hge : w2.nextId ≤ w1.nextId + t := by omega
        have hlt : w1.nextId + t < A.nextId := by
          rw [hAn2]
          omega
        by_cases hroot : w1.nextId + t = w2.nextId
        · rw [hroot, H8]
          simp
        · have hmem := H17 (w1.nextId + t) hge hlt
          obtain ⟨q, hq1, hq2, hq3⟩ := H18 (w1.nextId + t) hmem hroot
          rw [hq1]
          simp
    have htailB : ((List.range CB.length).map
        (fun t => w1.nextId + t)).filter
        (fun j => B.inScene j && ((B.form j).parent_form).isNone)
        = [] := by
      refine filter_shifted_range_nil w1.nextId CB.length _ ?_
      intro t ht
      show (B.inScene (w1.nextId + t)
        && ((B.form (w1.nextId + t)).parent_form).isNone) = false
      by_cases hroot : t = 0
      · subst hroot
        have h0 : w1.nextId + 0 = w1.nextId := rfl
        rw [h0, G8]
        simp
      · have hge : w1.nextId ≤ w1.nextId + t := by omega
        have hlt : w1.nextId + t < B.nextId := by
          rw [G1]
          omega
        have hmem := G17 (w1.nextId + t) hge hlt
        obtain ⟨q, hq1, hq2, hq3⟩ := G18 (w1.nextId + t) hmem (by omega)
        rw [hq1]
        simp
    rw [htailA, htailB, hO]
    have hmapO : ((List.range w1.nextId).filter
        (fun j => B.inScene j && ((B.form j).parent_form).isNone)).map
        (formTree A fuel)
      = ((List.range w1.nextId).filter
        (fun j => B.inScene j && ((B.form j).parent_form).isNone)).map
        (formTree B fuel) := by
      refine List.map_congr_left ?_
      intro j hj
      exact htreesO j (List.mem_range.mp (List.mem_of_mem_filter hj))
    rw [hmapO]
    rfl

/-- Redo of a branch clone recreates an identical payload forest: the
undo restored the canvas exactly on pre-existing ids, so re-cloning the
unchanged source subtree produces payload-identical clones (at fresh
ids). -/
theorem clone_redo_eq (w : World) (src : Nat) (hwf : WFsmall w)
    (hv : RedoValid w (CmdSpec.cloneBranch src)) :
    ∀ fuel, sceneForest fuel (afterRedo (CmdSpec.cloneBranch src) w)
      = sceneForest fuel (afterExec (CmdSpec.cloneBranch src) w) := by
  obtain ⟨hsrc, hpp⟩ := hv
  obtain ⟨CU0, CU1, CU2, CU3⟩ := clone_undo_exact w src hwf ⟨hsrc, hpp⟩
  have hru : afterRedo (CmdSpec.cloneBranch src) w
      = afterExec (CmdSpec.cloneBranch src)
          (afterUndo (CmdSpec.cloneBranch src) w).2 := by
    show ((afterUndo (CmdSpec.cloneBranch src) w).1.execute
        (afterUndo (CmdSpec.cloneBranch src) w).2).2 = _
    rw [CU0]
    rfl
  have hn : w.nextId ≤ (afterUndo (CmdSpec.cloneBranch src) w).2.nextId := by
    rw [CU1]
    exact exec_nextId_mono w (CmdSpec.cloneBranch src) hwf ⟨hsrc, hpp⟩
  intro fuel
  rw [hru]
  exact clone_exec_forest w (afterUndo (CmdSpec.cloneBranch src) w).2 src
    (fun a ha b hb => hwf.1 a ha b hb) hwf.2.1 hn CU2 CU3 hsrc hpp fuel

/-- C2: for every command (create, delete-subtree, move, clone-branch),
routing `execute(cmd); undo(); redo()` through the `CommandInvoker`
yields a canvas whose payload forest — the on-scene roots in order with,
for every node, its position, prompt text, displayed conversation text,
model and child subtrees — is identical to the forest immediately after
the original `execute(cmd)`: redo re-runs the popped command object, and
on the undo-restored canvas that re-execution attaches the same nodes
with the same parent/children links, positions and content (create and
clone rebuild payload-identical fresh widgets; delete and move reproduce
the executed state exactly). -/
theorem execute_undo_redo_forest (w : World) (s : CmdSpec)
    (inv : CommandInvoker) (hwf : WFsmall w) (hv : RedoValid w s)
    (fuel : Nat) :
    sceneForest fuel
      ((((invokeGesture s inv w).1.undoStep
          (invokeGesture s inv w).2).1.redoStep
        ((invokeGesture s inv w).1.undoStep
          (invokeGesture s inv w).2).2).2)
      = sceneForest fuel (invokeGesture s inv w).2 := by
  have hlast : (inv.history ++ [((mkCmd s w).execute w).1]).getLast?
      = some ((mkCmd s w).execute w).1 := by
    first
    | exact List.getLast?_concat _
    | simp
  have hu : CommandInvoker.undoStep
      ({ history := inv.history ++ [((mkCmd s w).execute w).1],
         redo_stack := [] }) ((mkCmd s w).execute w).2
      = ({ history := (inv.history ++ [((mkCmd s w).execute w).1]).dropLast,
           redo_stack := [(((mkCmd s w).execute w).1.undo
             ((mkCmd s w).execute w).2).1] },
         (((mkCmd s w).execute w).1.undo ((mkCmd s w).execute w).2).2) := by
    show (match (inv.history ++ [((mkCmd s w).execute w).1]).getLast? with
          | none =>
              (({ history := inv.history ++ [((mkCmd s w).execute w).1],
                  redo_stack := [] } : CommandInvoker),
               ((mkCmd s w).execute w).2)
          | some cmd =>
              ({ history := (inv.history
                   ++ [((mkCmd s w).execute w).1]).dropLast,
                 redo_stack := [] ++ [(cmd.undo
                   ((mkCmd s w).execute w).2).1] },
               (cmd.undo ((mkCmd s w).execute w).2).2)) = _
    rw [hlast]
    rfl
  have hbridge : (((invokeGesture s inv w).1.undoStep
      (invokeGesture s inv w).2).1.redoStep
      ((invokeGesture s inv w).1.undoStep
        (invokeGesture s inv w).2).2).2 = afterRedo s w := by
    show (CommandInvoker.redoStep (CommandInvoker.undoStep
        ({ history := inv.history ++ [((mkCmd s w).execute w).1],
           redo_stack := [] }) ((mkCmd s w).execute w).2).1
        (CommandInvoker.undoStep
        ({ history := inv.history ++ [((mkCmd s w).execute w).1],
           redo_stack := [] }) ((mkCmd s w).execute w).2).2).2 = _
    rw [hu]
    rfl
  rw [hbridge]
  show sceneForest fuel (afterRedo s w) = sceneForest fuel (afterExec s w)
  cases s with
  | create parent position model =>
      exact create_redo_eq w parent position model hwf hv fuel
  | delete i => exact delete_redo_eq w i hwf hv fuel
  | move i op np => exact move_redo_eq w i op np fuel
  | cloneBranch src => exact clone_redo_eq w src hwf hv fuel

/-- Witness for the C2 theorem: on the three-node canvas, deleting node 1
through the invoker, undoing and redoing reproduces the executed forest.
-/
theorem execute_undo_redo_forest_witness :
    WFsmall ctrW ∧ RedoValid ctrW (CmdSpec.delete 1) ∧
    sceneForest 3
      ((((invokeGesture (CmdSpec.delete 1)
          ({ history := [], redo_stack := [] }) ctrW).1.undoStep
          (invokeGesture (CmdSpec.delete 1)
            ({ history := [], redo_stack := [] }) ctrW).2).1.redoStep
        ((invokeGesture (CmdSpec.delete 1)
          ({ history := [], redo_stack := [] }) ctrW).1.undoStep
          (invokeGesture (CmdSpec.delete 1)
            ({ history := [], redo_stack := [] }) ctrW).2).2).2)
      = sceneForest 3 (invokeGesture (CmdSpec.delete 1)
          ({ history := [], redo_stack := [] }) ctrW).2 := by
  have hwf : WFsmall ctrW := by
    refine ⟨by decide, ?_, ?_⟩
    · intro j hj
      have hj2 : 3 ≤ j := hj
      show decide (j < 3) = false
      exact decide_eq_false (by omega)
    · intro m hm
      rfl
  have hc : ValidCmd ctrW (CmdSpec.delete 1) := by
    refine ⟨by decide, by decide, by decide, by decide, ?_, ?_⟩
    · intro b hb ln hln
      have hb2 : b ∈ ([1] : List Nat) := hb
      have hb1 : b = 1 := by simpa using hb2
      subst hb1
      exact absurd (show (none : Option Nat) = some ln from hln) (by simp)
    · intro p hp
      have hp2 : (some 0 : Option Nat) = some p := hp
      injection hp2 with h
      exact h ▸ ⟨by decide, by decide⟩
  have hv : RedoValid ctrW (CmdSpec.delete 1) := by
    refine ⟨hc, ?_⟩
    intro p hp
    have hp2 : (some 0 : Option Nat) = some p := hp
    injection hp2 with h
    subst h
    decide
  exact ⟨hwf, hv, execute_undo_redo_forest ctrW (CmdSpec.delete 1)
    ({ history := [], redo_stack := [] }) hwf hv 3⟩

end ChatCircuit
